import Mathlib

/-! # photoprism: the media indexing pipeline

A shallow embedding of `internal/photoprism/index_mediafile.go`
(`Index.MediaFile`, `Index.NSFW`, `Index.classifyImage`).

* The relational store is a pair of row lists (`files`, `photos`) kept in
  primary-key order; `UnscopedDb().First(..)` is `List.find?` (first row in
  primary-key order, soft-deleted rows included).
* The probed `*MediaFile` is a record of the observations the indexer makes
  on it (`m.Hash()`, `m.IsJpeg()`, `m.MetaData()`, ...).
* The process-wide collaborators (configuration, file system, classifier,
  entity helpers whose code lives in other packages) are the fields of `Env`.
* Published events, store operations and written YAML sidecars are appended
  to logs carried by `World`, so that frame properties can be stated.
* `time.Time` is an integer count of nanoseconds since Go's zero time; the
  zero time is `0`.  `time.Duration` is a (signed, `int64`) integer count of
  nanoseconds.
-/

namespace Photoprism

/-! ## Data model -/

/-- Go `time.Time`: nanoseconds since the zero time instant. -/
abbrev Time := Int

/-- Go `time.Time.IsZero`. -/
def Time.IsZero (t : Time) : Bool := t == 0

/-- Go `time.Duration`: signed nanoseconds (`int64`). -/
abbrev Duration := Int

/-- Go `time.Millisecond`. -/
def Millisecond : Duration := 1000000

/-- Index status of `index_mediafile.go`, lines 22-31. -/
inductive IndexStatus where
  | unset
  | IndexUpdated
  | IndexAdded
  | IndexSkipped
  | IndexDuplicate
  | IndexArchived
  | IndexFailed
  deriving DecidableEq

/-- The string constant of every status (`IndexResult.String`). -/
def IndexStatus.toString : IndexStatus → String
  | .unset => ""
  | .IndexUpdated => "updated"
  | .IndexAdded => "added"
  | .IndexSkipped => "skipped"
  | .IndexDuplicate => "skipped duplicate"
  | .IndexArchived => "skipped archived"
  | .IndexFailed => "failed"

/-- Result record `IndexResult` (lines 33-40); the zero value is `{}`. -/
structure IndexResult where
  Status : IndexStatus := .unset
  Error : Option String := none
  FileID : Nat := 0
  FileUID : String := ""
  PhotoID : Nat := 0
  PhotoUID : String := ""
  deriving DecidableEq

/-- Method `IndexResult.Success` (lines 46-48). -/
def IndexResult.Success (r : IndexResult) : Bool :=
  r.Error.isNone && decide (r.FileID > 0)

/-- Modelled from the spec: the photo type constants of the entity package
are not part of the sources at hand; the spec lists the types image, raw,
video and live. -/
def TypeImage : String := "image"
/-- Modelled from the spec: photo type raw (`entity.TypeRaw`). -/
def TypeRaw : String := "raw"
/-- Modelled from the spec: photo type video (`entity.TypeVideo`). -/
def TypeVideo : String := "video"
/-- Modelled from the spec: photo type live (`entity.TypeLive`). -/
def TypeLive : String := "live"

/-- Modelled from the spec: the source tags of the entity package are not
part of the sources at hand; the tag of the automatic fallback (`SrcAuto`). -/
def SrcAuto : String := ""
/-- Modelled from the spec: source tag of embedded metadata (`SrcMeta`). -/
def SrcMeta : String := "meta"
/-- Modelled from the spec: source tag of an XMP sidecar (`SrcXmp`). -/
def SrcXmp : String := "xmp"

/-- Modelled from the spec: rank of a source tag in the source precedence of
the metadata merger, "explicit user edit, YAML sidecar, XMP sidecar, embedded
EXIF/XMP in the primary file, JSON sidecar, automatic fallback"; a higher
rank takes precedence and every other tag ranks with the automatic
fallback. -/
def srcPriority (src : String) : Nat :=
  if src == "manual" then 5
  else if src == "yaml" then 4
  else if src == SrcXmp then 3
  else if src == SrcMeta then 2
  else if src == "json" then 1
  else 0

/-- Row of `entity.Details` (free-text extension of a photo). -/
structure Details where
  PhotoID : Nat := 0
  Keywords : String := ""
  Notes : String := ""
  Subject : String := ""
  Artist : String := ""
  Copyright : String := ""
  deriving DecidableEq

/-- Modelled from the spec: the "is-empty" predicate `Details.NoKeywords` of
the entity package is not part of the sources at hand. -/
def Details.NoKeywords (d : Details) : Bool := d.Keywords == ""
/-- Modelled from the spec: the "is-empty" predicate `Details.NoNotes`. -/
def Details.NoNotes (d : Details) : Bool := d.Notes == ""
/-- Modelled from the spec: the "is-empty" predicate `Details.NoSubject`. -/
def Details.NoSubject (d : Details) : Bool := d.Subject == ""
/-- Modelled from the spec: the "is-empty" predicate `Details.NoArtist`. -/
def Details.NoArtist (d : Details) : Bool := d.Artist == ""
/-- Modelled from the spec: the "is-empty" predicate `Details.NoCopyright`. -/
def Details.NoCopyright (d : Details) : Bool := d.Copyright == ""

/-- Classifier label `classify.Label`. -/
structure Label where
  Name : String := ""
  Source : String := ""
  Uncertainty : Int := 0
  Priority : Int := 0
  Categories : List String := []
  deriving DecidableEq

/-- Row of `entity.Photo`, restricted to the columns the indexer reads or
writes.  Floating point columns (coordinates, f-number) are carried as
fixed-point integers; the indexer only copies and compares them. -/
structure Photo where
  ID : Nat := 0
  PhotoUID : String := ""
  UUID : String := ""
  PhotoPath : String := ""
  PhotoName : String := ""
  OriginalName : String := ""
  PhotoType : String := TypeImage
  PhotoQuality : Int := 0
  PhotoPrivate : Bool := false
  PhotoResolution : Int := 0
  DeletedAt : Option Time := none
  TakenAt : Time := 0
  TakenAtLocal : Time := 0
  TimeZone : String := ""
  TakenSrc : String := ""
  PhotoTitle : String := ""
  TitleSrc : String := ""
  PhotoDescription : String := ""
  DescriptionSrc : String := ""
  PhotoLat : Int := 0
  PhotoLng : Int := 0
  PhotoAltitude : Int := 0
  LocSrc : String := ""
  LocationID : String := ""
  PlaceID : String := ""
  PhotoCountry : String := ""
  PhotoYear : Int := 0
  PhotoMonth : Int := 0
  PhotoDay : Int := 0
  CameraSerial : String := ""
  CameraSrc : String := ""
  CameraID : Nat := 0
  LensID : Nat := 0
  PhotoFocalLength : Int := 0
  PhotoFNumber : Int := 0
  PhotoIso : Int := 0
  PhotoExposure : String := ""
  Details : Details := {}
  Labels : List Label := []

/-- Modelled from the spec: the constructor `entity.NewPhoto` is not part of
the sources at hand; a first ingest yields a photo of type image, and an
unsaved photo has no key, no unique id and no soft-delete marker. -/
def NewPhoto : Photo := {}

/-- Modelled from the spec: the method `Photo.NoCameraSerial` is not part of
the sources at hand; the camera serial is empty. -/
def Photo.NoCameraSerial (p : Photo) : Bool := p.CameraSerial == ""

/-- Row of `entity.File`, restricted to the columns the indexer reads or
writes. -/
structure File where
  ID : Nat := 0
  PhotoID : Nat := 0
  PhotoUID : String := ""
  FileUID : String := ""
  UUID : String := ""
  FileName : String := ""
  FileRoot : String := ""
  OriginalName : String := ""
  FileHash : String := ""
  FileSize : Int := 0
  FileModified : Time := 0
  FileType : String := ""
  FileMime : String := ""
  FileCodec : String := ""
  FilePrimary : Bool := false
  FileSidecar : Bool := false
  FileVideo : Bool := false
  FileMissing : Bool := false
  FileError : String := ""
  FileDuration : Duration := 0
  FileWidth : Int := 0
  FileHeight : Int := 0
  FileAspectRatio : Rat := 0
  FilePortrait : Bool := false
  FileOrientation : Int := 0
  FileMainColor : String := ""
  FileColors : String := ""
  FileLuminance : String := ""
  FileDiff : Int := 0
  FileChroma : Int := 0
  DeletedAt : Option Time := none
  UpdatedIn : Int := 0
  CreatedIn : Int := 0

/-- Modelled from the spec: `entity.File.Changed(fileSize, fileModified)` is
not part of the sources at hand.  The call site (line 122) passes the probed
size and modification time only, and the spec says the file counts as changed
when size or modification time differ from the bound file row. -/
def File.Changed (f : File) (fileSize : Int) (fileModified : Time) : Bool :=
  f.FileSize != fileSize || f.FileModified != fileModified

/-- Embedded metadata `meta.Data` as observed by the indexer; the predicates
and derived figures (`HasInstanceID()`, `ActualWidth()`, ...) are carried as
observations. -/
structure MetaData where
  Error : Option String := none
  Title : String := ""
  Description : String := ""
  Comment : String := ""
  Subject : String := ""
  Keywords : String := ""
  Artist : String := ""
  CameraOwner : String := ""
  CameraSerial : String := ""
  DocumentID : String := ""
  InstanceID : String := ""
  HasDocumentID : Bool := false
  HasInstanceID : Bool := false
  HasTimeAndPlace : Bool := false
  TakenAt : Time := 0
  TakenAtLocal : Time := 0
  TimeZone : String := ""
  Lat : Int := 0
  Lng : Int := 0
  Altitude : Int := 0
  Codec : String := ""
  Duration : Duration := 0
  ActualWidth : Int := 0
  ActualHeight : Int := 0
  AspectRatio : Rat := 0
  Portrait : Bool := false
  Megapixels : Int := 0

/-- Result of `m.Colors(thumbPath)`, already rendered to column values. -/
structure ColorPerception where
  MainColor : String := ""
  Colors : String := ""
  Luminance : String := ""
  Diff : Int := 0
  Chroma : Int := 0

/-- Result of `meta.XMP(fileName)`. -/
structure XmpData where
  Title : String := ""
  Description : String := ""
  Comment : String := ""
  Artist : String := ""
  Copyright : String := ""

/-- The probed media file: every method of `*MediaFile` the indexer calls is
a field holding what the call returns. -/
structure MediaFile where
  fileRoot : String := ""
  fileBase : String := ""
  filePath : String := ""
  fileName : String := ""
  FileName : String := ""
  fileSize : Int := 0
  fileModified : Time := 0
  Hash : String := ""
  IsSidecar : Bool := false
  IsJpeg : Bool := false
  IsXMP : Bool := false
  IsRaw : Bool := false
  IsHEIF : Bool := false
  IsImageOther : Bool := false
  IsVideo : Bool := false
  MetaData : MetaData := {}
  Colors : Except String ColorPerception := .error "no colors"
  XMP : Except String XmpData := .error "no xmp"
  Width : Int := 0
  Height : Int := 0
  AspectRatio : Rat := 0
  FileType : String := ""
  MimeType : String := ""
  Orientation : Int := 0
  CameraModel : String := ""
  CameraMake : String := ""
  LensModel : String := ""
  LensMake : String := ""
  FocalLength : Int := 0
  FNumber : Int := 0
  Iso : Int := 0
  Exposure : String := ""
  TakenAt : Time × String := (0, "")
  Thumbnail : String → Except String String := fun _ => .error "no thumbnail"
  RelativeName : String := ""

/-- Options `IndexOptions`, observed through `o.SkipUnchanged()`. -/
structure IndexOptions where
  SkipUnchanged : Bool := false
  deriving DecidableEq

/-- Read-only configuration getters used by the indexer. -/
structure Config where
  Group : Bool := false
  TensorFlowOff : Bool := true
  FeaturesPrivate : Bool := false
  DetectNSFW : Bool := false
  SidecarYaml : Bool := false
  SidecarPath : String := ""
  OriginalsPath : String := ""
  ThumbPath : String := ""
  GeoCodingApi : String := ""

/-- Scores returned by the NSFW detector, observed through the comparison
with `nsfw.ThresholdHigh`. -/
structure NsfwLabels where
  exceedsHigh : Bool := false
  deriving DecidableEq

/-- Events published on the event bus. -/
inductive Event where
  | indexing (fileHash : String) (fileSize : Int) (fileName fileRoot baseName : String)
  | countPhotos
  | countPrivate
  | countVideos
  | countFiles
  | entitiesCreatedPhotos (p : Photo)

/-- Topic string of an event. -/
def Event.topic : Event → String
  | .indexing .. => "index.indexing"
  | .countPhotos => "count.photos"
  | .countPrivate => "count.private"
  | .countVideos => "count.videos"
  | .countFiles => "count.files"
  | .entitiesCreatedPhotos _ => "entities.created"

/-- Store operations issued by the indexer. -/
inductive StoreOp where
  | findFile
  | findPhoto
  | firstOrCreateDetails
  | firstOrCreateCamera
  | firstOrCreateLens
  | updateLocation
  | photoCreate
  | photoSave
  | addLabels
  | syncKeywordLabels
  | indexKeywords
  | fileCreate
  | fileSave
  | updateVideoInfos
  | setDownloadFileID
  deriving DecidableEq

/-- Reads leave every table unchanged. -/
def StoreOp.isWrite : StoreOp → Bool
  | .findFile => false
  | .findPhoto => false
  | _ => true

/-- One executed store operation with the error it returned, if any. -/
structure OpRecord where
  op : StoreOp
  err : Option String := none
  deriving DecidableEq

/-- Errors returned by the fallible operations of one run (`none`: the
operation succeeds when it is reached). -/
structure Faults where
  photoSave : Option String := none
  photoCreate : Option String := none
  photoSaveFinal : Option String := none
  syncKeywordLabels : Option String := none
  indexKeywords : Option String := none
  fileSave : Option String := none
  fileCreate : Option String := none
  updateVideoInfos : Option String := none
  setDownloadFileID : Option String := none
  saveAsYaml : Option String := none

/-- Collaborators of one run of the indexer: configuration, file system,
classifiers, and the helpers of the `entity`, `txt` and `fs` packages whose
results the indexer stores without inspecting them. -/
structure Env where
  conf : Config := {}
  faults : Faults := {}
  /-- Call `fs.FileExists`. -/
  fileExists : String → Bool := fun _ => false
  /-- Call `FileName(root, name)`: absolute name of a file row. -/
  FileName : String → String → String := fun r n => r ++ "/" ++ n
  /-- Call `fs.TypeYaml.FindFirst`: YAML sidecar of a probed file, or `""`. -/
  findYaml : MediaFile → String := fun _ => ""
  /-- Call `photo.LoadFromYaml`. -/
  loadFromYaml : String → Photo → Except String Photo := fun _ _ => .error "no yaml"
  /-- Call `tensorFlow.File`. -/
  tensorFlow : String → Except String (List Label) := fun _ => .error "off"
  /-- Call `nsfwDetector.File`. -/
  nsfwDetector : String → Except String NsfwLabels := fun _ => .error "off"
  /-- Value written by `photo.SetTitle`: new title and title source. -/
  setTitle : Photo → String → String → String × String := fun p _ _ => (p.PhotoTitle, p.TitleSrc)
  /-- Value written by `photo.SetDescription`. -/
  setDescription : Photo → String → String → String × String :=
    fun p _ _ => (p.PhotoDescription, p.DescriptionSrc)
  /-- Value written by `photo.SetTakenAt`: UTC, local, zone and source. -/
  setTakenAt : Photo → Time → Time → String → String → Time × Time × String × String :=
    fun p _ _ _ _ => (p.TakenAt, p.TakenAtLocal, p.TimeZone, p.TakenSrc)
  /-- Value written by `photo.SetCoordinates`. -/
  setCoordinates : Photo → Int → Int → Int → String → Int × Int × Int × String :=
    fun p _ _ _ _ => (p.PhotoLat, p.PhotoLng, p.PhotoAltitude, p.LocSrc)
  /-- Call `entity.FirstOrCreateCamera(entity.NewCamera(model, make))`. -/
  firstOrCreateCamera : String → String → Option Nat := fun _ _ => none
  /-- Call `entity.FirstOrCreateLens(entity.NewLens(model, make))`. -/
  firstOrCreateLens : String → String → Option Nat := fun _ _ => none
  /-- Identifier `entity.UnknownCamera.ID`. -/
  unknownCameraID : Nat := 1
  /-- Identifier `entity.UnknownLens.ID`. -/
  unknownLensID : Nat := 1
  /-- Call `photo.UpdateLocation`: location id, place id, country, location
  keywords and location labels. -/
  updateLocation : Photo → String → (String × String × String) × List String × List Label :=
    fun p _ => ((p.LocationID, p.PlaceID, p.PhotoCountry), [], [])
  /-- Identifier `entity.UnknownLocation.ID`. -/
  unknownLocationID : String := "zz"
  /-- Identifier `entity.UnknownPlace.ID`. -/
  unknownPlaceID : String := "zz"
  /-- Predicate `photo.UnknownLocation`. -/
  isUnknownLocation : Photo → Bool := fun p => p.LocationID == ""
  /-- Predicate `photo.UnknownPlace`. -/
  isUnknownPlace : Photo → Bool := fun p => p.PlaceID == ""
  /-- Value written by `photo.UpdateDateFields`: year, month, day. -/
  updateDateFields : Photo → Int × Int × Int := fun p => (p.PhotoYear, p.PhotoMonth, p.PhotoDay)
  /-- Value written by `photo.UpdateTitle(labels)`. -/
  updateTitle : Photo → List Label → String × String := fun p _ => (p.PhotoTitle, p.TitleSrc)
  /-- Labels merged by `photo.AddLabels`. -/
  addLabels : Photo → List Label → List Label := fun p ls => p.Labels ++ ls
  /-- Call `photo.ClassifyLabels`. -/
  classifyLabels : Photo → List Label := fun p => p.Labels
  /-- Call `labels.Keywords`. -/
  labelKeywords : List Label → List String := fun ls => ls.map (fun l => l.Name)
  /-- Call `photo.QualityScore`; by the spec the scorer yields a non-negative
  integer. -/
  qualityScore : Photo → Nat := fun _ => 0
  /-- Call `txt.Keywords`. -/
  Keywords : String → List String := fun s => (s.splitOn ", ").filter (fun x => x != "")
  /-- Call `txt.FilenameKeywords`. -/
  FilenameKeywords : String → List String := fun _ => []
  /-- Call `txt.UniqueWords`. -/
  UniqueWords : List String → List String := fun ws => (ws.filter (fun x => x != "")).eraseDups
  /-- Call `fs.IsID`. -/
  IsID : String → Bool := fun _ => false
  /-- Call `fs.Base(name, stripSequence)`. -/
  Base : String → Bool → String := fun s _ => s
  /-- Unique id generated for a created photo (given its row id). -/
  newPhotoUID : Nat → String := fun n => "p" ++ toString n
  /-- Unique id generated for a created file (given its row id). -/
  newFileUID : Nat → String := fun n => "f" ++ toString n
  /-- Value of `int64(time.Since(start))` when the file row is persisted. -/
  elapsed : Int := 0
  /-- Call `photo.YamlFileName(originalsPath, sidecarPath)`. -/
  yamlFileName : Photo → String → String → String := fun p _ s => s ++ "/" ++ p.PhotoName ++ ".yml"

/-- The store, the event bus and the written sidecars. -/
structure World where
  files : List File := []
  photos : List Photo := []
  events : List Event := []
  ops : List OpRecord := []
  downloads : List (String × Nat) := []
  yamls : List (String × Photo) := []

/-- Call `event.Publish` (and `event.EntitiesCreated`). -/
def World.publish (w : World) (e : Event) : World :=
  { w with events := w.events ++ [e] }

/-- Record an executed store operation. -/
def World.log (w : World) (op : StoreOp) (err : Option String := none) : World :=
  { w with ops := w.ops ++ [{ op := op, err := err }] }

/-! ## Store operations -/

/-- Call `query.SetDownloadFileID(name, id)` when it succeeds. -/
def World.addDownload (w : World) (name : String) (id : Nat) : World :=
  { w with downloads := w.downloads ++ [(name, id)] }

/-- Call `photo.SaveAsYaml(yamlFile)` when it succeeds. -/
def World.addYaml (w : World) (yamlFile : String) (p : Photo) : World :=
  { w with yamls := w.yamls ++ [(yamlFile, p)] }

/-- Next auto-increment key of the photos table. -/
def nextPhotoID (photos : List Photo) : Nat :=
  (photos.map (fun p => p.ID)).foldl max 0 + 1

/-- Next auto-increment key of the files table. -/
def nextFileID (files : List File) : Nat :=
  (files.map (fun f => f.ID)).foldl max 0 + 1

/-- The row inserted for a created photo: the store assigns the primary key
and the create hook a unique id when the photo carries none. -/
def newPhotoRow (env : Env) (photos : List Photo) (p : Photo) : Photo :=
  { p with ID := if p.ID == 0 then nextPhotoID photos else p.ID,
           PhotoUID := if p.PhotoUID == "" then
               env.newPhotoUID (if p.ID == 0 then nextPhotoID photos else p.ID)
             else p.PhotoUID }

/-- Modelled from the spec: `photo.Create()` (`createPhoto` of the
persistence adapter) is not part of the sources at hand.  It inserts the
photo as a new row, the store assigning the primary key and the create hook
a unique id when the photo carries none. -/
def World.createPhoto (env : Env) (w : World) (p : Photo) : Photo × World :=
  (newPhotoRow env w.photos p, { w with photos := w.photos ++ [newPhotoRow env w.photos p] })

/-- Rows of the photos table after all columns of the row with the key of
`p` were written, the row being inserted when there is none. -/
def savePhotoRows (photos : List Photo) (p : Photo) : List Photo :=
  if photos.any (fun q => q.ID == p.ID) then photos.map (fun q => if q.ID == p.ID then p else q)
  else photos ++ [p]

/-- Modelled from the spec: `photo.Save()` (`savePhoto` of the persistence
adapter) is not part of the sources at hand.  It writes all columns of the
row with the photo's primary key, inserting the row when there is none. -/
def World.savePhoto (w : World) (p : Photo) : World :=
  { w with photos := savePhotoRows w.photos p }

/-- The row inserted for a created file: the store assigns the primary key
and the create hook a unique id when the file carries none. -/
def newFileRow (env : Env) (files : List File) (f : File) : File :=
  { f with ID := if f.ID == 0 then nextFileID files else f.ID,
           FileUID := if f.FileUID == "" then
               env.newFileUID (if f.ID == 0 then nextFileID files else f.ID)
             else f.FileUID }

/-- Modelled from the spec: `file.Create()` (`createFile` of the persistence
adapter) is not part of the sources at hand.  It inserts the file as a new
row, the store assigning the primary key and the create hook a unique id when
the file carries none. -/
def World.createFile (env : Env) (w : World) (f : File) : File × World :=
  (newFileRow env w.files f, { w with files := w.files ++ [newFileRow env w.files f] })

/-- Rows of the files table after all columns of the row with the key of `f`
were written, the row being inserted when there is none. -/
def saveFileRows (files : List File) (f : File) : List File :=
  if files.any (fun g => g.ID == f.ID) then files.map (fun g => if g.ID == f.ID then f else g)
  else files ++ [f]

/-- Modelled from the spec: `file.Save()` (`saveFile` of the persistence
adapter) is not part of the sources at hand.  It writes all columns of the
row with the file's primary key, inserting the row when there is none. -/
def World.saveFile (w : World) (f : File) : World :=
  { w with files := saveFileRows w.files f }

/-- Modelled from the spec: `photo.Find()` is not part of the sources at
hand.  It re-queries the store for the hydrated photo, by unique id when the
photo has one and by primary key otherwise, and loads the matching row. -/
def World.findPhoto (w : World) (p : Photo) : Option Photo :=
  if p.PhotoUID != "" then w.photos.find? (fun q => q.PhotoUID == p.PhotoUID)
  else if p.ID != 0 then w.photos.find? (fun q => q.ID == p.ID)
  else none

/-! ## Identity resolution (lines 89-129) -/

/-- Outcome of the file lookup: the bound row (the zero row when none),
whether a row was bound, whether the last file query succeeded
(`fileQuery.Error == nil`), the content hash when it was computed, and the
duplicate short-circuit. -/
structure FileLookup where
  file : File := {}
  fileExists : Bool := false
  fileQueryOk : Bool := false
  fileHash : String := ""
  duplicate : Bool := false

/-- File lookup of lines 89-106: by name, then (unless a sidecar) by content
hash with the duplicate check, then by embedded instance id. -/
def lookupFile (env : Env) (w : World) (m : MediaFile) : FileLookup × World :=
  let w := w.log .findFile
  match w.files.find? (fun f => f.FileName == m.fileName) with
  | some f => ({ file := f, fileExists := true, fileQueryOk := true }, w)
  | none =>
    if m.IsSidecar then ({}, w)
    else
      let fileHash := m.Hash
      let w := w.log .findFile
      match w.files.find? (fun f => f.FileHash == fileHash) with
      | some f =>
        if env.fileExists (env.FileName f.FileRoot f.FileName) then
          ({ file := f, fileExists := true, fileQueryOk := true, fileHash := fileHash,
             duplicate := true }, w)
        else
          ({ file := f, fileExists := true, fileQueryOk := true, fileHash := fileHash }, w)
      | none =>
        if m.MetaData.HasInstanceID then
          let w := w.log .findFile
          match w.files.find? (fun f => f.UUID == m.MetaData.InstanceID) with
          | some f => ({ file := f, fileExists := true, fileQueryOk := true, fileHash := fileHash }, w)
          | none => ({ fileHash := fileHash }, w)
        else ({ fileHash := fileHash }, w)

/-- Outcome of the photo lookup: the photo (a new photo when none was found),
whether the last photo query succeeded, and `fileChanged`. -/
structure PhotoLookup where
  photo : Photo := NewPhoto
  photoExists : Bool := false
  fileChanged : Bool := true

/-- Photo lookup of lines 108-129. -/
def lookupPhoto (w : World) (m : MediaFile) (fl : FileLookup) : PhotoLookup × World :=
  if !fl.fileExists then
    let q1 := w.photos.find? (fun p => p.PhotoPath == m.filePath && p.PhotoName == m.fileBase)
    let w1 := w.log .findPhoto
    let try2 := q1.isNone && m.MetaData.HasTimeAndPlace
    let q2 := if try2 then
        w.photos.find? (fun p => p.PhotoLat == m.MetaData.Lat && p.PhotoLng == m.MetaData.Lng
          && p.TakenAt == m.MetaData.TakenAt)
      else q1
    let w2 := if try2 then w1.log .findPhoto else w1
    let try3 := q2.isNone && m.MetaData.HasDocumentID
    let q3 := if try3 then w.photos.find? (fun p => p.UUID == m.MetaData.DocumentID) else q2
    let w3 := if try3 then w2.log .findPhoto else w2
    ({ photo := q3.getD NewPhoto, photoExists := q3.isSome, fileChanged := true }, w3)
  else
    let q := w.photos.find? (fun p => p.ID == fl.file.PhotoID)
    ({ photo := q.getD NewPhoto, photoExists := q.isSome,
       fileChanged := fl.file.Changed m.fileSize m.fileModified }, w.log .findPhoto)

/-! ## Local state of one run -/

/-- Local variables of `Index.MediaFile` that survive the resolution. -/
structure IndexState where
  photo : Photo := NewPhoto
  file : File := {}
  details : Details := {}
  primaryFile : File := {}
  labels : List Label := []
  locKeywords : List String := []
  photoExists : Bool := false
  fileQueryOk : Bool := false
  fileChanged : Bool := true
  fileHash : String := ""

/-- YAML restore of lines 138-151. -/
def restoreFromYaml (env : Env) (w : World) (m : MediaFile) (photo : Photo)
    (photoExists : Bool) : (Photo × Bool) × World :=
  if photoExists then ((photo, true), w)
  else
    let photo := { photo with PhotoQuality := -1 }
    let yamlName := env.findYaml m
    if yamlName != "" then
      match env.loadFromYaml yamlName photo with
      | .error _ => ((photo, false), w)
      | .ok loaded =>
        match (w.log .findPhoto).findPhoto loaded with
        | none => ((loaded, false), w.log .findPhoto)
        | some q => ((q, true), w.log .findPhoto)
    else ((photo, false), w)

/-- Primary-file rule of lines 160-168: a file that is not primary yet
becomes primary when it is a JPEG, unless its photo exists and already has a
primary JPEG (which is then remembered as `primaryFile`). -/
def establishPrimary (w : World) (m : MediaFile) (photo : Photo) (photoExists : Bool)
    (file : File) : (File × File) × World :=
  if !file.FilePrimary then
    if photoExists then
      match w.files.find? (fun f => f.FileType == "jpg" && f.FilePrimary && f.PhotoID == photo.ID) with
      | some pf => ((file, pf), w.log .findFile)
      | none => (({ file with FilePrimary := m.IsJpeg }, {}), w.log .findFile)
    else (({ file with FilePrimary := m.IsJpeg }, {}), w)
  else ((file, {}), w)

/-- Lines 170-176: remember the original name of an imported file. -/
def applyOriginalName (env : Env) (originalName : String) (photo : Photo) (file : File) :
    Photo × File :=
  if originalName != "" then
    let file := { file with OriginalName := originalName }
    if file.FilePrimary && photo.OriginalName == "" then
      ({ photo with OriginalName := env.Base originalName env.conf.Group }, file)
    else (photo, file)
  else (photo, file)

/-- Lines 136-176: details, YAML restore, hash, path and name, primary-file
rule and original name. -/
def prepare (env : Env) (w : World) (m : MediaFile) (originalName : String)
    (fl : FileLookup) (pl : PhotoLookup) : IndexState × World :=
  let details := pl.photo.Details
  let w := w.log .firstOrCreateDetails
  let r := restoreFromYaml env w m pl.photo pl.photoExists
  let photoExists := r.1.2
  let fileHash := if fl.fileHash == "" then m.Hash else fl.fileHash
  let photo := { r.1.1 with PhotoPath := m.filePath, PhotoName := m.fileBase }
  let pr := establishPrimary r.2 m photo photoExists fl.file
  let named := applyOriginalName env originalName photo pr.1.1
  ({ photo := named.1, file := named.2, details := details, primaryFile := pr.1.2,
     photoExists := photoExists, fileQueryOk := fl.fileQueryOk, fileChanged := pl.fileChanged,
     fileHash := fileHash }, pr.2)

/-! ## Metadata merge (lines 187-482) -/

/-- Call `photo.SetTitle(title, src)`. -/
def Photo.SetTitle (env : Env) (p : Photo) (title src : String) : Photo :=
  { p with PhotoTitle := (env.setTitle p title src).1, TitleSrc := (env.setTitle p title src).2 }

/-- Call `photo.SetDescription(desc, src)`. -/
def Photo.SetDescription (env : Env) (p : Photo) (desc src : String) : Photo :=
  { p with PhotoDescription := (env.setDescription p desc src).1,
           DescriptionSrc := (env.setDescription p desc src).2 }

/-- Call `photo.SetTakenAt(utc, local, zone, src)`. -/
def Photo.SetTakenAt (env : Env) (p : Photo) (utc loc : Time) (zone src : String) : Photo :=
  { p with TakenAt := (env.setTakenAt p utc loc zone src).1,
           TakenAtLocal := (env.setTakenAt p utc loc zone src).2.1,
           TimeZone := (env.setTakenAt p utc loc zone src).2.2.1,
           TakenSrc := (env.setTakenAt p utc loc zone src).2.2.2 }

/-- Call `photo.SetCoordinates(lat, lng, altitude, src)`. -/
def Photo.SetCoordinates (env : Env) (p : Photo) (lat lng alt : Int) (src : String) : Photo :=
  { p with PhotoLat := (env.setCoordinates p lat lng alt src).1,
           PhotoLng := (env.setCoordinates p lat lng alt src).2.1,
           PhotoAltitude := (env.setCoordinates p lat lng alt src).2.2.1,
           LocSrc := (env.setCoordinates p lat lng alt src).2.2.2 }

/-- Line 258 (and 315, 410): fill in the camera serial when the photo has
none. -/
def Photo.fillCameraSerial (p : Photo) (md : MetaData) : Photo :=
  if p.NoCameraSerial then { p with CameraSerial := md.CameraSerial } else p

/-- Line 262 (and 319, 414): take over the document id when the photo has
none. -/
def Photo.fillDocumentID (p : Photo) (md : MetaData) : Photo :=
  if md.HasDocumentID && p.UUID == "" then { p with UUID := md.DocumentID } else p

/-- Photo part of the block the source repeats at lines 233-272, 290-329
and 385-424: title, description, time, coordinates, camera serial and
document id, in this order. -/
def mergeMetaPhoto (env : Env) (md : MetaData) (photo : Photo) : Photo :=
  (((((photo.SetTitle env md.Title SrcMeta).SetDescription env md.Description SrcMeta).SetTakenAt
    env md.TakenAt md.TakenAtLocal md.TimeZone SrcMeta).SetCoordinates
    env md.Lat md.Lng md.Altitude SrcMeta).fillCameraSerial md).fillDocumentID md

/-- Details part of the repeated block: notes, subject, keywords and artist
are filled in when they are empty. -/
def mergeMetaDetails (md : MetaData) (details : Details) : Details :=
  let details := if details.NoNotes then { details with Notes := md.Comment } else details
  let details := if details.NoSubject then { details with Subject := md.Subject } else details
  let details := if details.NoKeywords then { details with Keywords := md.Keywords } else details
  let details :=
    if details.NoArtist && md.Artist != "" then { details with Artist := md.Artist } else details
  if details.NoArtist && md.CameraOwner != "" then { details with Artist := md.CameraOwner }
  else details

/-- File part of the repeated block: the instance id. -/
def mergeMetaFile (md : MetaData) (file : File) : File :=
  if md.HasInstanceID && file.UUID == "" then { file with UUID := md.InstanceID } else file

/-- The block the source repeats at lines 233-272, 290-329 and 385-424:
merge embedded metadata into photo, details and file. -/
def mergeMeta (env : Env) (md : MetaData) (st : IndexState) : IndexState :=
  { st with photo := mergeMetaPhoto env md st.photo,
            details := mergeMetaDetails md st.details,
            file := mergeMetaFile md st.file }

/-- Rounded megapixels of line 207, `int(math.Round(float64(w*h) / 1000000))`,
for the positive dimensions the guard of line 201 lets through.  The model
computes in exact integer arithmetic; the Go expression wraps `int` at 2^63
and rounds through `float64`, which matters only for pixel counts far beyond
those of an image. -/
def megapixels (width height : Int) : Int := (width * height + 500000) / 1000000

/-- Lines 209-211 (and 280, 338): raise the resolution of the photo. -/
def Photo.raiseResolution (p : Photo) (res : Int) : Photo :=
  if res > p.PhotoResolution then { p with PhotoResolution := res } else p

/-- Lines 191-199: the color fingerprint of a JPEG. -/
def File.setColors (file : File) (m : MediaFile) : File :=
  match m.Colors with
  | .error _ => file
  | .ok p => { file with FileMainColor := p.MainColor, FileColors := p.Colors,
                         FileLuminance := p.Luminance, FileDiff := p.Diff, FileChroma := p.Chroma }

/-- JPEG branch of the switch (lines 189-212). -/
def mergeJpeg (m : MediaFile) (st : IndexState) : IndexState :=
  if m.Width > 0 && m.Height > 0 then
    { st with file := { st.file.setColors m with
                          FileWidth := m.Width, FileHeight := m.Height,
                          FileAspectRatio := m.AspectRatio,
                          FilePortrait := decide (m.Width < m.Height) },
              photo := st.photo.raiseResolution (megapixels m.Width m.Height) }
  else { st with file := st.file.setColors m }

/-- Details part of the XMP branch (lines 219-229). -/
def mergeXmpDetails (data : XmpData) (details : Details) : Details :=
  let details :=
    if details.NoNotes && data.Comment != "" then { details with Notes := data.Comment }
    else details
  let details :=
    if details.NoArtist && data.Artist != "" then { details with Artist := data.Artist }
    else details
  if details.NoCopyright && data.Copyright != "" then
    { details with Copyright := data.Copyright }
  else details

/-- XMP branch of the switch (lines 213-230). -/
def mergeXmp (env : Env) (m : MediaFile) (st : IndexState) : IndexState :=
  match m.XMP with
  | .error _ => st
  | .ok data =>
    { st with photo := (st.photo.SetTitle env data.Title SrcXmp).SetDescription env
                         data.Description SrcXmp,
              details := mergeXmpDetails data st.details }

/-- Lines 232-283: embedded metadata of a RAW, HEIF or other image. -/
def mergeRawMeta (env : Env) (m : MediaFile) (st : IndexState) : IndexState :=
  { st with photo := (mergeMetaPhoto env m.MetaData st.photo).raiseResolution
                       m.MetaData.Megapixels,
            details := mergeMetaDetails m.MetaData st.details,
            file := { mergeMetaFile m.MetaData st.file with
                        FileCodec := m.MetaData.Codec,
                        FileWidth := m.MetaData.ActualWidth,
                        FileHeight := m.MetaData.ActualHeight,
                        FileAspectRatio := m.MetaData.AspectRatio,
                        FilePortrait := m.MetaData.Portrait } }

/-- Lines 285-287: a RAW file turns an image into a raw photo. -/
def Photo.markRaw (p : Photo) (m : MediaFile) : Photo :=
  if m.IsRaw && p.PhotoType == TypeImage then { p with PhotoType := TypeRaw } else p

/-- RAW, HEIF and other-image branch of the switch (lines 231-287). -/
def mergeRaw (env : Env) (m : MediaFile) (st : IndexState) : IndexState :=
  let st := if m.MetaData.Error.isNone then mergeRawMeta env m st else st
  { st with photo := st.photo.markRaw m }

/-- Lines 289-341: embedded metadata of a video. -/
def mergeVideoMeta (env : Env) (m : MediaFile) (st : IndexState) : IndexState :=
  { st with photo := (mergeMetaPhoto env m.MetaData st.photo).raiseResolution
                       m.MetaData.Megapixels,
            details := mergeMetaDetails m.MetaData st.details,
            file := { mergeMetaFile m.MetaData st.file with
                        FileCodec := m.MetaData.Codec,
                        FileWidth := m.MetaData.ActualWidth,
                        FileHeight := m.MetaData.ActualHeight,
                        FileDuration := m.MetaData.Duration,
                        FileAspectRatio := m.MetaData.AspectRatio,
                        FilePortrait := m.MetaData.Portrait } }

/-- Lines 343-347: live or video, by the duration of the file. -/
def videoType (d : Duration) : String :=
  if d == 0 || d > Millisecond * 3100 then TypeVideo else TypeLive

/-- Lines 349-362: a video inherits dimensions and colors of the primary
file. -/
def File.inheritPrimary (file pf : File) : File :=
  let file :=
    if file.FileWidth == 0 && pf.FileWidth > 0 then
      { file with FileWidth := pf.FileWidth, FileHeight := pf.FileHeight,
                  FileAspectRatio := pf.FileAspectRatio, FilePortrait := pf.FilePortrait }
    else file
  if pf.FileDiff > 0 then
    { file with FileDiff := pf.FileDiff, FileMainColor := pf.FileMainColor,
                FileChroma := pf.FileChroma, FileLuminance := pf.FileLuminance,
                FileColors := pf.FileColors }
  else file

/-- Video branch of the switch (lines 288-362). -/
def mergeVideo (env : Env) (m : MediaFile) (st : IndexState) : IndexState :=
  let st := if m.MetaData.Error.isNone then mergeVideoMeta env m st else st
  { st with photo := { st.photo with PhotoType := videoType st.file.FileDuration },
            file := st.file.inheritPrimary st.primaryFile }

/-- The switch on the file kind (lines 188-363); the first case that applies
is taken. -/
def mergeKind (env : Env) (m : MediaFile) (st : IndexState) : IndexState :=
  if m.IsJpeg then mergeJpeg m st
  else if m.IsXMP then mergeXmp env m st
  else if m.IsRaw || m.IsHEIF || m.IsImageOther then mergeRaw env m st
  else if m.IsVideo then mergeVideo env m st
  else st

/-! ## Classifier gate (lines 644-718) -/

/-- Modelled from the spec: the order `classify.Labels` sorts by is not part
of the sources at hand; the spec gives priority ascending, then uncertainty
ascending. -/
def Label.le (a b : Label) : Bool :=
  decide (a.Priority < b.Priority) ||
    (a.Priority == b.Priority && decide (a.Uncertainty ≤ b.Uncertainty))

/-- Call `sort.Sort(labels)`.  The sort of Go is not stable; the model fixes
the order of labels that compare equal to that of a stable sort. -/
def sortLabels (labels : List Label) : List Label := labels.mergeSort Label.le

/-- One round of the selection loop of lines 703-711: the state is the
reference confidence and the labels selected so far. -/
def selectLabel (acc : Int × List Label) (label : Label) : Int × List Label :=
  let confidence := if acc.1 == 0 then 100 - label.Uncertainty else acc.1
  if 100 - label.Uncertainty > Int.tdiv confidence 3 then (confidence, acc.2 ++ [label])
  else (confidence, acc.2)

/-- Crops requested by `classifyImage` (lines 672-676). -/
def classifyThumbs (jpeg : MediaFile) : List String :=
  if jpeg.AspectRatio == 1 then ["tile_224"] else ["tile_224", "left_224", "right_224"]

/-- Labels accumulated over the crops (lines 680-696); a crop whose thumbnail
or classification fails is skipped. -/
def accumulateLabels (env : Env) (jpeg : MediaFile) : List Label :=
  (classifyThumbs jpeg).foldl (fun labels thumb =>
    match jpeg.Thumbnail thumb with
    | .error _ => labels
    | .ok filename =>
      match env.tensorFlow filename with
      | .error _ => labels
      | .ok imageLabels => labels ++ imageLabels) []

/-- Method `Index.classifyImage` (lines 667-718). -/
def Index.classifyImage (env : Env) (jpeg : MediaFile) : List Label :=
  ((sortLabels (accumulateLabels env jpeg)).foldl selectLabel (0, [])).2

/-- Method `Index.NSFW` (lines 645-664). -/
def Index.NSFW (env : Env) (jpeg : MediaFile) : Bool :=
  match jpeg.Thumbnail "fit_720" with
  | .error _ => false
  | .ok filename =>
    match env.nsfwDetector filename with
    | .error _ => false
    | .ok nsfwLabels => if nsfwLabels.exceedsHigh then true else false

/-! ## Primary file: classification, metadata, camera, time, location
(lines 371-459) -/

/-- Camera, lens and exposure of lines 427-449. -/
def updateCamera (env : Env) (w : World) (m : MediaFile) (photo : Photo) : Photo × World :=
  if photo.CameraSrc == SrcAuto then
    let w := w.log .firstOrCreateCamera
    let photo := { photo with CameraID := (env.firstOrCreateCamera m.CameraModel m.CameraMake).getD
                                env.unknownCameraID }
    let w := w.log .firstOrCreateLens
    let photo := { photo with LensID := (env.firstOrCreateLens m.LensModel m.LensMake).getD
                                env.unknownLensID }
    ({ photo with PhotoFocalLength := m.FocalLength, PhotoFNumber := m.FNumber,
                  PhotoIso := m.Iso, PhotoExposure := m.Exposure }, w)
  else (photo, w)

/-- Call `photo.UpdateLocation(api)`; only the location columns change. -/
def Photo.UpdateLocation (env : Env) (p : Photo) : Photo :=
  { p with LocationID := (env.updateLocation p env.conf.GeoCodingApi).1.1,
           PlaceID := (env.updateLocation p env.conf.GeoCodingApi).1.2.1,
           PhotoCountry := (env.updateLocation p env.conf.GeoCodingApi).1.2.2 }

/-- Lines 374-381: image classification, and NSFW detection for a photo
that does not exist yet. -/
def classifyGate (env : Env) (m : MediaFile) (st : IndexState) : IndexState :=
  if !env.conf.TensorFlowOff then
    if !st.photoExists && env.conf.FeaturesPrivate && env.conf.DetectNSFW then
      { st with labels := Index.classifyImage env m,
                photo := { st.photo with PhotoPrivate := Index.NSFW env m } }
    else { st with labels := Index.classifyImage env m }
  else st

/-- Lines 451-454: fall back to the time the probe reports for the file. -/
def Photo.takenAtFallback (env : Env) (p : Photo) (m : MediaFile) : Photo :=
  if Time.IsZero p.TakenAt || Time.IsZero p.TakenAtLocal then
    p.SetTakenAt env m.TakenAt.1 m.TakenAt.1 "" m.TakenAt.2
  else p

/-- Lines 371-459: what is done for a primary file only. -/
def mergePrimary (env : Env) (w : World) (m : MediaFile) (st : IndexState) :
    IndexState × World :=
  if st.file.FilePrimary then
    let st1 := classifyGate env m { st with primaryFile := st.file }
    let st2 := if m.MetaData.Error.isNone then mergeMeta env m.MetaData st1 else st1
    let cam := updateCamera env w m st2.photo
    let photo := cam.1.takenAtFallback env m
    let loc := env.updateLocation photo env.conf.GeoCodingApi
    ({ st2 with photo := photo.UpdateLocation env, locKeywords := loc.2.1,
                labels := st2.labels ++ loc.2.2 },
     cam.2.log .updateLocation)
  else (st, w)

/-- Call `photo.UpdateDateFields()`. -/
def Photo.UpdateDateFields (env : Env) (p : Photo) : Photo :=
  { p with PhotoYear := (env.updateDateFields p).1, PhotoMonth := (env.updateDateFields p).2.1,
           PhotoDay := (env.updateDateFields p).2.2 }

/-- Lines 461-469: apply the unknown location and the unknown place. -/
def Photo.applyUnknown (env : Env) (p : Photo) : Photo :=
  let p := if env.isUnknownLocation p then { p with LocationID := env.unknownLocationID } else p
  if env.isUnknownPlace p then { p with PlaceID := env.unknownPlaceID } else p

/-- Lines 461-482: apply the unknown location and place, recompute the date
fields and fill in the file row. -/
def finishRows (env : Env) (m : MediaFile) (st : IndexState) : IndexState :=
  { st with photo := (st.photo.applyUnknown env).UpdateDateFields env,
            file := { st.file with FileSidecar := m.IsSidecar, FileVideo := m.IsVideo,
                                   FileRoot := m.fileRoot, FileName := m.fileName,
                                   FileHash := st.fileHash, FileSize := m.fileSize,
                                   FileModified := m.fileModified, FileType := m.FileType,
                                   FileMime := m.MimeType, FileOrientation := m.Orientation } }

/-- Lines 365-368: the file obviously exists. -/
def clearFileFlags (st : IndexState) : IndexState :=
  { st with file := { st.file with DeletedAt := none, FileMissing := false, FileError := "" } }

/-- Lines 187-482: everything between the archive check and the first write
of the photo. -/
def merge (env : Env) (w : World) (m : MediaFile) (st : IndexState) : IndexState × World :=
  let st := mergeKind env m st
  let st := clearFileFlags st
  let r := mergePrimary env w m st
  (finishRows env m r.1, r.2)

/-! ## Persistence (lines 484-641) -/

/-- The photo row as it is written: the columns of the photo with the
details the run worked on (`details` points into the photo). -/
def IndexState.photoRow (st : IndexState) : Photo := { st.photo with Details := st.details }

/-- Events of lines 499-515, published after a photo was created. -/
def World.publishCreated (w : World) (p : Photo) : World :=
  let w := w.publish .countPhotos
  let w := if p.PhotoPrivate then w.publish .countPrivate else w
  let w := if p.PhotoType == TypeVideo then w.publish .countVideos else w
  w.publish (.entitiesCreatedPhotos p)

/-- Lines 484-516: save the photo when it exists, create it otherwise and
publish the count events. -/
def persistPhoto (env : Env) (w : World) (st : IndexState) : Except String Photo × World :=
  if st.photoExists then
    match env.faults.photoSave with
    | some err => (.error err, w.log .photoSave (some err))
    | none => (.ok st.photoRow, (w.savePhoto st.photoRow).log .photoSave)
  else
    match env.faults.photoCreate with
    | some err => (.error err, w.log .photoCreate (some err))
    | none =>
      let c := w.createPhoto env st.photoRow
      (.ok c.1, (c.2.log .photoCreate).publishCreated c.1)

/-- Keyword derivation of lines 534-546. -/
def deriveKeywords (env : Env) (m : MediaFile) (st : IndexState) (file : File)
    (labels : List Label) : String :=
  let w := env.Keywords st.details.Keywords
  let w := if !env.IsID m.fileBase then
             w ++ env.FilenameKeywords m.filePath ++ env.FilenameKeywords m.fileBase
           else w
  let w := w ++ st.locKeywords
  let w := w ++ env.FilenameKeywords file.OriginalName
  let w := w ++ [file.FileMainColor]
  let w := w ++ env.labelKeywords labels
  ", ".intercalate (env.UniqueWords w)

/-- Lines 520-523: link the file row to its photo. -/
def linkedFile (st : IndexState) (photo : Photo) : File :=
  { st.file with PhotoID := photo.ID, PhotoUID := photo.PhotoUID }

/-- Call `photo.AddLabels(labels)` (line 518). -/
def Photo.AddLabels (env : Env) (p : Photo) (labels : List Label) : Photo :=
  { p with Labels := env.addLabels p labels }

/-- Call `photo.UpdateTitle(labels)` (line 530). -/
def Photo.UpdateTitle (env : Env) (p : Photo) (labels : List Label) : Photo :=
  { p with PhotoTitle := (env.updateTitle p labels).1, TitleSrc := (env.updateTitle p labels).2 }

/-- Lines 528-554: title, keywords and quality of the photo of a primary
file. -/
def Photo.scorePrimary (env : Env) (p : Photo) (m : MediaFile) (st : IndexState) : Photo :=
  let labels := env.classifyLabels p
  let p := p.UpdateTitle env labels
  let p := { p with Details := { st.details with
               Keywords := deriveKeywords env m st st.file labels } }
  { p with PhotoQuality := (env.qualityScore p : Int) }

/-- Lines 571-573: the quality of the photo of any other file is recomputed
only when it is not negative. -/
def Photo.scoreOther (env : Env) (p : Photo) : Photo :=
  if p.PhotoQuality ≥ 0 then { p with PhotoQuality := (env.qualityScore p : Int) } else p

/-- The photo as it is saved at line 556 or 575. -/
def finalPhoto (env : Env) (m : MediaFile) (st : IndexState) (photo : Photo) : Photo :=
  if st.file.FilePrimary then (photo.AddLabels env st.labels).scorePrimary env m st
  else (photo.AddLabels env st.labels).scoreOther env

/-- Lines 518-581: add the labels, link the file to the photo, then for a
primary file derive title, keywords and quality, and for any other file
recompute a non-negative quality; save the photo again.  Returns the error of
the save, the photo and the file. -/
def persistQuality (env : Env) (w : World) (m : MediaFile) (st : IndexState) (photo : Photo) :
    (Option String × Photo × File) × World :=
  let w := w.log .addLabels
  let file := linkedFile st photo
  let photo := finalPhoto env m st photo
  match env.faults.photoSaveFinal with
  | some err => ((some err, photo, file), w.log .photoSave (some err))
  | none =>
    let w := (w.savePhoto photo).log .photoSave
    if st.file.FilePrimary then
      ((none, photo, file),
       (w.log .syncKeywordLabels env.faults.syncKeywordLabels).log .indexKeywords
          env.faults.indexKeywords)
    else ((none, photo, file), w)

/-- Line 586: the time the update took. -/
def File.withUpdatedIn (file : File) (d : Int) : File := { file with UpdatedIn := d }

/-- Line 595: the time the creation took. -/
def File.withCreatedIn (file : File) (d : Int) : File := { file with CreatedIn := d }

/-- Lines 585-609: save the bound file row, or create the row. -/
def persistRow (env : Env) (w : World) (st : IndexState) (file : File) :
    Except String (File × IndexStatus) × World :=
  if st.fileQueryOk then
    match env.faults.fileSave with
    | some err => (.error err, w.log .fileSave (some err))
    | none =>
      (.ok (file.withUpdatedIn env.elapsed, .IndexUpdated),
       (w.saveFile (file.withUpdatedIn env.elapsed)).log .fileSave)
  else
    match env.faults.fileCreate with
    | some err => (.error err, w.log .fileCreate (some err))
    | none =>
      (.ok ((w.createFile env (file.withCreatedIn env.elapsed)).1, .IndexAdded),
       ((w.createFile env (file.withCreatedIn env.elapsed)).2.log .fileCreate).publish
          .countFiles)

/-- Lines 611-639: update the video infos, record the download name and
write the YAML sidecar. -/
def afterFile (env : Env) (w : World) (m : MediaFile) (originalName : String)
    (photo : Photo) (file : File) : World :=
  let w :=
    if (photo.PhotoType == TypeVideo || photo.PhotoType == TypeLive) && file.FilePrimary then
      w.log .updateVideoInfos env.faults.updateVideoInfos
    else w
  let downloadedAs := if originalName != "" then originalName else m.fileName
  let w := w.log .setDownloadFileID env.faults.setDownloadFileID
  let w := match env.faults.setDownloadFileID with
    | some _ => w
    | none => w.addDownload downloadedAs file.ID
  if file.FilePrimary && env.conf.SidecarYaml then
    match env.faults.saveAsYaml with
    | some _ => w
    | none => w.addYaml
        (env.yamlFileName photo env.conf.OriginalsPath env.conf.SidecarPath) photo
  else w

/-- Lines 583-641: save or create the file row, update the video infos,
record the download name and write the YAML sidecar. -/
def persistFile (env : Env) (w : World) (m : MediaFile) (originalName : String)
    (st : IndexState) (photo : Photo) (file : File) (result : IndexResult) :
    IndexResult × World :=
  match (persistRow env w st file).1 with
  | .error err =>
    ({ result with Status := .IndexFailed, Error := some err }, (persistRow env w st file).2)
  | .ok (saved, status) =>
    ({ result with Status := status, FileID := saved.ID, FileUID := saved.FileUID },
     afterFile env (persistRow env w st file).2 m originalName photo saved)

/-- Lines 518-641: what follows the first write of the photo. -/
def persistRest (env : Env) (w : World) (m : MediaFile) (originalName : String)
    (st : IndexState) (photo : Photo) : IndexResult × World :=
  match (persistQuality env w m st photo).1.1 with
  | some err =>
    ({ Status := .IndexFailed, Error := some err,
       PhotoID := (persistQuality env w m st photo).1.2.1.ID,
       PhotoUID := (persistQuality env w m st photo).1.2.1.PhotoUID },
     (persistQuality env w m st photo).2)
  | none =>
    persistFile env (persistQuality env w m st photo).2 m originalName st
      (persistQuality env w m st photo).1.2.1 (persistQuality env w m st photo).1.2.2
      { PhotoID := (persistQuality env w m st photo).1.2.1.ID,
        PhotoUID := (persistQuality env w m st photo).1.2.1.PhotoUID }

/-- Lines 484-641. -/
def persist (env : Env) (w : World) (m : MediaFile) (originalName : String)
    (st : IndexState) : IndexResult × World :=
  match (persistPhoto env w st).1 with
  | .error err => ({ Status := .IndexFailed, Error := some err }, (persistPhoto env w st).2)
  | .ok photo => persistRest env (persistPhoto env w st).2 m originalName st photo

/-! ## The pipeline -/

/-- Go `filepath.Base` for slash-separated names. -/
def filepathBase (path : String) : String :=
  if path.isEmpty then "."
  else
    let cs := path.toList.reverse.dropWhile (fun c => c == '/')
    if cs.isEmpty then "/" else String.mk (cs.takeWhile (fun c => c != '/')).reverse

/-- Error of the nil guard (line 52). -/
def nilError : String := "index: media file is nil - you might have found a bug"

/-- Lines 187-641: merge and persist. -/
def indexRest (env : Env) (w : World) (m : MediaFile) (originalName : String)
    (st : IndexState) : IndexResult × World :=
  let r := merge env w m st
  persist env r.2 m originalName r.1

/-- Method `Index.MediaFile` (lines 50-642): index one media file (`none` is
the nil pointer) and return the result with the world after the run. -/
def Index.MediaFile (env : Env) (w : World) (m : Option MediaFile) (o : IndexOptions)
    (originalName : String) : IndexResult × World :=
  match m with
  | none => ({ Status := .IndexFailed, Error := some nilError }, w)
  | some m =>
    let w := w.publish (.indexing "" m.fileSize m.fileName m.fileRoot (filepathBase m.fileName))
    let fr := lookupFile env w m
    if fr.1.duplicate then ({ Status := .IndexDuplicate }, fr.2)
    else
      let pr := lookupPhoto fr.2 m fr.1
      if !pr.1.fileChanged && pr.1.photoExists && o.SkipUnchanged then
        ({ Status := .IndexSkipped }, pr.2)
      else
        let sr := prepare env pr.2 m originalName fr.1 pr.1
        if sr.1.photo.PhotoQuality == -1 && sr.1.file.FilePrimary then
          indexRest env sr.2 m originalName
            { sr.1 with photo := { sr.1.photo with DeletedAt := none } }
        else if sr.1.photo.DeletedAt.isSome then ({ Status := .IndexArchived }, sr.2)
        else indexRest env sr.2 m originalName sr.1

/-! ## Helpers of the packages `fs` and `txt` -/

/-- Modelled from the spec: the characters `fs.Rel` returns, for a file name
and a directory given as lists of characters (`fs.Rel` is not part of the
sources at hand). -/
def relChars (fileName dir : List Char) : List Char :=
  if fileName = dir then []
  else if dir = [] then fileName
  else if dir.isPrefixOf fileName then
    if dir.getLast? = some '/' then fileName.drop dir.length
    else fileName.drop (dir.length + 1)
  else fileName

/-- Modelled from the spec: `fs.Rel(fileName, dir)` of package `pkg/fs` is
not part of the sources at hand (only its test `TestRel` and its callers
are).  It returns the file name relative to a directory: the empty string when
both are equal, the file name unchanged when the directory is empty or is not
a leading part of it, and otherwise what follows the directory and the
separator behind it (the separator may be the last character of the
directory). -/
def fs.Rel (fileName dir : String) : String :=
  String.mk (relChars fileName.toList dir.toList)

/-- Modelled from the spec: a character that separates the words of a keyword
string, which is joined by `", "` (package `pkg/txt` is not part of the
sources at hand). -/
def txt.isSeparator (c : Char) : Bool := c == ',' || c == ' '

/-- Modelled from the spec: the words of a list of characters, its non-empty
runs of characters between commas and blanks. -/
def txt.wordsOf (s : List Char) : List (List Char) :=
  (s.splitOnP txt.isSeparator).filter (fun w => !w.isEmpty)

/-- Modelled from the spec: `txt.Keywords(s)` of package `pkg/txt` is not part
of the sources at hand.  It returns the words of a keyword string, so that it
reads back the words of a string that was joined by `", "`. -/
def txt.Keywords (s : String) : List String := (txt.wordsOf s.toList).map String.mk

/-- Modelled from the spec: a string in lower case (keywords are lower-cased). -/
def txt.lower (s : String) : String := String.mk (s.toList.map Char.toLower)

/-- Modelled from the spec: the strings of a list without repetitions, the
first occurrence of each being kept. -/
def txt.keepFirst : List String → List String
  | [] => []
  | x :: xs => x :: (txt.keepFirst xs).filter (fun y => y != x)

/-- Modelled from the spec: a string that is no keyword, the empty string or
a word of the stop-word list. -/
def txt.isNoise (stop : List String) (x : String) : Bool := x == "" || stop.contains x

/-- Modelled from the spec: the lower-cased strings of a list that are no
noise. -/
def txt.normalize (stop : List String) (ws : List String) : List String :=
  (ws.map txt.lower).filter (fun x => !txt.isNoise stop x)

/-- Modelled from the spec: `txt.UniqueWords(words)` of package `pkg/txt` is
not part of the sources at hand.  By the spec the words are lower-cased,
de-noised against a stop-word list and deduplicated preserving the first
occurrence; the stop-word list is a parameter. -/
def txt.UniqueWords (stop : List String) (ws : List String) : List String :=
  txt.keepFirst (txt.normalize stop ws)

/-! ## Specification vocabulary -/

/-- File row bound by the identity resolver on the store of `w`. -/
def resolveFile (env : Env) (w : World) (m : MediaFile) : FileLookup := (lookupFile env w m).1

/-- Photo bound by the identity resolver on the store of `w`. -/
def resolvePhoto (env : Env) (w : World) (m : MediaFile) : PhotoLookup :=
  (lookupPhoto w m (resolveFile env w m)).1

/-- The initial `index.indexing` event of a run. -/
def indexingEvent (m : MediaFile) : Event :=
  .indexing "" m.fileSize m.fileName m.fileRoot (filepathBase m.fileName)

/-- Operations that write a photo row or a file row. -/
def StoreOp.writesRow : StoreOp → Bool
  | .photoCreate => true
  | .photoSave => true
  | .fileCreate => true
  | .fileSave => true
  | _ => false

/-- World `v` is `w` after some more store operations, each of which
satisfies `P`, with the tables, the event log, the download names and the
sidecars untouched. -/
def World.QuietExt (P : OpRecord → Prop) (w v : World) : Prop :=
  v.files = w.files ∧ v.photos = w.photos ∧ v.events = w.events ∧
  v.downloads = w.downloads ∧ v.yamls = w.yamls ∧
  ∃ l, v.ops = w.ops ++ l ∧ ∀ x ∈ l, P x

/-- Store reads that returned no error. -/
def OpRecord.isRead (x : OpRecord) : Prop := x.op.isWrite = false ∧ x.err = none

/-- Operations that returned no error and wrote neither a photo row nor a
file row. -/
def OpRecord.isQuiet (x : OpRecord) : Prop := x.op.writesRow = false ∧ x.err = none

/-- Columns of a photo the metadata merge never writes: key, unique id,
soft-delete marker and quality. -/
def Photo.Frame (p q : Photo) : Prop :=
  q.ID = p.ID ∧ q.PhotoUID = p.PhotoUID ∧ q.DeletedAt = p.DeletedAt ∧
  q.PhotoQuality = p.PhotoQuality

/-- A step that keeps the frame and the type of a photo. -/
def Photo.FrameT (p q : Photo) : Prop := Photo.Frame p q ∧ q.PhotoType = p.PhotoType

/-- Parts of the local state the metadata merge never changes. -/
def IndexState.Frame (s t : IndexState) : Prop :=
  Photo.Frame s.photo t.photo ∧ t.file.ID = s.file.ID ∧
  t.file.FilePrimary = s.file.FilePrimary ∧ t.photoExists = s.photoExists ∧
  t.fileQueryOk = s.fileQueryOk

/-- Events published after the photo `p` was created (lines 499-515). -/
def createdEvents (p : Photo) : List Event :=
  [.countPhotos] ++ (if p.PhotoPrivate then [.countPrivate] else []) ++
    (if p.PhotoType == TypeVideo then [.countVideos] else []) ++ [.entitiesCreatedPhotos p]

/-- The photo after the first write of a run without faults: the saved
photo, or the created photo with its new key. -/
def firstPhoto (env : Env) (w : World) (st : IndexState) : Photo :=
  if st.photoExists then st.photoRow else newPhotoRow env w.photos st.photoRow

/-- The photos table after the first write of a run without faults. -/
def firstPhotos (env : Env) (w : World) (st : IndexState) : List Photo :=
  if st.photoExists then savePhotoRows w.photos st.photoRow
  else w.photos ++ [newPhotoRow env w.photos st.photoRow]

/-- The file row written by a run without faults. -/
def writtenFile (env : Env) (w : World) (st : IndexState) : File :=
  if st.fileQueryOk then (linkedFile st (firstPhoto env w st)).withUpdatedIn env.elapsed
  else newFileRow env w.files ((linkedFile st (firstPhoto env w st)).withCreatedIn env.elapsed)

/-- Number of `count.files` events in a list of events. -/
def countFilesEvents (l : List Event) : Nat :=
  (l.filter (fun e => e.topic == "count.files")).length

/-- State and world of a run at the archive check (line 178), for a run that
is neither a duplicate nor skipped. -/
def prepared (env : Env) (w : World) (m : MediaFile) (name : String) : IndexState × World :=
  prepare env
    (lookupPhoto (lookupFile env (w.publish (indexingEvent m)) m).2 m (resolveFile env w m)).2
    m name (resolveFile env w m) (resolvePhoto env w m)

/-- Lines 178-180: a purged photo (quality -1) is restored by its primary
file. -/
def unarchived (st : IndexState) : IndexState :=
  if st.photo.PhotoQuality == -1 && st.file.FilePrimary then
    { st with photo := { st.photo with DeletedAt := none } }
  else st

/-- None of the five writes of a photo row or file row fails. -/
def Faults.rowWritesOk (f : Faults) : Prop :=
  f.photoSave = none ∧ f.photoCreate = none ∧ f.photoSaveFinal = none ∧
  f.fileSave = none ∧ f.fileCreate = none

/-- A trace in which no write of a photo row or file row failed. -/
def cleanTrace (l : List OpRecord) : Prop := ∀ x ∈ l, x.op.writesRow = true → x.err = none

/-- The run stopped at a failed operation: the new part of the trace is
clean up to its last operation, which failed with the error the result
reports. -/
def FailedAt (r : IndexResult) (old new : List OpRecord) : Prop :=
  ∃ l op e, cleanTrace l ∧ new = old ++ l ++ [{ op := op, err := some e }] ∧
    r.Status = .IndexFailed ∧ r.Error = some e

/-- The new part of the trace is clean. -/
def CleanRun (old new : List OpRecord) : Prop := ∃ l, cleanTrace l ∧ new = old ++ l

/-- State and world of a run at the first write of the photo (line 484), for
a run that is not short-circuited. -/
def merged (env : Env) (w : World) (m : MediaFile) (name : String) : IndexState × World :=
  merge env (prepared env w m name).2 m (unarchived (prepared env w m name).1)

/-- The writes of a photo row or file row that the persistence stage reaches
on the state `st` do not fail. -/
def Faults.reachedOk (f : Faults) (st : IndexState) : Prop :=
  (if st.photoExists then f.photoSave = none else f.photoCreate = none) ∧
  f.photoSaveFinal = none ∧
  (if st.fileQueryOk then f.fileSave = none else f.fileCreate = none)

/-- The photo as a run that is not short-circuited and does not fail saves
it last (line 556 or 575). -/
def persistedPhoto (env : Env) (w : World) (m : MediaFile) (name : String) : Photo :=
  finalPhoto env m (merged env w m name).1
    (firstPhoto env (merged env w m name).2 (merged env w m name).1)

/-- The YAML sidecars written by the persistence stage on the state `st`
(lines 630-639). -/
def writtenYamls (env : Env) (st : IndexState) (photo : Photo) : List (String × Photo) :=
  if st.file.FilePrimary && env.conf.SidecarYaml && env.faults.saveAsYaml.isNone then
    [(env.yamlFileName photo env.conf.OriginalsPath env.conf.SidecarPath, photo)]
  else []

/-- The two capture times of a photo are kept. -/
def Photo.SameTime (p q : Photo) : Prop :=
  q.TakenAt = p.TakenAt ∧ q.TakenAtLocal = p.TakenAtLocal

/-- Either both capture times of `q` are set, or `q` has the capture times
and the taken-at source of `p`. -/
def Photo.TimeSetOrKept (p q : Photo) : Prop :=
  (q.TakenAt ≠ 0 ∧ q.TakenAtLocal ≠ 0) ∨
  (q.TakenAt = p.TakenAt ∧ q.TakenAtLocal = p.TakenAtLocal ∧ q.TakenSrc = p.TakenSrc)

/-- The private flag of a photo is kept. -/
def Photo.SamePrivate (p q : Photo) : Prop := q.PhotoPrivate = p.PhotoPrivate

/-- The NSFW detector is consulted by the classifier gate (line 378): the
file is primary, TensorFlow is not switched off, the photo does not exist
yet, and the private feature and NSFW detection are enabled. -/
def nsfwConsulted (env : Env) (st : IndexState) : Bool :=
  st.file.FilePrimary && !env.conf.TensorFlowOff && !st.photoExists && env.conf.FeaturesPrivate
    && env.conf.DetectNSFW

/-- Confidence of a label: `100 - label.Uncertainty` (line 705). -/
def Label.confidence (l : Label) : Int := 100 - l.Uncertainty

/-- The highest confidence among the labels of a list (0 for the empty
list). -/
def highestConfidence (labels : List Label) : Int :=
  (labels.map Label.confidence).foldl max 0

/-- The reference confidence the selection loop of lines 703-711 ends with:
the confidence of the first label of the list whose confidence is not zero,
and zero when there is none. -/
def referenceConfidence (labels : List Label) : Int :=
  ((labels.find? (fun l => l.confidence != 0)).map Label.confidence).getD 0

/-- A word: a string without comma and blank. -/
def txt.IsWord (x : String) : Prop := ∀ c ∈ x.toList, txt.isSeparator c = false

/-- The characters of words joined by `", "`. -/
def txt.joinChars : List (List Char) → List Char
  | [] => []
  | [w] => w
  | w :: v :: ws => w ++ ',' :: ' ' :: txt.joinChars (v :: ws)

/-- The keyword sources appended at lines 536-544: file name keywords (unless
the base name is an id), location keywords, keywords of the original name,
the main color and the keywords of the labels. -/
def keywordSources (env : Env) (m : MediaFile) (st : IndexState) (file : File)
    (labels : List Label) : List String :=
  (if !env.IsID m.fileBase then
      env.FilenameKeywords m.filePath ++ env.FilenameKeywords m.fileBase
    else []) ++ st.locKeywords ++ env.FilenameKeywords file.OriginalName ++
    [file.FileMainColor] ++ env.labelKeywords labels

/-- The labels whose keywords a run on a primary file appends (line 528):
the classification labels of the photo after `photo.AddLabels`. -/
def keywordLabels (env : Env) (w : World) (m : MediaFile) (name : String) : List Label :=
  env.classifyLabels ((firstPhoto env (merged env w m name).2 (merged env w m name).1).AddLabels
    env (merged env w m name).1.labels)

/-- The keyword sources of a run: file name keywords, location keywords,
keywords of the original name, main color and label keywords. -/
def runSources (env : Env) (w : World) (m : MediaFile) (name : String) : List String :=
  keywordSources env m (merged env w m name).1 (merged env w m name).1.file
    (keywordLabels env w m name)

/-! ## Concrete stores and probes -/

/-- A store with one photo and its primary JPEG `2021/IMG_001.jpg`. -/
def oneJpegWorld : World :=
  { files := [{ ID := 1, PhotoID := 1, PhotoUID := "p1", FileUID := "f1",
                FileName := "2021/IMG_001.jpg", FileHash := "abc", FileSize := 10,
                FileModified := 7, FileType := "jpg", FilePrimary := true }],
    photos := [{ ID := 1, PhotoUID := "p1", PhotoPath := "2021", PhotoName := "IMG_001" }] }

/-- A file system on which `/2021/IMG_001.jpg` is the only file of a row. -/
def oneJpegEnv : Env := { fileExists := fun n => n == "/2021/IMG_001.jpg" }

/-- A copy of `2021/IMG_001.jpg` in another directory. -/
def copiedJpeg : MediaFile :=
  { fileName := "copy/IMG_001.jpg", filePath := "copy", fileBase := "IMG_001", Hash := "abc",
    fileSize := 10, fileModified := 9, IsJpeg := true, FileType := "jpg" }

/-- The probe of the unchanged `2021/IMG_001.jpg`. -/
def sameJpeg : MediaFile :=
  { fileName := "2021/IMG_001.jpg", filePath := "2021", fileBase := "IMG_001", Hash := "abc",
    fileSize := 10, fileModified := 7, IsJpeg := true, FileType := "jpg" }

/-- A store in which a soft-deleted row, whose file is gone from the disk,
has the same content hash as the row of `2021/IMG_001.jpg`. -/
def shadowedWorld : World :=
  { files := [{ ID := 1, PhotoID := 1, PhotoUID := "p1", FileUID := "f1",
                FileName := "old/IMG_001.jpg", FileHash := "abc", FileType := "jpg",
                FilePrimary := true, DeletedAt := some 5 },
              { ID := 2, PhotoID := 2, PhotoUID := "p2", FileUID := "f2",
                FileName := "2021/IMG_001.jpg", FileHash := "abc", FileType := "jpg",
                FilePrimary := true }],
    photos := [{ ID := 1, PhotoUID := "p1", PhotoPath := "old", PhotoName := "IMG_001" },
               { ID := 2, PhotoUID := "p2", PhotoPath := "2021", PhotoName := "IMG_001" }] }

/-- A store whose only photo is archived (soft-deleted, quality 3). -/
def archivedWorld : World :=
  { files := [{ ID := 1, PhotoID := 1, PhotoUID := "p1", FileUID := "f1",
                FileName := "2021/IMG_001.jpg", FileHash := "abc", FileSize := 10,
                FileModified := 7, FileType := "jpg", FilePrimary := true }],
    photos := [{ ID := 1, PhotoUID := "p1", PhotoPath := "2021", PhotoName := "IMG_001",
                 PhotoQuality := 3, DeletedAt := some 5 }] }

/-- The probe of `2021/IMG_001.jpg` after the file was rewritten. -/
def changedJpeg : MediaFile :=
  { fileName := "2021/IMG_001.jpg", filePath := "2021", fileBase := "IMG_001", Hash := "abd",
    fileSize := 11, fileModified := 8, IsJpeg := true, FileType := "jpg" }

/-- A store whose only photo was purged (soft-deleted with quality -1); its
primary JPEG is `2021/IMG_001.jpg`. -/
def purgedWorld : World :=
  { files := [{ ID := 1, PhotoID := 1, PhotoUID := "p1", FileUID := "f1",
                FileName := "2021/IMG_001.jpg", FileHash := "abc", FileSize := 10,
                FileModified := 7, FileType := "jpg", FilePrimary := true }],
    photos := [{ ID := 1, PhotoUID := "p1", PhotoPath := "2021", PhotoName := "IMG_001",
                 PhotoQuality := -1, DeletedAt := some 5 }] }

/-- A video of 2.5 seconds next to `2021/IMG_001.jpg`. -/
def shortVideo : MediaFile :=
  { fileName := "2021/IMG_001.mov", filePath := "2021", fileBase := "IMG_001", Hash := "mov",
    IsVideo := true, FileType := "mov", MetaData := { Duration := 2500 * Millisecond } }

/-- A store with one photo of type image whose primary JPEG carries the
instance id `X`. -/
def uuidWorld : World :=
  { files := [{ ID := 1, PhotoID := 1, PhotoUID := "p1", FileUID := "f1", UUID := "X",
                FileName := "2021/IMG_001.jpg", FileHash := "abc", FileSize := 10,
                FileModified := 7, FileType := "jpg", FilePrimary := true }],
    photos := [{ ID := 1, PhotoUID := "p1", PhotoPath := "2021", PhotoName := "IMG_001" }] }

/-- A RAW file next to `2021/IMG_001.jpg` whose metadata carries the instance
id `X`. -/
def rawWithUUID : MediaFile :=
  { fileName := "2021/IMG_001.cr2", filePath := "2021", fileBase := "IMG_001", Hash := "raw",
    fileSize := 30, fileModified := 7, IsRaw := true, FileType := "raw",
    MetaData := { InstanceID := "X", HasInstanceID := true } }

/-- A RAW file next to `2021/IMG_001.jpg` without an instance id. -/
def plainRaw : MediaFile :=
  { fileName := "2021/IMG_001.cr2", filePath := "2021", fileBase := "IMG_001", Hash := "raw",
    fileSize := 30, fileModified := 7, IsRaw := true, FileType := "raw" }

/-- A JPEG whose metadata carries the instance id `X`. -/
def jpegWithUUID : MediaFile :=
  { fileName := "2021/IMG_001.jpg", filePath := "2021", fileBase := "IMG_001", Hash := "abc",
    fileSize := 10, fileModified := 7, IsJpeg := true, FileType := "jpg",
    MetaData := { InstanceID := "X", HasInstanceID := true } }

/-- Another JPEG with the same directory and stem, without an instance id. -/
def secondJpeg : MediaFile :=
  { fileName := "2021/IMG_001.jpeg", filePath := "2021", fileBase := "IMG_001", Hash := "def",
    fileSize := 12, fileModified := 8, IsJpeg := true, FileType := "jpg" }

/-- The world after indexing, from the empty store, the JPEG with instance
id `X`, then the RAW file with the same instance id, then the second JPEG. -/
def afterThreeRuns : World :=
  (Index.MediaFile {}
    (Index.MediaFile {}
      (Index.MediaFile {} {} (some jpegWithUUID) {} "").2
      (some rawWithUUID) {} "").2
    (some secondJpeg) {} "").2

/-- A run in which creating the file row fails. -/
def fileCreateFails : Env := { faults := { fileCreate := some "disk full" } }

/-- A run in which the keyword-to-label sync fails. -/
def syncFails : Env := { faults := { syncKeywordLabels := some "deadlock" } }

/-- A probe of `2021/IMG_001.jpg` whose thumbnails can be rendered. -/
def thumbJpeg : MediaFile :=
  { fileName := "2021/IMG_001.jpg", filePath := "2021", fileBase := "IMG_001", Hash := "abc",
    fileSize := 10, fileModified := 7, IsJpeg := true, FileType := "jpg", AspectRatio := 1,
    Thumbnail := fun t => .ok ("thumb/" ++ t) }

/-- A run with classification, the private feature and NSFW detection
switched on, whose detector reports scores above the High threshold. -/
def nsfwEnv : Env :=
  { conf := { TensorFlowOff := false, FeaturesPrivate := true, DetectNSFW := true },
    nsfwDetector := fun f =>
      if f == "thumb/fit_720" then .ok { exceedsHigh := true } else .error "no such file" }

/-- The probe of `2021/IMG_001.jpg` after its content was rewritten in place
with the size and the modification time kept. -/
def rehashedJpeg : MediaFile :=
  { fileName := "2021/IMG_001.jpg", filePath := "2021", fileBase := "IMG_001", Hash := "zzz",
    fileSize := 10, fileModified := 7, IsJpeg := true, FileType := "jpg" }

/-- An XMP sidecar next to `2021/IMG_001.jpg` whose metadata carries the
instance id `X`. -/
def xmpWithUUID : MediaFile :=
  { fileName := "2021/IMG_001.xmp", filePath := "2021", fileBase := "IMG_001", Hash := "xmp",
    fileSize := 3, fileModified := 7, IsSidecar := true, IsXMP := true, FileType := "xmp",
    MetaData := { InstanceID := "X", HasInstanceID := true } }

/-- A run with YAML sidecars switched on. -/
def yamlEnv : Env := { conf := { SidecarYaml := true } }

/-- A run whose `photo.SetTakenAt` honours the source precedence: a zero time
and a time from a source the photo's taken-at source outranks are ignored,
any other time is stored with its source, the local time defaulting to the
UTC time. -/
def precedenceEnv : Env :=
  { setTakenAt := fun p utc loc zone src =>
      if utc == 0 || decide (srcPriority src < srcPriority p.TakenSrc) then
        (p.TakenAt, p.TakenAtLocal, p.TimeZone, p.TakenSrc)
      else (utc, if loc == 0 then utc else loc, zone, src) }

/-- A JPEG without embedded metadata; the probe reports the modification time
as the time the file was taken. -/
def untimedJpeg : MediaFile :=
  { fileName := "2021/IMG_003.jpg", filePath := "2021", fileBase := "IMG_003", Hash := "jpg3",
    fileSize := 10, fileModified := 7, IsJpeg := true, FileType := "jpg",
    MetaData := { Error := some "no exif" }, TakenAt := (7, SrcAuto) }

/-- A store with one photo whose capture time was cleared by hand: the times
are zero and their source tag is `manual`. -/
def clearedTimeWorld : World :=
  { files := [{ ID := 1, PhotoID := 1, PhotoUID := "p1", FileUID := "f1",
                FileName := "2021/IMG_003.jpg", FileHash := "old", FileSize := 9,
                FileModified := 6, FileType := "jpg", FilePrimary := true }],
    photos := [{ ID := 1, PhotoUID := "p1", PhotoPath := "2021", PhotoName := "IMG_003",
                 TakenSrc := "manual" }] }

/-- A run with classification, the private feature and NSFW detection
switched on, in which a YAML sidecar restores a private photo that is not in
the store. -/
def yamlPrivateEnv : Env :=
  { conf := { TensorFlowOff := false, FeaturesPrivate := true, DetectNSFW := true },
    findYaml := fun _ => "2021/IMG_001.yml",
    loadFromYaml := fun _ p => .ok { p with PhotoUID := "p9", PhotoTitle := "Beach",
                                            PhotoPrivate := true } }

/-- Three labels in sorted order: the first and the last have confidence 10,
the second has confidence 100. -/
def threeLabels : List Label :=
  [{ Name := "outdoor", Uncertainty := 90, Priority := 0 },
   { Name := "beach", Uncertainty := 0, Priority := 1 },
   { Name := "sand", Uncertainty := 90, Priority := 2 }]

/-- A run whose classifier returns `threeLabels` for every crop. -/
def threeLabelsEnv : Env := { tensorFlow := fun _ => .ok threeLabels }

/-- A run whose `txt` helpers are those of the spec, with the stop word
`the`. -/
def txtEnv : Env :=
  { Keywords := txt.Keywords, UniqueWords := txt.UniqueWords ["the"] }

/-- A JPEG whose metadata carries the keywords `Beach, the Sun`. -/
def keywordJpeg : MediaFile :=
  { fileName := "2021/IMG_004.jpg", filePath := "2021", fileBase := "IMG_004", Hash := "jpg4",
    fileSize := 10, fileModified := 7, IsJpeg := true, FileType := "jpg",
    MetaData := { Keywords := "Beach, the Sun" } }

/-- A store whose only photo has a keyword string without a word. -/
def blankKeywordsWorld : World :=
  { files := [{ ID := 1, PhotoID := 1, PhotoUID := "p1", FileUID := "f1",
                FileName := "2021/IMG_004.jpg", FileHash := "jpg4", FileSize := 10,
                FileModified := 7, FileType := "jpg", FilePrimary := true }],
    photos := [{ ID := 1, PhotoUID := "p1", PhotoPath := "2021", PhotoName := "IMG_004",
                 Details := { PhotoID := 1, Keywords := ", " } }] }

/-- A state whose location keywords hold a string with a comma and a blank. -/
def commaState : IndexState := { locKeywords := ["sea, side"] }
/-! ## Basic facts -/

@[simp] theorem World.log_files (w : World) (op : StoreOp) (e : Option String) :
    (w.log op e).files = w.files := rfl

@[simp] theorem World.log_photos (w : World) (op : StoreOp) (e : Option String) :
    (w.log op e).photos = w.photos := rfl

@[simp] theorem World.log_events (w : World) (op : StoreOp) (e : Option String) :
    (w.log op e).events = w.events := rfl

@[simp] theorem World.log_downloads (w : World) (op : StoreOp) (e : Option String) :
    (w.log op e).downloads = w.downloads := rfl

@[simp] theorem World.log_yamls (w : World) (op : StoreOp) (e : Option String) :
    (w.log op e).yamls = w.yamls := rfl

@[simp] theorem World.log_ops (w : World) (op : StoreOp) (e : Option String) :
    (w.log op e).ops = w.ops ++ [{ op := op, err := e }] := rfl

@[simp] theorem World.publish_files (w : World) (e : Event) : (w.publish e).files = w.files := rfl

@[simp] theorem World.publish_photos (w : World) (e : Event) :
    (w.publish e).photos = w.photos := rfl

@[simp] theorem World.publish_events (w : World) (e : Event) :
    (w.publish e).events = w.events ++ [e] := rfl

@[simp] theorem World.publish_downloads (w : World) (e : Event) :
    (w.publish e).downloads = w.downloads := rfl

@[simp] theorem World.publish_yamls (w : World) (e : Event) : (w.publish e).yamls = w.yamls := rfl

@[simp] theorem World.publish_ops (w : World) (e : Event) : (w.publish e).ops = w.ops := rfl

theorem World.QuietExt.quiet_refl (P : OpRecord → Prop) (w : World) : World.QuietExt P w w :=
  ⟨rfl, rfl, rfl, rfl, rfl, [], by simp, by simp⟩

theorem World.QuietExt.quiet_trans {P : OpRecord → Prop} {u v w : World}
    (h1 : World.QuietExt P u v) (h2 : World.QuietExt P v w) : World.QuietExt P u w := by
  obtain ⟨a1, a2, a3, a4, a5, l1, a6, a7⟩ := h1
  obtain ⟨b1, b2, b3, b4, b5, l2, b6, b7⟩ := h2
  refine ⟨b1.trans a1, b2.trans a2, b3.trans a3, b4.trans a4, b5.trans a5, l1 ++ l2, ?_, ?_⟩
  · rw [b6, a6, List.append_assoc]
  · intro x hx
    rcases List.mem_append.mp hx with h | h
    · exact a7 x h
    · exact b7 x h

theorem World.QuietExt.log {P : OpRecord → Prop} (w : World) (op : StoreOp) (e : Option String)
    (h : P { op := op, err := e }) : World.QuietExt P w (w.log op e) :=
  ⟨rfl, rfl, rfl, rfl, rfl, [{ op := op, err := e }], rfl, by simpa using h⟩

theorem World.QuietExt.mono {P Q : OpRecord → Prop} {w v : World} (hPQ : ∀ x, P x → Q x)
    (h : World.QuietExt P w v) : World.QuietExt Q w v := by
  obtain ⟨a1, a2, a3, a4, a5, l1, a6, a7⟩ := h
  exact ⟨a1, a2, a3, a4, a5, l1, a6, fun x hx => hPQ x (a7 x hx)⟩

theorem OpRecord.isRead_isQuiet (x : OpRecord) (h : x.isRead) : x.isQuiet := by
  obtain ⟨h1, h2⟩ := h
  refine ⟨?_, h2⟩
  cases hx : x.op <;> simp [hx, StoreOp.isWrite] at h1 <;> rfl

/-- The file lookup only reads: it leaves the world quiet. -/
theorem lookupFile_quiet (env : Env) (w : World) (m : MediaFile) :
    World.QuietExt OpRecord.isRead w (lookupFile env w m).2 := by
  have r1 : ∀ u : World, World.QuietExt OpRecord.isRead u (u.log .findFile) :=
    fun u => World.QuietExt.log u _ _ ⟨rfl, rfl⟩
  unfold lookupFile
  simp only []
  split
  · exact r1 w
  · split
    · exact r1 w
    · split
      · split <;> exact (r1 w).quiet_trans (r1 _)
      · split
        · split <;> exact ((r1 w).quiet_trans (r1 _)).quiet_trans (r1 _)
        · exact (r1 w).quiet_trans (r1 _)

/-- The file lookup depends on the files table only. -/
theorem lookupFile_congr (env : Env) (w v : World) (m : MediaFile) (h : v.files = w.files) :
    (lookupFile env v m).1 = (lookupFile env w m).1 := by
  unfold lookupFile
  simp only [World.log_files, h]
  repeat' split
  all_goals rfl

/-- The photo lookup only reads. -/
theorem lookupPhoto_quiet (w : World) (m : MediaFile) (fl : FileLookup) :
    World.QuietExt OpRecord.isRead w (lookupPhoto w m fl).2 := by
  have r1 : ∀ u : World, World.QuietExt OpRecord.isRead u (u.log .findPhoto) :=
    fun u => World.QuietExt.log u _ _ ⟨rfl, rfl⟩
  unfold lookupPhoto
  simp only []
  split
  · split
    · split
      · exact ((r1 w).quiet_trans (r1 _)).quiet_trans (r1 _)
      · exact (r1 w).quiet_trans (r1 _)
    · split
      · exact (r1 w).quiet_trans (r1 _)
      · exact r1 w
  · exact r1 w

/-- The photo lookup depends on the photos table only. -/
theorem lookupPhoto_congr (w v : World) (m : MediaFile) (fl : FileLookup)
    (h : v.photos = w.photos) : (lookupPhoto v m fl).1 = (lookupPhoto w m fl).1 := by
  unfold lookupPhoto
  simp only [h]
  split <;> rfl

/-- World after the `index.indexing` event and the file lookup. -/
theorem lookupFile_after_publish (env : Env) (w : World) (m : MediaFile) :
    (lookupFile env (w.publish (indexingEvent m)) m).1 = resolveFile env w m :=
  lookupFile_congr env w _ m rfl

/-- The photo lookup of a run sees the photos of the initial world. -/
theorem lookupPhoto_after_lookupFile (env : Env) (w : World) (m : MediaFile) :
    (lookupPhoto (lookupFile env (w.publish (indexingEvent m)) m).2 m (resolveFile env w m)).1
      = resolvePhoto env w m := by
  apply lookupPhoto_congr
  rw [(lookupFile_quiet env _ m).2.1]
  rfl

/-- A run that finds a duplicate stops after the file lookup. -/
theorem MediaFile_of_duplicate (env : Env) (w : World) (m : MediaFile) (o : IndexOptions)
    (name : String) (h : (resolveFile env w m).duplicate = true) :
    Index.MediaFile env w (some m) o name =
      ({ Status := .IndexDuplicate }, (lookupFile env (w.publish (indexingEvent m)) m).2) := by
  have h1 := lookupFile_after_publish env w m
  simp only [Index.MediaFile]
  rw [show (Event.indexing "" m.fileSize m.fileName m.fileRoot (filepathBase m.fileName))
    = indexingEvent m from rfl, h1, h]
  simp

/-- A run on an unchanged file of an existing photo with `skipUnchanged`
stops after the photo lookup. -/
theorem MediaFile_of_skipped (env : Env) (w : World) (m : MediaFile) (o : IndexOptions)
    (name : String) (hd : (resolveFile env w m).duplicate = false)
    (hc : (resolvePhoto env w m).fileChanged = false)
    (hp : (resolvePhoto env w m).photoExists = true) (ho : o.SkipUnchanged = true) :
    Index.MediaFile env w (some m) o name =
      ({ Status := .IndexSkipped },
       (lookupPhoto (lookupFile env (w.publish (indexingEvent m)) m).2 m
          (resolveFile env w m)).2) := by
  have h1 := lookupFile_after_publish env w m
  have h2 := lookupPhoto_after_lookupFile env w m
  simp only [Index.MediaFile]
  rw [show (Event.indexing "" m.fileSize m.fileName m.fileRoot (filepathBase m.fileName))
    = indexingEvent m from rfl, h1, hd, h2, hc, hp, ho]
  simp

/-- World after the two lookups of a run: only reads were added to the world
that holds the `index.indexing` event. -/
theorem lookups_quiet (env : Env) (w : World) (m : MediaFile) (fl : FileLookup) :
    World.QuietExt OpRecord.isRead (w.publish (indexingEvent m))
      (lookupPhoto (lookupFile env (w.publish (indexingEvent m)) m).2 m fl).2 :=
  (lookupFile_quiet env _ m).quiet_trans (lookupPhoto_quiet _ m fl)

/-- Unfolding of a quiet extension of the world that holds the
`index.indexing` event. -/
theorem quiet_after_indexing {P : OpRecord → Prop} {w v : World} {e : Event}
    (h : World.QuietExt P (w.publish e) v) :
    v.files = w.files ∧ v.photos = w.photos ∧ v.events = w.events ++ [e] ∧
    v.downloads = w.downloads ∧ v.yamls = w.yamls ∧ ∃ l, v.ops = w.ops ++ l ∧ ∀ x ∈ l, P x := by
  obtain ⟨a1, a2, a3, a4, a5, l, a6, a7⟩ := h
  exact ⟨a1, a2, a3, a4, a5, l, a6, a7⟩

/-! ### Facts about `prepare` -/

theorem World.quiet_read (w : World) (op : StoreOp) (h : op.isWrite = false) :
    World.QuietExt OpRecord.isRead w (w.log op none) :=
  World.QuietExt.log w op none ⟨h, rfl⟩

theorem restoreFromYaml_quiet (env : Env) (w : World) (m : MediaFile) (photo : Photo)
    (ex : Bool) : World.QuietExt OpRecord.isRead w (restoreFromYaml env w m photo ex).2 := by
  unfold restoreFromYaml
  simp only []
  repeat' split
  all_goals first
    | exact World.QuietExt.quiet_refl _ _
    | exact World.quiet_read w .findPhoto rfl

theorem establishPrimary_quiet (w : World) (m : MediaFile) (photo : Photo) (ex : Bool)
    (file : File) : World.QuietExt OpRecord.isRead w (establishPrimary w m photo ex file).2 := by
  unfold establishPrimary
  repeat' split
  all_goals first
    | exact World.QuietExt.quiet_refl _ _
    | exact World.quiet_read w .findFile rfl

/-- Between the lookups and the archive check no photo row and no file row
is written and nothing is published. -/
theorem prepare_quiet (env : Env) (w : World) (m : MediaFile) (name : String)
    (fl : FileLookup) (pl : PhotoLookup) :
    World.QuietExt OpRecord.isQuiet w (prepare env w m name fl pl).2 := by
  unfold prepare
  simp only []
  refine World.QuietExt.quiet_trans
    (World.QuietExt.log w .firstOrCreateDetails none ⟨rfl, rfl⟩) ?_
  refine World.QuietExt.quiet_trans (World.QuietExt.mono OpRecord.isRead_isQuiet
    (restoreFromYaml_quiet env _ m pl.photo pl.photoExists)) ?_
  exact World.QuietExt.mono OpRecord.isRead_isQuiet (establishPrimary_quiet _ m _ _ _)

theorem restoreFromYaml_of_exists (env : Env) (w : World) (m : MediaFile) (photo : Photo) :
    restoreFromYaml env w m photo true = ((photo, true), w) := by
  simp [restoreFromYaml]

theorem establishPrimary_ID (w : World) (m : MediaFile) (photo : Photo) (ex : Bool)
    (file : File) : (establishPrimary w m photo ex file).1.1.ID = file.ID := by
  unfold establishPrimary
  repeat' split
  all_goals rfl

theorem establishPrimary_of_primary (w : World) (m : MediaFile) (photo : Photo) (ex : Bool)
    (file : File) (h : file.FilePrimary = true) :
    (establishPrimary w m photo ex file).1.1 = file := by
  simp [establishPrimary, h]

theorem applyOriginalName_photo (env : Env) (name : String) (photo : Photo) (file : File) :
    (applyOriginalName env name photo file).1.ID = photo.ID ∧
    (applyOriginalName env name photo file).1.PhotoUID = photo.PhotoUID ∧
    (applyOriginalName env name photo file).1.DeletedAt = photo.DeletedAt ∧
    (applyOriginalName env name photo file).1.PhotoQuality = photo.PhotoQuality ∧
    (applyOriginalName env name photo file).1.PhotoType = photo.PhotoType := by
  unfold applyOriginalName
  simp only []
  repeat' split
  all_goals exact ⟨rfl, rfl, rfl, rfl, rfl⟩

theorem applyOriginalName_file (env : Env) (name : String) (photo : Photo) (file : File) :
    (applyOriginalName env name photo file).2.ID = file.ID ∧
    (applyOriginalName env name photo file).2.FilePrimary = file.FilePrimary ∧
    (applyOriginalName env name photo file).2.PhotoID = file.PhotoID := by
  unfold applyOriginalName
  simp only []
  repeat' split
  all_goals exact ⟨rfl, rfl, rfl⟩

/-- The photo found by the resolver keeps its key, unique id, soft-delete
marker, quality and type through `prepare`. -/
theorem prepare_photo_of_exists (env : Env) (w : World) (m : MediaFile) (name : String)
    (fl : FileLookup) (pl : PhotoLookup) (h : pl.photoExists = true) :
    (prepare env w m name fl pl).1.photoExists = true ∧
    (prepare env w m name fl pl).1.photo.ID = pl.photo.ID ∧
    (prepare env w m name fl pl).1.photo.PhotoUID = pl.photo.PhotoUID ∧
    (prepare env w m name fl pl).1.photo.DeletedAt = pl.photo.DeletedAt ∧
    (prepare env w m name fl pl).1.photo.PhotoQuality = pl.photo.PhotoQuality ∧
    (prepare env w m name fl pl).1.photo.PhotoType = pl.photo.PhotoType := by
  unfold prepare
  simp only [h, restoreFromYaml_of_exists]
  refine ⟨trivial, ?_⟩
  exact applyOriginalName_photo env name _ _

/-- File row after `prepare`: the key and the outcome of the file query are
those of the lookup. -/
theorem prepare_file (env : Env) (w : World) (m : MediaFile) (name : String)
    (fl : FileLookup) (pl : PhotoLookup) :
    (prepare env w m name fl pl).1.file.ID = fl.file.ID ∧
    (prepare env w m name fl pl).1.fileQueryOk = fl.fileQueryOk := by
  unfold prepare
  simp only []
  refine ⟨?_, trivial⟩
  rw [(applyOriginalName_file env name _ _).1, establishPrimary_ID]

/-- A run that is neither a duplicate nor skipped, up to the archive check. -/
theorem MediaFile_of_continue (env : Env) (w : World) (m : MediaFile) (o : IndexOptions)
    (name : String) (hd : (resolveFile env w m).duplicate = false)
    (hs : (!(resolvePhoto env w m).fileChanged && (resolvePhoto env w m).photoExists
            && o.SkipUnchanged) = false) :
    Index.MediaFile env w (some m) o name =
      (let sr := prepare env
          (lookupPhoto (lookupFile env (w.publish (indexingEvent m)) m).2 m
            (resolveFile env w m)).2 m name (resolveFile env w m) (resolvePhoto env w m)
       if sr.1.photo.PhotoQuality == -1 && sr.1.file.FilePrimary then
         indexRest env sr.2 m name { sr.1 with photo := { sr.1.photo with DeletedAt := none } }
       else if sr.1.photo.DeletedAt.isSome then ({ Status := .IndexArchived }, sr.2)
       else indexRest env sr.2 m name sr.1) := by
  have h1 := lookupFile_after_publish env w m
  have h2 := lookupPhoto_after_lookupFile env w m
  simp only [Index.MediaFile]
  rw [show (Event.indexing "" m.fileSize m.fileName m.fileRoot (filepathBase m.fileName))
    = indexingEvent m from rfl, h1, hd, h2, hs]
  simp

/-- World at the archive check: the `index.indexing` event was published and
no photo row and no file row was written. -/
theorem prepared_quiet (env : Env) (w : World) (m : MediaFile) (name : String)
    (fl fl2 : FileLookup) (pl : PhotoLookup) :
    World.QuietExt OpRecord.isQuiet (w.publish (indexingEvent m))
      (prepare env (lookupPhoto (lookupFile env (w.publish (indexingEvent m)) m).2 m fl).2
        m name fl2 pl).2 :=
  (World.QuietExt.mono OpRecord.isRead_isQuiet (lookups_quiet env w m fl)).quiet_trans
    (prepare_quiet env _ m name fl2 pl)

/-! ### Frame of the metadata merge -/

theorem Photo.Frame.frame_refl (p : Photo) : Photo.Frame p p := ⟨rfl, rfl, rfl, rfl⟩

theorem Photo.Frame.frame_trans {p q r : Photo} (h1 : Photo.Frame p q) (h2 : Photo.Frame q r) :
    Photo.Frame p r :=
  ⟨h2.1.trans h1.1, h2.2.1.trans h1.2.1, h2.2.2.1.trans h1.2.2.1, h2.2.2.2.trans h1.2.2.2⟩

theorem Photo.FrameT.typed_refl (p : Photo) : Photo.FrameT p p := ⟨Photo.Frame.frame_refl p, rfl⟩

theorem Photo.FrameT.typed_trans {p q r : Photo} (h1 : Photo.FrameT p q) (h2 : Photo.FrameT q r) :
    Photo.FrameT p r := ⟨h1.1.frame_trans h2.1, h2.2.trans h1.2⟩

theorem Photo.SetTitle_frame (env : Env) (p : Photo) (t s : String) :
    Photo.FrameT p (p.SetTitle env t s) := ⟨⟨rfl, rfl, rfl, rfl⟩, rfl⟩

theorem Photo.SetDescription_frame (env : Env) (p : Photo) (t s : String) :
    Photo.FrameT p (p.SetDescription env t s) := ⟨⟨rfl, rfl, rfl, rfl⟩, rfl⟩

theorem Photo.SetTakenAt_frame (env : Env) (p : Photo) (a b : Time) (z s : String) :
    Photo.FrameT p (p.SetTakenAt env a b z s) := ⟨⟨rfl, rfl, rfl, rfl⟩, rfl⟩

theorem Photo.SetCoordinates_frame (env : Env) (p : Photo) (a b c : Int) (s : String) :
    Photo.FrameT p (p.SetCoordinates env a b c s) := ⟨⟨rfl, rfl, rfl, rfl⟩, rfl⟩

theorem Photo.fillCameraSerial_frame (p : Photo) (md : MetaData) :
    Photo.FrameT p (p.fillCameraSerial md) := by
  unfold Photo.fillCameraSerial
  split <;> exact ⟨⟨rfl, rfl, rfl, rfl⟩, rfl⟩

theorem Photo.fillDocumentID_frame (p : Photo) (md : MetaData) :
    Photo.FrameT p (p.fillDocumentID md) := by
  unfold Photo.fillDocumentID
  split <;> exact ⟨⟨rfl, rfl, rfl, rfl⟩, rfl⟩

theorem Photo.raiseResolution_frame (p : Photo) (res : Int) :
    Photo.FrameT p (p.raiseResolution res) := by
  unfold Photo.raiseResolution
  split <;> exact ⟨⟨rfl, rfl, rfl, rfl⟩, rfl⟩

theorem Photo.markRaw_frame (p : Photo) (m : MediaFile) : Photo.Frame p (p.markRaw m) := by
  unfold Photo.markRaw
  split <;> exact ⟨rfl, rfl, rfl, rfl⟩

theorem Photo.takenAtFallback_frame (env : Env) (p : Photo) (m : MediaFile) :
    Photo.FrameT p (p.takenAtFallback env m) := by
  unfold Photo.takenAtFallback
  split
  · exact Photo.SetTakenAt_frame env p _ _ _ _
  · exact Photo.FrameT.typed_refl p

theorem Photo.UpdateLocation_frame (env : Env) (p : Photo) :
    Photo.FrameT p (p.UpdateLocation env) := ⟨⟨rfl, rfl, rfl, rfl⟩, rfl⟩

theorem Photo.UpdateDateFields_frame (env : Env) (p : Photo) :
    Photo.FrameT p (p.UpdateDateFields env) := ⟨⟨rfl, rfl, rfl, rfl⟩, rfl⟩

theorem Photo.applyUnknown_frame (env : Env) (p : Photo) :
    Photo.FrameT p (p.applyUnknown env) := by
  unfold Photo.applyUnknown
  simp only []
  repeat' split
  all_goals exact ⟨⟨rfl, rfl, rfl, rfl⟩, rfl⟩

theorem mergeMetaPhoto_frame (env : Env) (md : MetaData) (p : Photo) :
    Photo.FrameT p (mergeMetaPhoto env md p) := by
  unfold mergeMetaPhoto
  exact (((((Photo.SetTitle_frame env p _ _).typed_trans (Photo.SetDescription_frame env _ _ _)).typed_trans
    (Photo.SetTakenAt_frame env _ _ _ _ _)).typed_trans (Photo.SetCoordinates_frame env _ _ _ _ _)).typed_trans
    (Photo.fillCameraSerial_frame _ md)).typed_trans (Photo.fillDocumentID_frame _ md)

theorem mergeMetaFile_frame (md : MetaData) (f : File) :
    (mergeMetaFile md f).ID = f.ID ∧ (mergeMetaFile md f).FilePrimary = f.FilePrimary := by
  unfold mergeMetaFile
  split <;> exact ⟨rfl, rfl⟩

theorem File.setColors_frame (f : File) (m : MediaFile) :
    (f.setColors m).ID = f.ID ∧ (f.setColors m).FilePrimary = f.FilePrimary := by
  unfold File.setColors
  split <;> exact ⟨rfl, rfl⟩

theorem File.inheritPrimary_frame (f pf : File) :
    (f.inheritPrimary pf).ID = f.ID ∧ (f.inheritPrimary pf).FilePrimary = f.FilePrimary := by
  unfold File.inheritPrimary
  simp only []
  repeat' split
  all_goals exact ⟨rfl, rfl⟩

theorem IndexState.Frame.state_refl (s : IndexState) : IndexState.Frame s s :=
  ⟨Photo.Frame.frame_refl _, rfl, rfl, rfl, rfl⟩

theorem IndexState.Frame.state_trans {s t u : IndexState} (h1 : IndexState.Frame s t)
    (h2 : IndexState.Frame t u) : IndexState.Frame s u :=
  ⟨h1.1.frame_trans h2.1, h2.2.1.trans h1.2.1, h2.2.2.1.trans h1.2.2.1,
   h2.2.2.2.1.trans h1.2.2.2.1, h2.2.2.2.2.trans h1.2.2.2.2⟩

theorem mergeMeta_frame (env : Env) (md : MetaData) (st : IndexState) :
    IndexState.Frame st (mergeMeta env md st) ∧
    (mergeMeta env md st).photo.PhotoType = st.photo.PhotoType :=
  ⟨⟨(mergeMetaPhoto_frame env md st.photo).1, (mergeMetaFile_frame md st.file).1,
    (mergeMetaFile_frame md st.file).2, rfl, rfl⟩, (mergeMetaPhoto_frame env md st.photo).2⟩

theorem mergeJpeg_frame (m : MediaFile) (st : IndexState) :
    IndexState.Frame st (mergeJpeg m st) ∧
    (mergeJpeg m st).photo.PhotoType = st.photo.PhotoType := by
  unfold mergeJpeg
  split
  · exact ⟨⟨(Photo.raiseResolution_frame _ _).1, (File.setColors_frame _ m).1,
      (File.setColors_frame _ m).2, rfl, rfl⟩, (Photo.raiseResolution_frame _ _).2⟩
  · exact ⟨⟨Photo.Frame.frame_refl _, (File.setColors_frame _ m).1, (File.setColors_frame _ m).2,
      rfl, rfl⟩, rfl⟩

theorem mergeXmp_frame (env : Env) (m : MediaFile) (st : IndexState) :
    IndexState.Frame st (mergeXmp env m st) ∧
    (mergeXmp env m st).photo.PhotoType = st.photo.PhotoType := by
  unfold mergeXmp
  split
  · exact ⟨IndexState.Frame.state_refl _, rfl⟩
  · exact ⟨⟨⟨rfl, rfl, rfl, rfl⟩, rfl, rfl, rfl, rfl⟩, rfl⟩

theorem mergeRawMeta_frame (env : Env) (m : MediaFile) (st : IndexState) :
    IndexState.Frame st (mergeRawMeta env m st) ∧
    (mergeRawMeta env m st).photo.PhotoType = st.photo.PhotoType :=
  ⟨⟨((mergeMetaPhoto_frame env m.MetaData st.photo).typed_trans
      (Photo.raiseResolution_frame _ _)).1, (mergeMetaFile_frame m.MetaData st.file).1,
    (mergeMetaFile_frame m.MetaData st.file).2, rfl, rfl⟩,
   ((mergeMetaPhoto_frame env m.MetaData st.photo).typed_trans (Photo.raiseResolution_frame _ _)).2⟩

theorem mergeVideoMeta_frame (env : Env) (m : MediaFile) (st : IndexState) :
    IndexState.Frame st (mergeVideoMeta env m st) :=
  ⟨((mergeMetaPhoto_frame env m.MetaData st.photo).typed_trans
      (Photo.raiseResolution_frame _ _)).1, (mergeMetaFile_frame m.MetaData st.file).1,
    (mergeMetaFile_frame m.MetaData st.file).2, rfl, rfl⟩

theorem mergeRaw_frame (env : Env) (m : MediaFile) (st : IndexState) :
    IndexState.Frame st (mergeRaw env m st) := by
  unfold mergeRaw
  simp only []
  split
  · obtain ⟨h1, h2, h3, h4, h5⟩ := (mergeRawMeta_frame env m st).1
    exact ⟨h1.frame_trans (Photo.markRaw_frame _ m), h2, h3, h4, h5⟩
  · exact ⟨Photo.markRaw_frame _ m, rfl, rfl, rfl, rfl⟩

theorem mergeVideo_frame (env : Env) (m : MediaFile) (st : IndexState) :
    IndexState.Frame st (mergeVideo env m st) := by
  unfold mergeVideo
  simp only []
  split
  · obtain ⟨h1, h2, h3, h4, h5⟩ := mergeVideoMeta_frame env m st
    exact ⟨h1.frame_trans ⟨rfl, rfl, rfl, rfl⟩, (File.inheritPrimary_frame _ _).1.trans h2,
      (File.inheritPrimary_frame _ _).2.trans h3, h4, h5⟩
  · exact ⟨⟨rfl, rfl, rfl, rfl⟩, (File.inheritPrimary_frame _ _).1,
      (File.inheritPrimary_frame _ _).2, rfl, rfl⟩

theorem mergeKind_frame (env : Env) (m : MediaFile) (st : IndexState) :
    IndexState.Frame st (mergeKind env m st) := by
  unfold mergeKind
  repeat' split
  · exact (mergeJpeg_frame m st).1
  · exact (mergeXmp_frame env m st).1
  · exact mergeRaw_frame env m st
  · exact mergeVideo_frame env m st
  · exact IndexState.Frame.state_refl _

theorem classifyGate_frame (env : Env) (m : MediaFile) (st : IndexState) :
    IndexState.Frame st (classifyGate env m st) ∧
    (classifyGate env m st).photo.PhotoType = st.photo.PhotoType := by
  unfold classifyGate
  repeat' split
  all_goals exact ⟨⟨⟨rfl, rfl, rfl, rfl⟩, rfl, rfl, rfl, rfl⟩, rfl⟩

theorem updateCamera_frame (env : Env) (w : World) (m : MediaFile) (p : Photo) :
    Photo.FrameT p (updateCamera env w m p).1 := by
  unfold updateCamera
  split <;> exact ⟨⟨rfl, rfl, rfl, rfl⟩, rfl⟩

theorem updateCamera_quiet (env : Env) (w : World) (m : MediaFile) (p : Photo) :
    World.QuietExt OpRecord.isQuiet w (updateCamera env w m p).2 := by
  unfold updateCamera
  split
  · exact (World.QuietExt.log w .firstOrCreateCamera none ⟨rfl, rfl⟩).quiet_trans
      (World.QuietExt.log _ .firstOrCreateLens none ⟨rfl, rfl⟩)
  · exact World.QuietExt.quiet_refl _ _

theorem primaryTail_frame (env : Env) (w : World) (m : MediaFile) (p : Photo) :
    Photo.FrameT p (((updateCamera env w m p).1.takenAtFallback env m).UpdateLocation env) :=
  ((updateCamera_frame env w m p).typed_trans (Photo.takenAtFallback_frame env _ m)).typed_trans
    (Photo.UpdateLocation_frame env _)

/-- The primary-file block keeps the frame of the state and the type of the
photo. -/
theorem mergePrimary_frame (env : Env) (w : World) (m : MediaFile) (st : IndexState) :
    IndexState.Frame st (mergePrimary env w m st).1 ∧
    (mergePrimary env w m st).1.photo.PhotoType = st.photo.PhotoType := by
  unfold mergePrimary
  split
  · simp only []
    have h1 := classifyGate_frame env m { st with primaryFile := st.file }
    split
    · have h2 := mergeMeta_frame env m.MetaData
        (classifyGate env m { st with primaryFile := st.file })
      have h3 := primaryTail_frame env w m
        (mergeMeta env m.MetaData (classifyGate env m { st with primaryFile := st.file })).photo
      obtain ⟨g1, g2, g3, g4, g5⟩ := h1.1.state_trans h2.1
      exact ⟨⟨g1.frame_trans h3.1, g2, g3, g4, g5⟩, (h3.2.trans h2.2).trans h1.2⟩
    · have h3 := primaryTail_frame env w m
        (classifyGate env m { st with primaryFile := st.file }).photo
      obtain ⟨g1, g2, g3, g4, g5⟩ := h1.1
      exact ⟨⟨g1.frame_trans h3.1, g2, g3, g4, g5⟩, h3.2.trans h1.2⟩
  · exact ⟨IndexState.Frame.state_refl _, rfl⟩

theorem mergePrimary_quiet (env : Env) (w : World) (m : MediaFile) (st : IndexState) :
    World.QuietExt OpRecord.isQuiet w (mergePrimary env w m st).2 := by
  unfold mergePrimary
  split
  · exact (updateCamera_quiet env w m _).quiet_trans
      (World.QuietExt.log _ .updateLocation none ⟨rfl, rfl⟩)
  · exact World.QuietExt.quiet_refl _ _

theorem finishRows_frame (env : Env) (m : MediaFile) (st : IndexState) :
    IndexState.Frame st (finishRows env m st) ∧
    (finishRows env m st).photo.PhotoType = st.photo.PhotoType :=
  ⟨⟨((Photo.applyUnknown_frame env st.photo).typed_trans (Photo.UpdateDateFields_frame env _)).1,
    rfl, rfl, rfl, rfl⟩,
   ((Photo.applyUnknown_frame env st.photo).typed_trans (Photo.UpdateDateFields_frame env _)).2⟩

theorem clearFileFlags_frame (st : IndexState) :
    IndexState.Frame st (clearFileFlags st) ∧
    (clearFileFlags st).photo.PhotoType = st.photo.PhotoType :=
  ⟨⟨⟨rfl, rfl, rfl, rfl⟩, rfl, rfl, rfl, rfl⟩, rfl⟩

/-- The merge keeps key, unique id, soft-delete marker and quality of the
photo, key and primary flag of the file, and the two existence flags. -/
theorem merge_frame (env : Env) (w : World) (m : MediaFile) (st : IndexState) :
    IndexState.Frame st (merge env w m st).1 := by
  unfold merge
  exact (((mergeKind_frame env m st).state_trans (clearFileFlags_frame _).1).state_trans
    (mergePrimary_frame env w m _).1).state_trans (finishRows_frame env m _).1

/-- The merge writes no photo row and no file row and publishes nothing. -/
theorem merge_quiet (env : Env) (w : World) (m : MediaFile) (st : IndexState) :
    World.QuietExt OpRecord.isQuiet w (merge env w m st).2 := by
  unfold merge
  exact mergePrimary_quiet env w m _

/-- Type of the photo after the merge: the switch on the file kind decides. -/
theorem merge_photoType (env : Env) (w : World) (m : MediaFile) (st : IndexState) :
    (merge env w m st).1.photo.PhotoType = (mergeKind env m st).photo.PhotoType := by
  unfold merge
  exact ((finishRows_frame env m _).2.trans (mergePrimary_frame env w m _).2).trans
    (clearFileFlags_frame _).2

/-! ### Tables after a store operation -/

@[simp] theorem World.savePhoto_photos (w : World) (p : Photo) :
    (w.savePhoto p).photos = savePhotoRows w.photos p := rfl

@[simp] theorem World.savePhoto_files (w : World) (p : Photo) :
    (w.savePhoto p).files = w.files := rfl

@[simp] theorem World.savePhoto_events (w : World) (p : Photo) :
    (w.savePhoto p).events = w.events := rfl

@[simp] theorem World.savePhoto_ops (w : World) (p : Photo) :
    (w.savePhoto p).ops = w.ops := rfl

@[simp] theorem World.savePhoto_downloads (w : World) (p : Photo) :
    (w.savePhoto p).downloads = w.downloads := rfl

@[simp] theorem World.savePhoto_yamls (w : World) (p : Photo) :
    (w.savePhoto p).yamls = w.yamls := rfl

@[simp] theorem World.saveFile_files (w : World) (f : File) :
    (w.saveFile f).files = saveFileRows w.files f := rfl

@[simp] theorem World.saveFile_photos (w : World) (f : File) :
    (w.saveFile f).photos = w.photos := rfl

@[simp] theorem World.saveFile_events (w : World) (f : File) :
    (w.saveFile f).events = w.events := rfl

@[simp] theorem World.saveFile_ops (w : World) (f : File) :
    (w.saveFile f).ops = w.ops := rfl

@[simp] theorem World.saveFile_downloads (w : World) (f : File) :
    (w.saveFile f).downloads = w.downloads := rfl

@[simp] theorem World.saveFile_yamls (w : World) (f : File) :
    (w.saveFile f).yamls = w.yamls := rfl

@[simp] theorem World.createPhoto_fst (env : Env) (w : World) (p : Photo) :
    (w.createPhoto env p).1 = newPhotoRow env w.photos p := rfl

@[simp] theorem World.createPhoto_photos (env : Env) (w : World) (p : Photo) :
    (w.createPhoto env p).2.photos = w.photos ++ [newPhotoRow env w.photos p] := rfl

@[simp] theorem World.createPhoto_files (env : Env) (w : World) (p : Photo) :
    (w.createPhoto env p).2.files = w.files := rfl

@[simp] theorem World.createPhoto_events (env : Env) (w : World) (p : Photo) :
    (w.createPhoto env p).2.events = w.events := rfl

@[simp] theorem World.createPhoto_ops (env : Env) (w : World) (p : Photo) :
    (w.createPhoto env p).2.ops = w.ops := rfl

@[simp] theorem World.createPhoto_downloads (env : Env) (w : World) (p : Photo) :
    (w.createPhoto env p).2.downloads = w.downloads := rfl

@[simp] theorem World.createPhoto_yamls (env : Env) (w : World) (p : Photo) :
    (w.createPhoto env p).2.yamls = w.yamls := rfl

@[simp] theorem World.createFile_fst (env : Env) (w : World) (f : File) :
    (w.createFile env f).1 = newFileRow env w.files f := rfl

@[simp] theorem World.createFile_files (env : Env) (w : World) (f : File) :
    (w.createFile env f).2.files = w.files ++ [newFileRow env w.files f] := rfl

@[simp] theorem World.createFile_photos (env : Env) (w : World) (f : File) :
    (w.createFile env f).2.photos = w.photos := rfl

@[simp] theorem World.createFile_events (env : Env) (w : World) (f : File) :
    (w.createFile env f).2.events = w.events := rfl

@[simp] theorem World.createFile_ops (env : Env) (w : World) (f : File) :
    (w.createFile env f).2.ops = w.ops := rfl

@[simp] theorem World.createFile_downloads (env : Env) (w : World) (f : File) :
    (w.createFile env f).2.downloads = w.downloads := rfl

@[simp] theorem World.createFile_yamls (env : Env) (w : World) (f : File) :
    (w.createFile env f).2.yamls = w.yamls := rfl

@[simp] theorem World.addDownload_files (w : World) (n : String) (i : Nat) :
    (w.addDownload n i).files = w.files := rfl

@[simp] theorem World.addDownload_photos (w : World) (n : String) (i : Nat) :
    (w.addDownload n i).photos = w.photos := rfl

@[simp] theorem World.addDownload_events (w : World) (n : String) (i : Nat) :
    (w.addDownload n i).events = w.events := rfl

@[simp] theorem World.addDownload_ops (w : World) (n : String) (i : Nat) :
    (w.addDownload n i).ops = w.ops := rfl

@[simp] theorem World.addYaml_files (w : World) (n : String) (p : Photo) :
    (w.addYaml n p).files = w.files := rfl

@[simp] theorem World.addYaml_photos (w : World) (n : String) (p : Photo) :
    (w.addYaml n p).photos = w.photos := rfl

@[simp] theorem World.addYaml_events (w : World) (n : String) (p : Photo) :
    (w.addYaml n p).events = w.events := rfl

@[simp] theorem World.addYaml_ops (w : World) (n : String) (p : Photo) :
    (w.addYaml n p).ops = w.ops := rfl

/-- A saved photo is a row of the table. -/
theorem savePhotoRows_mem (photos : List Photo) (p : Photo) : p ∈ savePhotoRows photos p := by
  unfold savePhotoRows
  split
  · rename_i h
    obtain ⟨q, hq, hid⟩ := List.any_eq_true.mp h
    simp only [List.mem_map]
    exact ⟨q, hq, by simp [hid]⟩
  · simp

/-- Rows of the table after a save: the saved photo, or an old row with
another key. -/
theorem savePhotoRows_rows (photos : List Photo) (p q : Photo)
    (h : q ∈ savePhotoRows photos p) : q = p ∨ (q ∈ photos ∧ q.ID ≠ p.ID) := by
  unfold savePhotoRows at h
  split at h
  · simp only [List.mem_map] at h
    obtain ⟨r, hr, hrq⟩ := h
    by_cases hid : r.ID = p.ID
    · left
      simp [hid] at hrq
      exact hrq.symm
    · right
      have : (r.ID == p.ID) = false := by simpa using hid
      simp [this] at hrq
      subst hrq
      exact ⟨hr, hid⟩
  · rename_i hany
    simp only [List.mem_append, List.mem_singleton] at h
    rcases h with h | h
    · right
      refine ⟨h, ?_⟩
      intro hid
      apply hany
      exact List.any_eq_true.mpr ⟨q, h, by simp [hid]⟩
    · exact Or.inl h

/-- Saving a photo whose key is in the table keeps the number of rows. -/
theorem savePhotoRows_length (photos : List Photo) (p q : Photo) (hq : q ∈ photos)
    (hid : q.ID = p.ID) : (savePhotoRows photos p).length = photos.length := by
  have : photos.any (fun r => r.ID == p.ID) = true :=
    List.any_eq_true.mpr ⟨q, hq, by simp [hid]⟩
  simp [savePhotoRows, this]

/-- Table after saving a file whose key is in the table: the rows with that
key are replaced in place. -/
theorem saveFileRows_of_mem (files : List File) (f g : File) (hg : g ∈ files)
    (hid : g.ID = f.ID) :
    saveFileRows files f = files.map (fun r => if r.ID == f.ID then f else r) := by
  have : files.any (fun r => r.ID == f.ID) = true :=
    List.any_eq_true.mpr ⟨g, hg, by simp [hid]⟩
  simp [saveFileRows, this]

/-- A saved file is a row of the table. -/
theorem saveFileRows_mem (files : List File) (f : File) : f ∈ saveFileRows files f := by
  unfold saveFileRows
  split
  · rename_i h
    obtain ⟨q, hq, hid⟩ := List.any_eq_true.mp h
    simp only [List.mem_map]
    exact ⟨q, hq, by simp [hid]⟩
  · simp

theorem linkedFile_frame (st : IndexState) (p : Photo) :
    (linkedFile st p).ID = st.file.ID ∧ (linkedFile st p).FilePrimary = st.file.FilePrimary ∧
    (linkedFile st p).PhotoID = p.ID := ⟨rfl, rfl, rfl⟩

/-- The photo saved last has key, unique id, soft-delete marker and type of
the photo written first. -/
theorem finalPhoto_frame (env : Env) (m : MediaFile) (st : IndexState) (p : Photo) :
    (finalPhoto env m st p).ID = p.ID ∧ (finalPhoto env m st p).PhotoUID = p.PhotoUID ∧
    (finalPhoto env m st p).DeletedAt = p.DeletedAt ∧
    (finalPhoto env m st p).PhotoType = p.PhotoType := by
  unfold finalPhoto
  split
  · exact ⟨rfl, rfl, rfl, rfl⟩
  · unfold Photo.scoreOther
    split <;> exact ⟨rfl, rfl, rfl, rfl⟩

/-! ### The persistence stage -/

@[simp] theorem World.publishCreated_files (w : World) (p : Photo) :
    (w.publishCreated p).files = w.files := by
  unfold World.publishCreated
  simp only []
  repeat' split
  all_goals rfl

@[simp] theorem World.publishCreated_photos (w : World) (p : Photo) :
    (w.publishCreated p).photos = w.photos := by
  unfold World.publishCreated
  simp only []
  repeat' split
  all_goals rfl

@[simp] theorem World.publishCreated_ops (w : World) (p : Photo) :
    (w.publishCreated p).ops = w.ops := by
  unfold World.publishCreated
  simp only []
  repeat' split
  all_goals rfl

theorem World.publishCreated_events (w : World) (p : Photo) :
    (w.publishCreated p).events = w.events ++ createdEvents p := by
  unfold World.publishCreated createdEvents
  simp only []
  repeat' split
  all_goals simp

@[simp] theorem afterFile_files (env : Env) (w : World) (m : MediaFile) (name : String)
    (p : Photo) (f : File) : (afterFile env w m name p f).files = w.files := by
  unfold afterFile
  simp only []
  repeat' split
  all_goals simp

@[simp] theorem afterFile_photos (env : Env) (w : World) (m : MediaFile) (name : String)
    (p : Photo) (f : File) : (afterFile env w m name p f).photos = w.photos := by
  unfold afterFile
  simp only []
  repeat' split
  all_goals simp

@[simp] theorem afterFile_events (env : Env) (w : World) (m : MediaFile) (name : String)
    (p : Photo) (f : File) : (afterFile env w m name p f).events = w.events := by
  unfold afterFile
  simp only []
  repeat' split
  all_goals simp

theorem persistRow_photos (env : Env) (w : World) (st : IndexState) (f : File) :
    (persistRow env w st f).2.photos = w.photos := by
  unfold persistRow
  repeat' split
  all_goals simp

/-- The file part of the persistence stage leaves the photos table alone. -/
theorem persistFile_photos (env : Env) (w : World) (m : MediaFile) (name : String)
    (st : IndexState) (p : Photo) (f : File) (r : IndexResult) :
    (persistFile env w m name st p f r).2.photos = w.photos := by
  unfold persistFile
  split
  · exact persistRow_photos env w st f
  · simp only [afterFile_photos]
    exact persistRow_photos env w st f

/-- Result and tables of the persistence stage when no write of a photo row
or file row fails. -/
theorem persist_rowWritesOk (env : Env) (w : World) (m : MediaFile) (name : String)
    (st : IndexState) (hf : env.faults.rowWritesOk) :
    (persist env w m name st).1 =
      { Status := if st.fileQueryOk then .IndexUpdated else .IndexAdded,
        Error := none,
        FileID := (writtenFile env w st).ID,
        FileUID := (writtenFile env w st).FileUID,
        PhotoID := (firstPhoto env w st).ID,
        PhotoUID := (firstPhoto env w st).PhotoUID } ∧
    (persist env w m name st).2.photos =
      savePhotoRows (firstPhotos env w st) (finalPhoto env m st (firstPhoto env w st)) ∧
    (persist env w m name st).2.files =
      (if st.fileQueryOk then saveFileRows w.files (writtenFile env w st)
       else w.files ++ [writtenFile env w st]) ∧
    (persist env w m name st).2.events =
      w.events ++ (if st.photoExists then [] else createdEvents (firstPhoto env w st)) ++
        (if st.fileQueryOk then [] else [.countFiles]) := by
  obtain ⟨h1, h2, h3, h4, h5⟩ := hf
  have hfin := fun p => finalPhoto_frame env m st p
  cases he : st.photoExists <;> cases hq : st.fileQueryOk <;> cases hp : st.file.FilePrimary
  all_goals
    simp [persist, persistPhoto, persistRest, persistQuality, persistFile, persistRow,
      writtenFile, firstPhoto, firstPhotos, h1, h2, h3, h4, h5, he, hq, hp, (hfin _).1,
      (hfin _).2.1, World.publishCreated_events]

/-- Result and tables of the persistence stage when no operation fails. -/
theorem persist_noFaults (env : Env) (w : World) (m : MediaFile) (name : String)
    (st : IndexState) (hf : env.faults = {}) :
    (persist env w m name st).1 =
      { Status := if st.fileQueryOk then .IndexUpdated else .IndexAdded,
        Error := none,
        FileID := (writtenFile env w st).ID,
        FileUID := (writtenFile env w st).FileUID,
        PhotoID := (firstPhoto env w st).ID,
        PhotoUID := (firstPhoto env w st).PhotoUID } ∧
    (persist env w m name st).2.photos =
      savePhotoRows (firstPhotos env w st) (finalPhoto env m st (firstPhoto env w st)) ∧
    (persist env w m name st).2.files =
      (if st.fileQueryOk then saveFileRows w.files (writtenFile env w st)
       else w.files ++ [writtenFile env w st]) ∧
    (persist env w m name st).2.events =
      w.events ++ (if st.photoExists then [] else createdEvents (firstPhoto env w st)) ++
        (if st.fileQueryOk then [] else [.countFiles]) :=
  persist_rowWritesOk env w m name st (by rw [hf]; exact ⟨rfl, rfl, rfl, rfl, rfl⟩)

/-! ### Runs that reach the merge -/

/-- The last file query of the lookup succeeded exactly when a row was
bound. -/
theorem lookupFile_queryOk (env : Env) (w : World) (m : MediaFile) :
    (lookupFile env w m).1.fileQueryOk = (lookupFile env w m).1.fileExists := by
  unfold lookupFile
  simp only []
  repeat' split
  all_goals rfl

/-- The bound file row is a row of the files table. -/
theorem lookupFile_mem (env : Env) (w : World) (m : MediaFile)
    (h : (lookupFile env w m).1.fileExists = true) : (lookupFile env w m).1.file ∈ w.files := by
  unfold lookupFile at h ⊢
  simp only [World.log_files] at h ⊢
  cases h1 : w.files.find? (fun f => f.FileName == m.fileName) with
  | some f =>
    simp only [h1]
    exact List.mem_of_find?_eq_some h1
  | none =>
    simp only [h1] at h ⊢
    cases hs : m.IsSidecar with
    | true => simp [hs] at h
    | false =>
      simp only [hs, Bool.false_eq_true, if_false] at h ⊢
      cases h2 : w.files.find? (fun f => f.FileHash == m.Hash) with
      | some f =>
        simp only [h2]
        split <;> exact List.mem_of_find?_eq_some h2
      | none =>
        simp only [h2] at h ⊢
        cases hi : m.MetaData.HasInstanceID with
        | false => simp [hi] at h
        | true =>
          simp only [hi, if_true] at h ⊢
          cases h3 : w.files.find? (fun f => f.UUID == m.MetaData.InstanceID) with
          | some f =>
            simp only [h3]
            exact List.mem_of_find?_eq_some h3
          | none => simp [h3] at h

/-- A run that is not short-circuited is the merge and the persistence
stage, run on the prepared state. -/
theorem MediaFile_of_indexed (env : Env) (w : World) (m : MediaFile) (o : IndexOptions)
    (name : String)
    (hD : (Index.MediaFile env w (some m) o name).1.Status ≠ .IndexDuplicate)
    (hS : (Index.MediaFile env w (some m) o name).1.Status ≠ .IndexSkipped)
    (hA : (Index.MediaFile env w (some m) o name).1.Status ≠ .IndexArchived) :
    Index.MediaFile env w (some m) o name =
      indexRest env (prepared env w m name).2 m name (unarchived (prepared env w m name).1) := by
  have hd : (resolveFile env w m).duplicate = false := by
    cases h : (resolveFile env w m).duplicate with
    | false => rfl
    | true =>
      rw [MediaFile_of_duplicate env w m o name h] at hD
      exact absurd rfl hD
  have hs : (!(resolvePhoto env w m).fileChanged && (resolvePhoto env w m).photoExists
      && o.SkipUnchanged) = false := by
    cases h : (!(resolvePhoto env w m).fileChanged && (resolvePhoto env w m).photoExists
      && o.SkipUnchanged) with
    | false => rfl
    | true =>
      simp only [Bool.and_eq_true, Bool.not_eq_true'] at h
      rw [MediaFile_of_skipped env w m o name hd h.1.1 h.1.2 h.2] at hS
      exact absurd rfl hS
  have hc := MediaFile_of_continue env w m o name hd hs
  rw [hc] at hA ⊢
  simp only [prepared, unarchived] at hA ⊢
  split
  · rfl
  · rename_i h1
    simp only [h1] at hA
    split
    · rename_i h2
      simp [h2] at hA
    · rfl

/-- World at the archive check. -/
theorem prepared_world (env : Env) (w : World) (m : MediaFile) (name : String) :
    World.QuietExt OpRecord.isQuiet (w.publish (indexingEvent m)) (prepared env w m name).2 :=
  prepared_quiet env w m name _ _ _

theorem unarchived_frame (st : IndexState) :
    (unarchived st).photo.ID = st.photo.ID ∧ (unarchived st).photo.PhotoUID = st.photo.PhotoUID ∧
    (unarchived st).photo.PhotoQuality = st.photo.PhotoQuality ∧
    (unarchived st).photo.PhotoType = st.photo.PhotoType ∧
    (unarchived st).file = st.file ∧ (unarchived st).photoExists = st.photoExists ∧
    (unarchived st).fileQueryOk = st.fileQueryOk := by
  unfold unarchived
  split <;> exact ⟨rfl, rfl, rfl, rfl, rfl, rfl, rfl⟩

/-- State and world at the first write of the photo, for a run that is not
short-circuited. -/
theorem indexRest_eq (env : Env) (w : World) (m : MediaFile) (name : String)
    (st : IndexState) :
    indexRest env w m name st = persist env (merge env w m st).2 m name (merge env w m st).1 :=
  rfl

/-- World at the first write of the photo: the `index.indexing` event was
published and nothing was written. -/
theorem merged_world (env : Env) (w : World) (m : MediaFile) (name : String) :
    World.QuietExt OpRecord.isQuiet (w.publish (indexingEvent m))
      (merge env (prepared env w m name).2 m (unarchived (prepared env w m name).1)).2 :=
  (prepared_world env w m name).quiet_trans (merge_quiet env _ m _)

/-- File part of the state at the first write of the photo. -/
theorem merged_file (env : Env) (w : World) (m : MediaFile) (name : String) :
    (merge env (prepared env w m name).2 m (unarchived (prepared env w m name).1)).1.fileQueryOk
      = (resolveFile env w m).fileExists ∧
    (merge env (prepared env w m name).2 m (unarchived (prepared env w m name).1)).1.file.ID
      = (resolveFile env w m).file.ID := by
  obtain ⟨-, h2, -, -, h5⟩ := merge_frame env (prepared env w m name).2 m
    (unarchived (prepared env w m name).1)
  obtain ⟨-, -, -, -, u5, -, u7⟩ := unarchived_frame (prepared env w m name).1
  obtain ⟨p1, p2⟩ := prepare_file env
    (lookupPhoto (lookupFile env (w.publish (indexingEvent m)) m).2 m (resolveFile env w m)).2
    m name (resolveFile env w m) (resolvePhoto env w m)
  refine ⟨?_, ?_⟩
  · rw [h5, u7]
    exact p2.trans (lookupFile_queryOk env w m)
  · rw [h2, u5]
    exact p1

theorem countFilesEvents_append (a b : List Event) :
    countFilesEvents (a ++ b) = countFilesEvents a + countFilesEvents b := by
  simp [countFilesEvents]

theorem countFilesEvents_created (p : Photo) : countFilesEvents (createdEvents p) = 0 := by
  unfold createdEvents countFilesEvents
  split <;> split <;> rfl

/-- A run that is neither a duplicate nor skipped: the archive check decides
between the short-circuit and the merge. -/
theorem MediaFile_of_prepared (env : Env) (w : World) (m : MediaFile) (o : IndexOptions)
    (name : String) (hd : (resolveFile env w m).duplicate = false)
    (hs : (!(resolvePhoto env w m).fileChanged && (resolvePhoto env w m).photoExists
            && o.SkipUnchanged) = false) :
    Index.MediaFile env w (some m) o name =
      if ((prepared env w m name).1.photo.PhotoQuality == -1
            && (prepared env w m name).1.file.FilePrimary) = false
          ∧ (prepared env w m name).1.photo.DeletedAt.isSome = true then
        ({ Status := .IndexArchived }, (prepared env w m name).2)
      else
        indexRest env (prepared env w m name).2 m name (unarchived (prepared env w m name).1) := by
  rw [MediaFile_of_continue env w m o name hd hs]
  simp only [prepared, unarchived]
  cases hc : ((prepare env
      (lookupPhoto (lookupFile env (w.publish (indexingEvent m)) m).2 m (resolveFile env w m)).2
      m name (resolveFile env w m) (resolvePhoto env w m)).1.photo.PhotoQuality == -1
      && (prepare env
      (lookupPhoto (lookupFile env (w.publish (indexingEvent m)) m).2 m (resolveFile env w m)).2
      m name (resolveFile env w m) (resolvePhoto env w m)).1.file.FilePrimary) <;>
    cases hdl : (prepare env
      (lookupPhoto (lookupFile env (w.publish (indexingEvent m)) m).2 m (resolveFile env w m)).2
      m name (resolveFile env w m) (resolvePhoto env w m)).1.photo.DeletedAt.isSome <;>
    simp

/-- State at the archive check when the resolver bound a photo. -/
theorem prepared_photo (env : Env) (w : World) (m : MediaFile) (name : String)
    (h : (resolvePhoto env w m).photoExists = true) :
    (prepared env w m name).1.photoExists = true ∧
    (prepared env w m name).1.photo.ID = (resolvePhoto env w m).photo.ID ∧
    (prepared env w m name).1.photo.PhotoUID = (resolvePhoto env w m).photo.PhotoUID ∧
    (prepared env w m name).1.photo.DeletedAt = (resolvePhoto env w m).photo.DeletedAt ∧
    (prepared env w m name).1.photo.PhotoQuality = (resolvePhoto env w m).photo.PhotoQuality ∧
    (prepared env w m name).1.photo.PhotoType = (resolvePhoto env w m).photo.PhotoType :=
  prepare_photo_of_exists env _ m name _ _ h

/-- A bound primary file stays primary up to the archive check. -/
theorem prepared_primary (env : Env) (w : World) (m : MediaFile) (name : String)
    (h : (resolveFile env w m).file.FilePrimary = true) :
    (prepared env w m name).1.file.FilePrimary = true := by
  unfold prepared prepare
  simp only []
  rw [(applyOriginalName_file env name _ _).2.1, establishPrimary_of_primary _ _ _ _ _ h]
  exact h

/-- A file of an existing photo that has a primary JPEG does not become
primary. -/
theorem prepared_not_primary (env : Env) (w : World) (m : MediaFile) (name : String) (j : File)
    (hp : (resolvePhoto env w m).photoExists = true)
    (hf : (resolveFile env w m).file.FilePrimary = false)
    (hj : w.files.find? (fun f => f.FileType == "jpg" && f.FilePrimary
            && f.PhotoID == (resolvePhoto env w m).photo.ID) = some j) :
    (prepared env w m name).1.file.FilePrimary = false := by
  have hw : (lookupPhoto (lookupFile env (w.publish (indexingEvent m)) m).2 m
      (resolveFile env w m)).2.files = w.files :=
    (quiet_after_indexing (lookups_quiet env w m (resolveFile env w m))).1
  unfold prepared prepare
  simp only [hp, restoreFromYaml_of_exists]
  rw [(applyOriginalName_file env name _ _).2.1]
  simp only [establishPrimary, hf, World.log_files, hw, hj]
  simp [hf]

/-- Status of the persistence stage: Failed, Updated or Added. -/
theorem persist_status (env : Env) (w : World) (m : MediaFile) (name : String)
    (st : IndexState) :
    (persist env w m name st).1.Status = .IndexFailed ∨
    (persist env w m name st).1.Status = .IndexUpdated ∨
    (persist env w m name st).1.Status = .IndexAdded := by
  unfold persist
  split
  · exact Or.inl rfl
  · unfold persistRest
    split
    · exact Or.inl rfl
    · unfold persistFile
      split
      · exact Or.inl rfl
      · rename_i h
        unfold persistRow at h
        repeat' split at h
        all_goals simp at h
        · right; left; simp [← h.2]
        · right; right; simp [← h.2]

/-! ### Resurrection of purged photos -/

theorem persistQuality_fst (env : Env) (w : World) (m : MediaFile) (st : IndexState)
    (p : Photo) :
    (persistQuality env w m st p).1 =
      (env.faults.photoSaveFinal, finalPhoto env m st p, linkedFile st p) := by
  unfold persistQuality
  simp only []
  repeat' split
  all_goals simp_all

theorem persistQuality_photos (env : Env) (w : World) (m : MediaFile) (st : IndexState)
    (p : Photo) :
    (persistQuality env w m st p).2.photos = w.photos ∨
    (persistQuality env w m st p).2.photos = savePhotoRows w.photos (finalPhoto env m st p) := by
  unfold persistQuality
  simp only []
  repeat' split
  all_goals simp

/-- Photos table after the persistence stage for an existing photo whose
first save succeeds: the photo row was written once or twice. -/
theorem persist_photos_saved (env : Env) (w : World) (m : MediaFile) (name : String)
    (st : IndexState) (he : st.photoExists = true) (h1 : env.faults.photoSave = none) :
    (persist env w m name st).2.photos = savePhotoRows w.photos st.photoRow ∨
    (persist env w m name st).2.photos =
      savePhotoRows (savePhotoRows w.photos st.photoRow) (finalPhoto env m st st.photoRow) := by
  have hq := persistQuality_photos env ((w.savePhoto st.photoRow).log .photoSave) m st st.photoRow
  simp only [World.log_photos, World.savePhoto_photos] at hq
  unfold persist
  simp only [persistPhoto, he, h1, if_true]
  unfold persistRest
  split
  · exact hq
  · rw [persistFile_photos]
    exact hq

theorem unarchived_restored (st : IndexState) (hq : st.photo.PhotoQuality = -1)
    (hp : st.file.FilePrimary = true) : (unarchived st).photo.DeletedAt = none := by
  simp [unarchived, hq, hp]

/-! ### Live and video -/

theorem videoType_live_iff (d : Duration) :
    videoType d = TypeLive ↔ (d ≠ 0 ∧ d ≤ 3100 * Millisecond) := by
  unfold videoType
  have hne : TypeVideo ≠ TypeLive := by decide
  by_cases h0 : d = 0
  · simp [h0, hne]
  · by_cases h1 : d > Millisecond * 3100
    · have : ¬ d ≤ 3100 * Millisecond := by
        rw [mul_comm]
        exact not_le.mpr h1
      simp [h0, h1, this, hne]
    · have : d ≤ 3100 * Millisecond := by
        rw [mul_comm]
        exact not_lt.mp h1
      simp [h0, h1, this]

theorem videoType_cases (d : Duration) : videoType d = TypeLive ∨ videoType d = TypeVideo := by
  unfold videoType
  split
  · exact Or.inr rfl
  · exact Or.inl rfl

/-- Type of the photo after the video branch with readable metadata. -/
theorem mergeKind_video (env : Env) (m : MediaFile) (st : IndexState)
    (hj : m.IsJpeg = false) (hx : m.IsXMP = false) (hr : m.IsRaw = false)
    (hh : m.IsHEIF = false) (hi : m.IsImageOther = false) (hv : m.IsVideo = true)
    (he : m.MetaData.Error = none) :
    (mergeKind env m st).photo.PhotoType = videoType m.MetaData.Duration := by
  simp [mergeKind, hj, hx, hr, hh, hi, hv, mergeVideo, he, mergeVideoMeta]

/-! ### A RAW file next to a JPEG -/

/-- Type of the photo after the RAW branch, for a photo of type image. -/
theorem mergeKind_raw (env : Env) (m : MediaFile) (st : IndexState)
    (hj : m.IsJpeg = false) (hx : m.IsXMP = false) (hr : m.IsRaw = true)
    (ht : st.photo.PhotoType = TypeImage) :
    (mergeKind env m st).photo.PhotoType = TypeRaw := by
  have h1 := (mergeRawMeta_frame env m st).2
  simp only [mergeKind, hj, hx, hr, Bool.false_eq_true, if_false, Bool.true_or, if_true,
    mergeRaw]
  split
  · simp [Photo.markRaw, hr, h1, ht]
  · simp [Photo.markRaw, hr, ht]

/-! ### Failures of store operations -/

theorem cleanTrace_nil : cleanTrace [] := by
  intro x hx
  cases hx

theorem cleanTrace_append {a b : List OpRecord} (ha : cleanTrace a) (hb : cleanTrace b) :
    cleanTrace (a ++ b) := by
  intro x hx
  rcases List.mem_append.mp hx with h | h
  · exact ha x h
  · exact hb x h

theorem cleanTrace_ok (op : StoreOp) : cleanTrace [{ op := op, err := none }] := by
  intro x hx _
  rw [List.mem_singleton.mp hx]

theorem cleanTrace_aux (op : StoreOp) (e : Option String) (h : op.writesRow = false) :
    cleanTrace [{ op := op, err := e }] := by
  intro x hx hw
  rw [List.mem_singleton.mp hx] at hw
  rw [h] at hw
  exact absurd hw (by decide)

theorem cleanTrace_of_quiet {l : List OpRecord} (h : ∀ x ∈ l, x.isQuiet) : cleanTrace l :=
  fun x hx _ => (h x hx).2

theorem afterFile_trace (env : Env) (w : World) (m : MediaFile) (name : String) (p : Photo)
    (f : File) : CleanRun w.ops (afterFile env w m name p f).ops := by
  have hv := cleanTrace_aux .updateVideoInfos env.faults.updateVideoInfos rfl
  have hs := cleanTrace_aux .setDownloadFileID env.faults.setDownloadFileID rfl
  unfold afterFile
  simp only []
  repeat' split
  all_goals simp only [World.addYaml_ops, World.addDownload_ops, World.log_ops]
  all_goals first
    | exact ⟨_, cleanTrace_append hv hs, (List.append_assoc _ _ _)⟩
    | exact ⟨_, hs, rfl⟩

theorem persistRow_trace (env : Env) (w : World) (st : IndexState) (f : File) :
    (∃ e op, (persistRow env w st f).1 = .error e ∧
      (persistRow env w st f).2.ops = w.ops ++ [{ op := op, err := some e }]) ∨
    (∃ r op, (persistRow env w st f).1 = .ok r ∧
      (persistRow env w st f).2.ops = w.ops ++ [{ op := op, err := none }]) := by
  unfold persistRow
  repeat' split
  · exact Or.inl ⟨_, _, rfl, rfl⟩
  · exact Or.inr ⟨_, _, rfl, rfl⟩
  · exact Or.inl ⟨_, _, rfl, rfl⟩
  · exact Or.inr ⟨_, _, rfl, rfl⟩

theorem persistPhoto_trace (env : Env) (w : World) (st : IndexState) :
    (∃ e op, (persistPhoto env w st).1 = .error e ∧
      (persistPhoto env w st).2.ops = w.ops ++ [{ op := op, err := some e }]) ∨
    (∃ p op, (persistPhoto env w st).1 = .ok p ∧
      (persistPhoto env w st).2.ops = w.ops ++ [{ op := op, err := none }]) := by
  unfold persistPhoto
  repeat' split
  · exact Or.inl ⟨_, _, rfl, rfl⟩
  · exact Or.inr ⟨_, _, rfl, rfl⟩
  · exact Or.inl ⟨_, _, rfl, rfl⟩
  · exact Or.inr ⟨_, .photoCreate, rfl, by simp⟩

theorem persistQuality_trace (env : Env) (w : World) (m : MediaFile) (st : IndexState)
    (p : Photo) :
    (∃ e, (persistQuality env w m st p).1.1 = some e ∧
      (persistQuality env w m st p).2.ops =
        w.ops ++ [{ op := .addLabels, err := none }] ++ [{ op := .photoSave, err := some e }]) ∨
    ((persistQuality env w m st p).1.1 = none ∧
      CleanRun w.ops (persistQuality env w m st p).2.ops) := by
  have ha := cleanTrace_ok .addLabels
  have hp := cleanTrace_ok .photoSave
  have hs := cleanTrace_aux .syncKeywordLabels env.faults.syncKeywordLabels rfl
  have hi := cleanTrace_aux .indexKeywords env.faults.indexKeywords rfl
  unfold persistQuality
  simp only []
  repeat' split
  · exact Or.inl ⟨_, rfl, rfl⟩
  · refine Or.inr ⟨rfl, _, cleanTrace_append (cleanTrace_append (cleanTrace_append ha hp) hs) hi,
      ?_⟩
    simp
  · refine Or.inr ⟨rfl, _, cleanTrace_append ha hp, ?_⟩
    simp

theorem persistFile_trace (env : Env) (w : World) (m : MediaFile) (name : String)
    (st : IndexState) (p : Photo) (f : File) (r : IndexResult) :
    FailedAt (persistFile env w m name st p f r).1 w.ops (persistFile env w m name st p f r).2.ops ∨
    CleanRun w.ops (persistFile env w m name st p f r).2.ops := by
  unfold persistFile
  rcases persistRow_trace env w st f with ⟨e, op, h1, h2⟩ | ⟨x, op, h1, h2⟩
  · rw [h1]
    exact Or.inl ⟨[], op, e, cleanTrace_nil, by simpa using h2, rfl, rfl⟩
  · rw [h1]
    obtain ⟨l, hl, hops⟩ := afterFile_trace env (persistRow env w st f).2 m name p x.1
    refine Or.inr ⟨_, cleanTrace_append (cleanTrace_ok op) hl, ?_⟩
    simp only []
    rw [hops, h2, List.append_assoc]

/-- Trace of the persistence stage: either no write of a photo or file row
failed, or the run stopped at the failed operation and reports its error. -/
theorem persist_trace (env : Env) (w : World) (m : MediaFile) (name : String)
    (st : IndexState) :
    FailedAt (persist env w m name st).1 w.ops (persist env w m name st).2.ops ∨
    CleanRun w.ops (persist env w m name st).2.ops := by
  unfold persist
  rcases persistPhoto_trace env w st with ⟨e, op, h1, h2⟩ | ⟨p, op, h1, h2⟩
  · rw [h1]
    exact Or.inl ⟨[], op, e, cleanTrace_nil, by simpa using h2, rfl, rfl⟩
  · rw [h1]
    simp only []
    unfold persistRest
    rcases persistQuality_trace env (persistPhoto env w st).2 m st p with ⟨e, h3, h4⟩ | ⟨h3, h4⟩
    · rw [h3]
      refine Or.inl ⟨_, .photoSave, e, cleanTrace_append (cleanTrace_ok op)
        (cleanTrace_ok .addLabels), ?_, rfl, rfl⟩
      simp only []
      rw [h4, h2]
      simp
    · rw [h3]
      simp only []
      obtain ⟨l2, hl2, hops2⟩ := h4
      rcases persistFile_trace env (persistQuality env (persistPhoto env w st).2 m st p).2 m name
        st (persistQuality env (persistPhoto env w st).2 m st p).1.2.1
        (persistQuality env (persistPhoto env w st).2 m st p).1.2.2
        { PhotoID := (persistQuality env (persistPhoto env w st).2 m st p).1.2.1.ID,
          PhotoUID := (persistQuality env (persistPhoto env w st).2 m st p).1.2.1.PhotoUID }
        with ⟨l3, op3, e3, hl3, hops3, hst, her⟩ | ⟨l3, hl3, hops3⟩
      · refine Or.inl ⟨_, op3, e3, cleanTrace_append (cleanTrace_append (cleanTrace_ok op) hl2)
          hl3, ?_, hst, her⟩
        rw [hops3, hops2, h2]
        simp
      · refine Or.inr ⟨_, cleanTrace_append (cleanTrace_append (cleanTrace_ok op) hl2) hl3, ?_⟩
        rw [hops3, hops2, h2]
        simp

theorem FailedAt_of_quiet {r : IndexResult} {v u w : World} {m : MediaFile}
    (hq : World.QuietExt OpRecord.isQuiet (w.publish (indexingEvent m)) v)
    (h : FailedAt r v.ops u.ops) : FailedAt r w.ops u.ops := by
  obtain ⟨-, -, -, -, -, l0, h0, hl0⟩ := quiet_after_indexing hq
  obtain ⟨l, op, e, hl, hops, hs, he⟩ := h
  refine ⟨l0 ++ l, op, e, cleanTrace_append (cleanTrace_of_quiet hl0) hl, ?_, hs, he⟩
  rw [hops, h0]
  simp

theorem CleanRun_of_quiet {v u w : World} {m : MediaFile}
    (hq : World.QuietExt OpRecord.isQuiet (w.publish (indexingEvent m)) v)
    (h : CleanRun v.ops u.ops) : CleanRun w.ops u.ops := by
  obtain ⟨-, -, -, -, -, l0, h0, hl0⟩ := quiet_after_indexing hq
  obtain ⟨l, hl, hops⟩ := h
  refine ⟨l0 ++ l, cleanTrace_append (cleanTrace_of_quiet hl0) hl, ?_⟩
  rw [hops, h0]
  simp

theorem CleanRun_quiet {v w : World} {m : MediaFile}
    (hq : World.QuietExt OpRecord.isQuiet (w.publish (indexingEvent m)) v) :
    CleanRun w.ops v.ops := by
  obtain ⟨-, -, -, -, -, l0, h0, hl0⟩ := quiet_after_indexing hq
  exact ⟨l0, cleanTrace_of_quiet hl0, h0⟩

/-- Trace of a run: either no write of a photo or file row failed, or the
run stopped at the failed operation and reports its error. -/
theorem MediaFile_trace (env : Env) (w : World) (m : MediaFile) (o : IndexOptions)
    (name : String) :
    FailedAt (Index.MediaFile env w (some m) o name).1 w.ops
      (Index.MediaFile env w (some m) o name).2.ops ∨
    CleanRun w.ops (Index.MediaFile env w (some m) o name).2.ops := by
  cases hd : (resolveFile env w m).duplicate with
  | true =>
    rw [MediaFile_of_duplicate env w m o name hd]
    exact Or.inr (CleanRun_quiet
      (World.QuietExt.mono OpRecord.isRead_isQuiet (lookupFile_quiet env _ m)))
  | false =>
    cases hs : (!(resolvePhoto env w m).fileChanged && (resolvePhoto env w m).photoExists
        && o.SkipUnchanged) with
    | true =>
      simp only [Bool.and_eq_true, Bool.not_eq_true'] at hs
      rw [MediaFile_of_skipped env w m o name hd hs.1.1 hs.1.2 hs.2]
      exact Or.inr (CleanRun_quiet
        (World.QuietExt.mono OpRecord.isRead_isQuiet (lookups_quiet env w m _)))
    | false =>
      rw [MediaFile_of_prepared env w m o name hd hs]
      split
      · exact Or.inr (CleanRun_quiet (prepared_world env w m name))
      · rw [indexRest_eq]
        rcases persist_trace env
          (merge env (prepared env w m name).2 m (unarchived (prepared env w m name).1)).2 m name
          (merge env (prepared env w m name).2 m (unarchived (prepared env w m name).1)).1
          with h | h
        · exact Or.inl (FailedAt_of_quiet (merged_world env w m name) h)
        · exact Or.inr (CleanRun_of_quiet (merged_world env w m name) h)


/-! ### Runs that succeed -/

@[simp] theorem World.addDownload_yamls (w : World) (n : String) (i : Nat) :
    (w.addDownload n i).yamls = w.yamls := rfl

@[simp] theorem World.addYaml_yamls (w : World) (n : String) (p : Photo) :
    (w.addYaml n p).yamls = w.yamls ++ [(n, p)] := rfl

@[simp] theorem World.publishCreated_yamls (w : World) (p : Photo) :
    (w.publishCreated p).yamls = w.yamls := by
  unfold World.publishCreated
  simp only []
  repeat' split
  all_goals rfl

theorem Faults.reachedOk_of_rowWritesOk (f : Faults) (st : IndexState) (h : f.rowWritesOk) :
    f.reachedOk st := by
  obtain ⟨h1, h2, h3, h4, h5⟩ := h
  refine ⟨?_, h3, ?_⟩
  · split
    · exact h1
    · exact h2
  · split
    · exact h4
    · exact h5

theorem afterFile_yamls (env : Env) (w : World) (m : MediaFile) (name : String)
    (p : Photo) (f : File) :
    (afterFile env w m name p f).yamls =
      w.yamls ++ (if f.FilePrimary && env.conf.SidecarYaml && env.faults.saveAsYaml.isNone then
        [(env.yamlFileName p env.conf.OriginalsPath env.conf.SidecarPath, p)] else []) := by
  unfold afterFile
  cases hp : f.FilePrimary <;> cases hy : env.conf.SidecarYaml <;>
    cases hs : env.faults.saveAsYaml <;> cases hd : env.faults.setDownloadFileID
  all_goals
    simp only []
    repeat' split
    all_goals simp_all

/-- Result and tables of the persistence stage when no write of a photo row
or file row that it reaches fails. -/
theorem persist_reachedOk (env : Env) (w : World) (m : MediaFile) (name : String)
    (st : IndexState) (hf : env.faults.reachedOk st) :
    (persist env w m name st).1 =
      { Status := if st.fileQueryOk then .IndexUpdated else .IndexAdded,
        Error := none,
        FileID := (writtenFile env w st).ID,
        FileUID := (writtenFile env w st).FileUID,
        PhotoID := (firstPhoto env w st).ID,
        PhotoUID := (firstPhoto env w st).PhotoUID } ∧
    (persist env w m name st).2.photos =
      savePhotoRows (firstPhotos env w st) (finalPhoto env m st (firstPhoto env w st)) ∧
    (persist env w m name st).2.files =
      (if st.fileQueryOk then saveFileRows w.files (writtenFile env w st)
       else w.files ++ [writtenFile env w st]) ∧
    (persist env w m name st).2.yamls =
      w.yamls ++ writtenYamls env st (finalPhoto env m st (firstPhoto env w st)) := by
  obtain ⟨h1, h3, h4⟩ := hf
  have hfin := fun p => finalPhoto_frame env m st p
  cases he : st.photoExists <;> cases hq : st.fileQueryOk <;> cases hp : st.file.FilePrimary
  all_goals
    simp only [he, hq, if_true, if_false, Bool.false_eq_true] at h1 h4
    simp [persist, persistPhoto, persistRest, persistQuality, persistFile, persistRow,
      afterFile_yamls, writtenFile, firstPhoto, firstPhotos, writtenYamls, h1, h3, h4, he, hq, hp,
      (hfin _).1, (hfin _).2.1, linkedFile, File.withUpdatedIn, File.withCreatedIn, newFileRow]

/-- The persistence stage fails exactly when a write of a photo row or file
row that it reaches fails. -/
theorem persist_failed_iff (env : Env) (w : World) (m : MediaFile) (name : String)
    (st : IndexState) :
    (persist env w m name st).1.Status ≠ .IndexFailed ↔ env.faults.reachedOk st := by
  constructor
  · intro h
    cases he : st.photoExists <;> cases hq : st.fileQueryOk <;>
      cases h1 : env.faults.photoSave <;> cases h2 : env.faults.photoCreate <;>
      cases h3 : env.faults.photoSaveFinal <;> cases h4 : env.faults.fileSave <;>
      cases h5 : env.faults.fileCreate
    all_goals first
      | (exfalso
         apply h
         simp [persist, persistPhoto, persistRest, persistQuality_fst, persistFile, persistRow,
           he, hq, h1, h2, h3, h4, h5]
         done)
      | simp [Faults.reachedOk, he, hq, h1, h2, h3, h4, h5]
  · intro hf
    rw [(persist_reachedOk env w m name st hf).1]
    simp only []
    split <;> exact fun h => IndexStatus.noConfusion h

/-- A run that returns Added or Updated is the persistence stage run on the
merged state, and no write it reaches fails. -/
theorem MediaFile_of_success (env : Env) (w : World) (m : MediaFile) (o : IndexOptions)
    (name : String)
    (h : (Index.MediaFile env w (some m) o name).1.Status = .IndexAdded ∨
         (Index.MediaFile env w (some m) o name).1.Status = .IndexUpdated) :
    Index.MediaFile env w (some m) o name =
      persist env (merged env w m name).2 m name (merged env w m name).1 ∧
    env.faults.reachedOk (merged env w m name).1 := by
  have hD : (Index.MediaFile env w (some m) o name).1.Status ≠ .IndexDuplicate := by
    rcases h with h | h <;> rw [h] <;> decide
  have hS : (Index.MediaFile env w (some m) o name).1.Status ≠ .IndexSkipped := by
    rcases h with h | h <;> rw [h] <;> decide
  have hA : (Index.MediaFile env w (some m) o name).1.Status ≠ .IndexArchived := by
    rcases h with h | h <;> rw [h] <;> decide
  have hF : (Index.MediaFile env w (some m) o name).1.Status ≠ .IndexFailed := by
    rcases h with h | h <;> rw [h] <;> decide
  have he := MediaFile_of_indexed env w m o name hD hS hA
  rw [indexRest_eq] at he
  refine ⟨he, ?_⟩
  rw [he] at hF
  exact (persist_failed_iff env _ m name _).mp hF

/-- The photo row a successful run leaves in the store: the row with the key
the result reports is the photo saved last. -/
theorem MediaFile_persisted (env : Env) (w : World) (m : MediaFile) (o : IndexOptions)
    (name : String)
    (h : (Index.MediaFile env w (some m) o name).1.Status = .IndexAdded ∨
         (Index.MediaFile env w (some m) o name).1.Status = .IndexUpdated) :
    persistedPhoto env w m name ∈ (Index.MediaFile env w (some m) o name).2.photos ∧
    (persistedPhoto env w m name).ID = (Index.MediaFile env w (some m) o name).1.PhotoID ∧
    (∀ q ∈ (Index.MediaFile env w (some m) o name).2.photos,
      q.ID = (Index.MediaFile env w (some m) o name).1.PhotoID → q = persistedPhoto env w m name) ∧
    (Index.MediaFile env w (some m) o name).2.yamls =
      w.yamls ++ writtenYamls env (merged env w m name).1 (persistedPhoto env w m name) := by
  obtain ⟨he, hf⟩ := MediaFile_of_success env w m o name h
  obtain ⟨r1, r2, -, r4⟩ := persist_reachedOk env (merged env w m name).2 m name
    (merged env w m name).1 hf
  obtain ⟨-, -, -, -, w5, -⟩ := quiet_after_indexing (merged_world env w m name)
  have hid : (persistedPhoto env w m name).ID
      = (firstPhoto env (merged env w m name).2 (merged env w m name).1).ID :=
    (finalPhoto_frame env m _ _).1
  rw [he, r1, r2, r4]
  refine ⟨savePhotoRows_mem _ _, hid, ?_, ?_⟩
  · intro q hq hqid
    rcases savePhotoRows_rows _ _ _ hq with h1 | ⟨-, h2⟩
    · exact h1
    · exact absurd (hqid.trans hid.symm) h2
  · show _ = w.yamls ++ _
    rw [← w5]
    rfl

/-- A run in which no write of a photo row or file row fails does not fail,
whatever the other collaborators return. -/
theorem MediaFile_rowWritesOk (env : Env) (w : World) (m : MediaFile) (o : IndexOptions)
    (name : String) (hf : env.faults.rowWritesOk) :
    (Index.MediaFile env w (some m) o name).1.Status ≠ .IndexFailed ∧
    (Index.MediaFile env w (some m) o name).1.Error = none := by
  cases hd : (resolveFile env w m).duplicate with
  | true =>
    rw [MediaFile_of_duplicate env w m o name hd]
    exact ⟨fun h => IndexStatus.noConfusion h, rfl⟩
  | false =>
    cases hs : (!(resolvePhoto env w m).fileChanged && (resolvePhoto env w m).photoExists
        && o.SkipUnchanged) with
    | true =>
      simp only [Bool.and_eq_true, Bool.not_eq_true'] at hs
      rw [MediaFile_of_skipped env w m o name hd hs.1.1 hs.1.2 hs.2]
      exact ⟨fun h => IndexStatus.noConfusion h, rfl⟩
    | false =>
      rw [MediaFile_of_prepared env w m o name hd hs]
      split
      · exact ⟨fun h => IndexStatus.noConfusion h, rfl⟩
      · rw [indexRest_eq, (persist_rowWritesOk env _ m name _ hf).1]
        refine ⟨?_, rfl⟩
        simp only []
        split <;> exact fun h => IndexStatus.noConfusion h

/-- A duplicate is a row bound by the content hash of the probe. -/
theorem lookupFile_duplicate_hash (env : Env) (w : World) (m : MediaFile)
    (h : (lookupFile env w m).1.duplicate = true) :
    (lookupFile env w m).1.file.FileHash = m.Hash := by
  unfold lookupFile at h ⊢
  simp only [World.log_files] at h ⊢
  cases h1 : w.files.find? (fun f => f.FileName == m.fileName) with
  | some f => simp [h1] at h
  | none =>
    simp only [h1] at h ⊢
    cases hs : m.IsSidecar with
    | true => simp [hs] at h
    | false =>
      simp only [hs, Bool.false_eq_true, if_false] at h ⊢
      cases h2 : w.files.find? (fun f => f.FileHash == m.Hash) with
      | some f =>
        have hf := List.find?_some h2
        simp only [h2]
        split <;> simpa using hf
      | none =>
        simp only [h2] at h ⊢
        cases hi : m.MetaData.HasInstanceID with
        | false => simp [hi] at h
        | true =>
          simp only [hi, if_true] at h ⊢
          cases h3 : w.files.find? (fun f => f.UUID == m.MetaData.InstanceID) with
          | some f => simp [h3] at h
          | none => simp [h3] at h

/-- For a bound file row `fileChanged` is what `file.Changed` returns for the
probed size and modification time (line 122). -/
theorem resolvePhoto_fileChanged (env : Env) (w : World) (m : MediaFile)
    (hb : (resolveFile env w m).fileExists = true) :
    (resolvePhoto env w m).fileChanged =
      (resolveFile env w m).file.Changed m.fileSize m.fileModified := by
  simp [resolvePhoto, lookupPhoto, hb]

/-- Status, file key and files table of a run that returns Added or Updated:
a bound row is rewritten in place and the run is Updated; otherwise one row
is appended and the run is Added. -/
theorem MediaFile_files (env : Env) (w : World) (m : MediaFile) (o : IndexOptions)
    (name : String)
    (h : (Index.MediaFile env w (some m) o name).1.Status = .IndexAdded ∨
         (Index.MediaFile env w (some m) o name).1.Status = .IndexUpdated) :
    (Index.MediaFile env w (some m) o name).1.Status =
      (if (resolveFile env w m).fileExists then .IndexUpdated else .IndexAdded) ∧
    ((resolveFile env w m).fileExists = true →
      ∃ g, g.ID = (resolveFile env w m).file.ID ∧
        (Index.MediaFile env w (some m) o name).1.FileID = g.ID ∧
        (Index.MediaFile env w (some m) o name).2.files
          = w.files.map (fun x => if x.ID == g.ID then g else x)) ∧
    ((resolveFile env w m).fileExists = false →
      ∃ g, (Index.MediaFile env w (some m) o name).1.FileID = g.ID ∧
        (Index.MediaFile env w (some m) o name).2.files = w.files ++ [g]) := by
  obtain ⟨he, hf⟩ := MediaFile_of_success env w m o name h
  obtain ⟨r1, -, r3, -⟩ := persist_reachedOk env (merged env w m name).2 m name
    (merged env w m name).1 hf
  obtain ⟨w1, -, -, -, -, -⟩ := quiet_after_indexing (merged_world env w m name)
  obtain ⟨f1, f2⟩ := merged_file env w m name
  have w1' : (merged env w m name).2.files = w.files := w1
  have f1' : (merged env w m name).1.fileQueryOk = (resolveFile env w m).fileExists := f1
  have f2' : (merged env w m name).1.file.ID = (resolveFile env w m).file.ID := f2
  rw [he, r1, r3, w1', f1']
  refine ⟨rfl, ?_, ?_⟩
  · intro hb
    have hmem := lookupFile_mem env w m hb
    have hid : (writtenFile env (merged env w m name).2 (merged env w m name).1).ID
        = (resolveFile env w m).file.ID := by
      simp only [writtenFile, f1', hb, if_true]
      exact f2'
    refine ⟨_, hid, rfl, ?_⟩
    simp only [hb, if_true]
    exact saveFileRows_of_mem w.files _ _ hmem hid.symm
  · intro hb
    exact ⟨_, rfl, by simp only [hb, Bool.false_eq_true, if_false]⟩

theorem persistQuality_yamls (env : Env) (w : World) (m : MediaFile) (st : IndexState)
    (p : Photo) : (persistQuality env w m st p).2.yamls = w.yamls := by
  unfold persistQuality
  simp only []
  repeat' split
  all_goals simp

theorem persistRow_yamls (env : Env) (w : World) (st : IndexState) (f : File) :
    (persistRow env w st f).2.yamls = w.yamls := by
  unfold persistRow
  repeat' split
  all_goals simp

theorem persistPhoto_yamls (env : Env) (w : World) (st : IndexState) :
    (persistPhoto env w st).2.yamls = w.yamls := by
  unfold persistPhoto
  repeat' split
  all_goals simp

/-- A persistence stage that fails writes no YAML sidecar. -/
theorem persist_yamls_of_failed (env : Env) (w : World) (m : MediaFile) (name : String)
    (st : IndexState) (h : (persist env w m name st).1.Status = .IndexFailed) :
    (persist env w m name st).2.yamls = w.yamls := by
  unfold persist at h ⊢
  split
  · exact persistPhoto_yamls env w st
  · rename_i photo hp
    simp only [hp] at h
    unfold persistRest at h ⊢
    split
    · rw [persistQuality_yamls, persistPhoto_yamls]
    · rename_i hq
      simp only [hq] at h
      unfold persistFile at h ⊢
      split
      · rw [persistRow_yamls, persistQuality_yamls, persistPhoto_yamls]
      · rename_i saved status hr
        simp only [hr] at h
        exfalso
        unfold persistRow at hr
        repeat' split at hr
        all_goals simp at hr
        all_goals
          rw [← hr.2] at h
          exact IndexStatus.noConfusion h

/-- The primary flag of the file at the first write of the photo is the one
the primary-file rule established. -/
theorem merged_primary (env : Env) (w : World) (m : MediaFile) (name : String) :
    (merged env w m name).1.file.FilePrimary = (prepared env w m name).1.file.FilePrimary := by
  obtain ⟨-, -, h3, -, -⟩ := merge_frame env (prepared env w m name).2 m
    (unarchived (prepared env w m name).1)
  obtain ⟨-, -, -, -, u5, -, -⟩ := unarchived_frame (prepared env w m name).1
  show (merge env (prepared env w m name).2 m
    (unarchived (prepared env w m name).1)).1.file.FilePrimary = _
  rw [h3, u5]

/-- The YAML sidecars after a run: a run that does not return Added or
Updated writes none. -/
theorem MediaFile_yamls_of_not_success (env : Env) (w : World) (m : MediaFile)
    (o : IndexOptions) (name : String)
    (h : ¬ ((Index.MediaFile env w (some m) o name).1.Status = .IndexAdded ∨
            (Index.MediaFile env w (some m) o name).1.Status = .IndexUpdated)) :
    (Index.MediaFile env w (some m) o name).2.yamls = w.yamls := by
  cases hd : (resolveFile env w m).duplicate with
  | true =>
    rw [MediaFile_of_duplicate env w m o name hd]
    exact (quiet_after_indexing (lookupFile_quiet env _ m)).2.2.2.2.1
  | false =>
    cases hs : (!(resolvePhoto env w m).fileChanged && (resolvePhoto env w m).photoExists
        && o.SkipUnchanged) with
    | true =>
      simp only [Bool.and_eq_true, Bool.not_eq_true'] at hs
      rw [MediaFile_of_skipped env w m o name hd hs.1.1 hs.1.2 hs.2]
      exact (quiet_after_indexing (lookups_quiet env w m _)).2.2.2.2.1
    | false =>
      rw [MediaFile_of_prepared env w m o name hd hs] at h ⊢
      split
      · exact (quiet_after_indexing (prepared_world env w m name)).2.2.2.2.1
      · rename_i hc
        simp only [hc, if_false, indexRest_eq] at h
        rw [indexRest_eq]
        have hw := (quiet_after_indexing (merged_world env w m name)).2.2.2.2.1
        rw [← hw]
        apply persist_yamls_of_failed
        rcases persist_status env
          (merge env (prepared env w m name).2 m (unarchived (prepared env w m name).1)).2 m name
          (merge env (prepared env w m name).2 m (unarchived (prepared env w m name).1)).1
          with h1 | h1 | h1
        · exact h1
        · exact absurd (Or.inr h1) h
        · exact absurd (Or.inl h1) h

/-- Quality of the photo saved last: the scorer's figure for a primary file;
for any other file a negative quality is kept and a non-negative one is
replaced by the scorer's figure. -/
theorem finalPhoto_quality (env : Env) (m : MediaFile) (st : IndexState) (p : Photo) :
    (st.file.FilePrimary = true → 0 ≤ (finalPhoto env m st p).PhotoQuality) ∧
    (st.file.FilePrimary = false →
      ((finalPhoto env m st p).PhotoQuality = -1 ↔ p.PhotoQuality = -1)) := by
  unfold finalPhoto
  constructor
  · intro h
    simp only [h, if_true, Photo.scorePrimary]
    exact Int.ofNat_nonneg _
  · intro h
    simp only [h, Bool.false_eq_true, if_false, Photo.scoreOther, Photo.AddLabels]
    split
    · rename_i hq
      have hq2 : (0 : Int) ≤ p.PhotoQuality := hq
      constructor
      · intro h1
        have h2 : ((env.qualityScore { p with Labels := env.addLabels p st.labels } : Nat) : Int)
            = -1 := h1
        omega
      · intro h1
        omega
    · exact Iff.rfl

theorem firstPhoto_quality (env : Env) (w : World) (st : IndexState) :
    (firstPhoto env w st).PhotoQuality = st.photo.PhotoQuality := by
  unfold firstPhoto
  split <;> rfl

/-- The merge does not touch the quality of the photo. -/
theorem merged_quality (env : Env) (w : World) (m : MediaFile) (name : String) :
    (merged env w m name).1.photo.PhotoQuality = (prepared env w m name).1.photo.PhotoQuality := by
  obtain ⟨⟨-, -, -, h4⟩, -⟩ := merge_frame env (prepared env w m name).2 m
    (unarchived (prepared env w m name).1)
  obtain ⟨-, -, u3, -⟩ := unarchived_frame (prepared env w m name).1
  show (merge env (prepared env w m name).2 m
    (unarchived (prepared env w m name).1)).1.photo.PhotoQuality = _
  rw [h4, u3]

/-- A photo that is neither found in the store nor restored from a YAML
sidecar reaches the archive check with the quality -1 of line 139. -/
theorem prepared_quality_of_new (env : Env) (w : World) (m : MediaFile) (name : String)
    (hp : (resolvePhoto env w m).photoExists = false) (hy : env.findYaml m = "") :
    (prepared env w m name).1.photo.PhotoQuality = -1 ∧
    (prepared env w m name).1.photoExists = false := by
  unfold prepared prepare
  simp only [hp, restoreFromYaml, hy]
  refine ⟨?_, ?_⟩
  · rw [(applyOriginalName_photo env name _ _).2.2.2.1]
    simp
  · simp

/-! ### Capture times -/

theorem Photo.SameTime.time_refl (p : Photo) : Photo.SameTime p p := ⟨rfl, rfl⟩

theorem Photo.TimeSetOrKept.step_refl (p : Photo) : Photo.TimeSetOrKept p p :=
  Or.inr ⟨rfl, rfl, rfl⟩

/-- The hypothesis on the taken-at source cannot be dropped: the capture time
of the stored photo was cleared by hand, so its source tag `manual` outranks
the automatic fallback; the primary JPEG is indexed again, the run returns
Updated and both capture times stay zero. -/
theorem taken_at_outranked_example :
    (prepared precedenceEnv clearedTimeWorld untimedJpeg "").1.file.FilePrimary = true ∧
    (Index.MediaFile precedenceEnv clearedTimeWorld (some untimedJpeg) {} "").1.Status
      = .IndexUpdated ∧
    (Index.MediaFile precedenceEnv clearedTimeWorld (some untimedJpeg) {} "").2.photos.map
      (fun q => (q.ID, q.TakenAt, q.TakenAtLocal, q.TakenSrc)) = [(1, 0, 0, "manual")] :=
  ⟨rfl, rfl, rfl⟩

/-! ### The private flag -/

theorem Photo.SamePrivate.private_refl (p : Photo) : Photo.SamePrivate p p := rfl

theorem Photo.SamePrivate.private_trans {p q r : Photo} (h1 : Photo.SamePrivate p q)
    (h2 : Photo.SamePrivate q r) : Photo.SamePrivate p r :=
  Eq.trans h2 h1

theorem Photo.fillCameraSerial_private (p : Photo) (md : MetaData) :
    Photo.SamePrivate p (p.fillCameraSerial md) := by
  unfold Photo.fillCameraSerial
  split <;> rfl

theorem Photo.fillDocumentID_private (p : Photo) (md : MetaData) :
    Photo.SamePrivate p (p.fillDocumentID md) := by
  unfold Photo.fillDocumentID
  split <;> rfl

theorem Photo.raiseResolution_private (p : Photo) (res : Int) :
    Photo.SamePrivate p (p.raiseResolution res) := by
  unfold Photo.raiseResolution
  split <;> rfl

theorem Photo.markRaw_private (p : Photo) (m : MediaFile) :
    Photo.SamePrivate p (p.markRaw m) := by
  unfold Photo.markRaw
  split <;> rfl

theorem Photo.takenAtFallback_private (env : Env) (p : Photo) (m : MediaFile) :
    Photo.SamePrivate p (p.takenAtFallback env m) := by
  unfold Photo.takenAtFallback
  split <;> rfl

theorem Photo.applyUnknown_private (env : Env) (p : Photo) :
    Photo.SamePrivate p (p.applyUnknown env) := by
  unfold Photo.applyUnknown
  simp only []
  repeat' split
  all_goals rfl

theorem mergeMetaPhoto_private (env : Env) (md : MetaData) (p : Photo) :
    Photo.SamePrivate p (mergeMetaPhoto env md p) := by
  unfold mergeMetaPhoto
  have h4 : Photo.SamePrivate p ((((p.SetTitle env md.Title SrcMeta).SetDescription env
      md.Description SrcMeta).SetTakenAt env md.TakenAt md.TakenAtLocal md.TimeZone
      SrcMeta).SetCoordinates env md.Lat md.Lng md.Altitude SrcMeta) := rfl
  exact (h4.private_trans (Photo.fillCameraSerial_private _ md)).private_trans
    (Photo.fillDocumentID_private _ md)

theorem mergeJpeg_private (m : MediaFile) (st : IndexState) :
    Photo.SamePrivate st.photo (mergeJpeg m st).photo := by
  unfold mergeJpeg
  split
  · exact Photo.raiseResolution_private _ _
  · rfl

theorem mergeXmp_private (env : Env) (m : MediaFile) (st : IndexState) :
    Photo.SamePrivate st.photo (mergeXmp env m st).photo := by
  unfold mergeXmp
  split <;> rfl

theorem mergeRaw_private (env : Env) (m : MediaFile) (st : IndexState) :
    Photo.SamePrivate st.photo (mergeRaw env m st).photo := by
  unfold mergeRaw
  simp only []
  split
  · exact ((mergeMetaPhoto_private env m.MetaData st.photo).private_trans
      (Photo.raiseResolution_private _ _)).private_trans (Photo.markRaw_private _ m)
  · exact Photo.markRaw_private _ m

theorem mergeVideo_private (env : Env) (m : MediaFile) (st : IndexState) :
    Photo.SamePrivate st.photo (mergeVideo env m st).photo := by
  unfold mergeVideo
  simp only []
  split
  · exact ((mergeMetaPhoto_private env m.MetaData st.photo).private_trans
      (Photo.raiseResolution_private _ _)).private_trans rfl
  · rfl

theorem mergeKind_private (env : Env) (m : MediaFile) (st : IndexState) :
    Photo.SamePrivate st.photo (mergeKind env m st).photo := by
  unfold mergeKind
  repeat' split
  · exact mergeJpeg_private m st
  · exact mergeXmp_private env m st
  · exact mergeRaw_private env m st
  · exact mergeVideo_private env m st
  · rfl

theorem updateCamera_private (env : Env) (w : World) (m : MediaFile) (p : Photo) :
    Photo.SamePrivate p (updateCamera env w m p).1 := by
  unfold updateCamera
  split <;> rfl

/-- The private flag after the classifier gate: the detector's verdict when
it is consulted, the flag of the photo otherwise. -/
theorem classifyGate_private (env : Env) (m : MediaFile) (st : IndexState) :
    (classifyGate env m st).photo.PhotoPrivate =
      (if !env.conf.TensorFlowOff && !st.photoExists && env.conf.FeaturesPrivate
          && env.conf.DetectNSFW then Index.NSFW env m else st.photo.PhotoPrivate) := by
  unfold classifyGate
  cases env.conf.TensorFlowOff <;> cases st.photoExists <;> cases env.conf.FeaturesPrivate <;>
    cases env.conf.DetectNSFW <;> simp

theorem classifyGate_photoExists (env : Env) (m : MediaFile) (st : IndexState) :
    (classifyGate env m st).photoExists = st.photoExists :=
  (classifyGate_frame env m st).1.2.2.2.1

theorem primaryTail_private (env : Env) (w : World) (m : MediaFile) (p : Photo) :
    Photo.SamePrivate p (((updateCamera env w m p).1.takenAtFallback env m).UpdateLocation env) :=
  ((updateCamera_private env w m p).private_trans
    (Photo.takenAtFallback_private env _ m)).private_trans rfl

/-- The private flag after the primary-file block: only the classifier gate
writes it. -/
theorem mergePrimary_private (env : Env) (w : World) (m : MediaFile) (st : IndexState) :
    (mergePrimary env w m st).1.photo.PhotoPrivate =
      (if nsfwConsulted env st then Index.NSFW env m else st.photo.PhotoPrivate) := by
  unfold mergePrimary nsfwConsulted
  cases hp : st.file.FilePrimary
  · simp
  · simp only [if_true, Bool.true_and]
    have hg := classifyGate_private env m { st with primaryFile := st.file }
    split
    · have h2 := mergeMetaPhoto_private env m.MetaData
        (classifyGate env m { st with primaryFile := st.file }).photo
      have h3 := primaryTail_private env w m
        (mergeMeta env m.MetaData (classifyGate env m { st with primaryFile := st.file })).photo
      exact (h3.trans h2).trans hg
    · have h3 := primaryTail_private env w m
        (classifyGate env m { st with primaryFile := st.file }).photo
      exact h3.trans hg

theorem finishRows_private (env : Env) (m : MediaFile) (st : IndexState) :
    Photo.SamePrivate st.photo (finishRows env m st).photo :=
  (Photo.applyUnknown_private env st.photo).private_trans rfl

/-- The private flag after the merge. -/
theorem merge_private (env : Env) (w : World) (m : MediaFile) (st : IndexState) :
    (merge env w m st).1.photo.PhotoPrivate =
      (if nsfwConsulted env st then Index.NSFW env m else st.photo.PhotoPrivate) := by
  have hk := mergeKind_private env m st
  obtain ⟨-, -, k3, k4, -⟩ := (mergeKind_frame env m st).state_trans
    (clearFileFlags_frame (mergeKind env m st)).1
  have hc : nsfwConsulted env (clearFileFlags (mergeKind env m st)) = nsfwConsulted env st := by
    unfold nsfwConsulted
    rw [k3, k4]
  have hf := finishRows_private env m
    (mergePrimary env w m (clearFileFlags (mergeKind env m st))).1
  unfold merge
  simp only []
  rw [hf, mergePrimary_private, hc]
  split
  · rfl
  · exact hk

theorem unarchived_private (env : Env) (st : IndexState) :
    (unarchived st).photo.PhotoPrivate = st.photo.PhotoPrivate ∧
    nsfwConsulted env (unarchived st) = nsfwConsulted env st := by
  unfold unarchived nsfwConsulted
  split <;> exact ⟨rfl, rfl⟩

theorem firstPhoto_private (env : Env) (w : World) (st : IndexState) :
    Photo.SamePrivate st.photo (firstPhoto env w st) := by
  unfold firstPhoto
  split <;> rfl

theorem finalPhoto_private (env : Env) (m : MediaFile) (st : IndexState) (p : Photo) :
    Photo.SamePrivate p (finalPhoto env m st p) := by
  unfold finalPhoto
  split
  · rfl
  · unfold Photo.scoreOther
    split <;> rfl

/-- The private flag of the photo saved last. -/
theorem persistedPhoto_private (env : Env) (w : World) (m : MediaFile) (name : String) :
    (persistedPhoto env w m name).PhotoPrivate =
      (if nsfwConsulted env (prepared env w m name).1 then Index.NSFW env m
       else (prepared env w m name).1.photo.PhotoPrivate) := by
  have h1 := (firstPhoto_private env (merged env w m name).2 (merged env w m name).1).private_trans
    (finalPhoto_private env m (merged env w m name).1 _)
  have h2 := merge_private env (prepared env w m name).2 m (unarchived (prepared env w m name).1)
  obtain ⟨u1, u2⟩ := unarchived_private env (prepared env w m name).1
  rw [u1, u2] at h2
  exact h1.trans h2

theorem applyOriginalName_private (env : Env) (name : String) (photo : Photo) (file : File) :
    (applyOriginalName env name photo file).1.PhotoPrivate = photo.PhotoPrivate := by
  unfold applyOriginalName
  simp only []
  repeat' split
  all_goals rfl

/-- A photo found in the store reaches the archive check with its stored
private flag. -/
theorem prepared_private (env : Env) (w : World) (m : MediaFile) (name : String)
    (h : (resolvePhoto env w m).photoExists = true) :
    (prepared env w m name).1.photo.PhotoPrivate = (resolvePhoto env w m).photo.PhotoPrivate := by
  unfold prepared prepare
  simp only [h, restoreFromYaml_of_exists]
  exact applyOriginalName_private env name _ _

/-! ### Selection of labels -/

theorem Label.le_trans (a b c : Label) (h1 : Label.le a b = true) (h2 : Label.le b c = true) :
    Label.le a c = true := by
  simp only [Label.le, Bool.or_eq_true, decide_eq_true_eq, Bool.and_eq_true, beq_iff_eq]
    at h1 h2 ⊢
  omega

theorem Label.le_total (a b : Label) : (Label.le a b || Label.le b a) = true := by
  simp only [Label.le, Bool.or_eq_true, decide_eq_true_eq, Bool.and_eq_true, beq_iff_eq]
  omega

/-- The sorted labels are in (priority, uncertainty) order. -/
theorem sortLabels_sorted (labels : List Label) :
    (sortLabels labels).Pairwise (fun a b => Label.le a b = true) :=
  List.sorted_mergeSort Label.le_trans Label.le_total labels

theorem mem_sortLabels (labels : List Label) (l : Label) :
    l ∈ sortLabels labels ↔ l ∈ labels :=
  List.mem_mergeSort

/-- One round of the loop once the reference confidence is set. -/
theorem selectLabel_of_pos (c : Int) (acc : List Label) (l : Label) (hc : 0 < c) :
    selectLabel (c, acc) l =
      (c, if 3 * l.confidence > c then acc ++ [l] else acc) := by
  have hne : (c == 0) = false := by
    simp only [beq_eq_false_iff_ne, ne_eq]
    omega
  have hdiv : Int.tdiv c 3 = c / 3 := Int.tdiv_eq_ediv (by omega) (by omega)
  unfold selectLabel Label.confidence
  simp only [hne, Bool.false_eq_true, if_false, hdiv]
  by_cases h : 3 * (100 - l.Uncertainty) > c
  · have : 100 - l.Uncertainty > c / 3 := by omega
    simp [h, this]
  · have : ¬ 100 - l.Uncertainty > c / 3 := by omega
    simp [h, this]

/-- The loop once the reference confidence is set: it filters. -/
theorem foldl_selectLabel_of_pos (c : Int) (hc : 0 < c) (s : List Label) (acc : List Label) :
    s.foldl selectLabel (c, acc) =
      (c, acc ++ s.filter (fun l => decide (3 * l.confidence > c))) := by
  induction s generalizing acc with
  | nil => simp
  | cons l s ih =>
    rw [List.foldl_cons, selectLabel_of_pos c acc l hc]
    by_cases h : 3 * l.confidence > c
    · simp [h, ih]
    · simp [h, ih]

theorem referenceConfidence_nonneg (s : List Label) (hs : ∀ l ∈ s, l.Uncertainty ≤ 100) :
    0 ≤ referenceConfidence s := by
  unfold referenceConfidence
  cases h : s.find? (fun l => l.confidence != 0) with
  | none => simp
  | some l =>
    have := hs l (List.mem_of_find?_eq_some h)
    simp only [Option.map_some', Option.getD_some, Label.confidence]
    omega

/-- The selection loop of lines 703-711 on labels with an uncertainty of at
most 100: the reference is the confidence of the first label whose confidence
is not zero, and a label is selected exactly when three times its confidence
exceeds the reference. -/
theorem foldl_selectLabel (s : List Label) (hs : ∀ l ∈ s, l.Uncertainty ≤ 100)
    (acc : List Label) :
    s.foldl selectLabel (0, acc) =
      (referenceConfidence s,
       acc ++ s.filter (fun l => decide (3 * l.confidence > referenceConfidence s))) := by
  induction s generalizing acc with
  | nil => simp [referenceConfidence]
  | cons l s ih =>
    have hl : l.Uncertainty ≤ 100 := hs l (List.mem_cons_self _ _)
    have hs2 : ∀ x ∈ s, x.Uncertainty ≤ 100 := fun x hx => hs x (List.mem_cons_of_mem _ hx)
    by_cases h0 : l.confidence = 0
    · have hsel : selectLabel (0, acc) l = (0, acc) := by
        have hu : 100 - l.Uncertainty = 0 := h0
        simp [selectLabel, hu]
      have href : referenceConfidence (l :: s) = referenceConfidence s := by
        simp [referenceConfidence, h0]
      have hnn := referenceConfidence_nonneg s hs2
      rw [List.foldl_cons, hsel, ih hs2, href]
      have : ¬ 3 * l.confidence > referenceConfidence s := by rw [h0]; omega
      simp [this]
    · have hpos : 0 < l.confidence := by
        unfold Label.confidence at h0 ⊢
        omega
      have hsel : selectLabel (0, acc) l = (l.confidence, acc ++ [l]) := by
        have hdiv : Int.tdiv (100 - l.Uncertainty) 3 = (100 - l.Uncertainty) / 3 :=
          Int.tdiv_eq_ediv (by unfold Label.confidence at hpos; omega) (by omega)
        have hgt : 100 - l.Uncertainty > (100 - l.Uncertainty) / 3 := by
          unfold Label.confidence at hpos
          omega
        simp [selectLabel, hdiv, hgt, Label.confidence]
      have href : referenceConfidence (l :: s) = l.confidence := by
        simp [referenceConfidence, h0]
      rw [List.foldl_cons, hsel, foldl_selectLabel_of_pos _ hpos, href]
      have : 3 * l.confidence > l.confidence := by omega
      simp [this]

/-! ### Relative file names -/

theorem relChars_self (p : List Char) : relChars p p = [] := by
  simp [relChars]

theorem relChars_nil (f : List Char) : relChars f [] = f := by
  unfold relChars
  split
  · rename_i h
    exact h.symm
  · simp

theorem relChars_of_other_dir (fileName d : List Char) (h : d.isPrefixOf fileName = false) :
    relChars fileName d = fileName := by
  unfold relChars
  split
  · rename_i he
    subst he
    rw [List.isPrefixOf_iff_prefix.mpr (List.prefix_refl fileName)] at h
    exact absurd h (by decide)
  · split
    · rfl
    · simp [h]

/-- A directory without a trailing separator: the directory and the separator
behind it are cut off. -/
theorem relChars_strip (d r : List Char) (hd : d ≠ []) (hl : d.getLast? ≠ some '/') :
    relChars (d ++ '/' :: r) d = r := by
  have hne : d ++ '/' :: r ≠ d := by
    intro h
    have := congrArg List.length h
    simp at this
  have hp : d.isPrefixOf (d ++ '/' :: r) = true :=
    List.isPrefixOf_iff_prefix.mpr (List.prefix_append d _)
  unfold relChars
  simp only [hne, hd, hp, hl, if_false, if_true]
  rw [show d.length + 1 = (d ++ ['/']).length by simp,
    show d ++ '/' :: r = (d ++ ['/']) ++ r by simp, List.drop_left]

/-- A directory with a trailing separator: the directory is cut off. -/
theorem relChars_strip_sep (d r : List Char) :
    relChars (d ++ '/' :: r) (d ++ ['/']) = r := by
  unfold relChars
  by_cases hr : r = []
  · subst hr
    simp
  · have hne : d ++ '/' :: r ≠ d ++ ['/'] := by
      intro h
      have := List.append_cancel_left h
      simp at this
      exact hr this
    have hd : d ++ ['/'] ≠ [] := by simp
    have hp : (d ++ ['/']).isPrefixOf (d ++ '/' :: r) = true := by
      rw [show d ++ '/' :: r = (d ++ ['/']) ++ r by simp]
      exact List.isPrefixOf_iff_prefix.mpr (List.prefix_append _ _)
    have hl : (d ++ ['/']).getLast? = some '/' := by simp
    simp only [hne, hd, hp, hl, if_false, if_true]
    rw [show d ++ '/' :: r = (d ++ ['/']) ++ r by simp, List.drop_left]

/-! ### Keyword derivation -/

theorem deriveKeywords_eq (env : Env) (m : MediaFile) (st : IndexState) (file : File)
    (labels : List Label) :
    deriveKeywords env m st file labels =
      ", ".intercalate (env.UniqueWords
        (env.Keywords st.details.Keywords ++ keywordSources env m st file labels)) := by
  unfold deriveKeywords keywordSources
  cases env.IsID m.fileBase <;> simp [List.append_assoc]

theorem txt.mem_keepFirst (l : List String) (x : String) : x ∈ txt.keepFirst l ↔ x ∈ l := by
  induction l with
  | nil => simp [txt.keepFirst]
  | cons y ys ih =>
    simp only [txt.keepFirst, List.mem_cons, List.mem_filter, ih, bne_iff_ne, ne_eq]
    constructor
    · rintro (h | ⟨h, -⟩)
      · exact Or.inl h
      · exact Or.inr h
    · intro h
      by_cases hxy : x = y
      · exact Or.inl hxy
      · rcases h with h | h
        · exact Or.inl h
        · exact Or.inr ⟨h, hxy⟩

theorem txt.nodup_keepFirst (l : List String) : (txt.keepFirst l).Nodup := by
  induction l with
  | nil => simp [txt.keepFirst]
  | cons y ys ih =>
    simp only [txt.keepFirst, List.nodup_cons, List.mem_filter, bne_self_eq_false,
      Bool.false_eq_true, and_false, not_false_eq_true, true_and]
    exact ih.filter _

theorem txt.keepFirst_of_nodup (l : List String) (h : l.Nodup) : txt.keepFirst l = l := by
  induction l with
  | nil => rfl
  | cons y ys ih =>
    obtain ⟨h1, h2⟩ := List.nodup_cons.mp h
    simp only [txt.keepFirst, ih h2, List.cons.injEq, true_and]
    apply List.filter_eq_self.mpr
    intro a ha
    simp only [bne_iff_ne, ne_eq]
    intro hay
    exact h1 (hay ▸ ha)

theorem txt.keepFirst_append (a b : List String) :
    txt.keepFirst (a ++ b) = txt.keepFirst a ++ (txt.keepFirst b).filter (fun x => !a.contains x) := by
  induction a with
  | nil => simp [txt.keepFirst]
  | cons y ys ih =>
    have h1 : txt.keepFirst (y :: ys ++ b) =
        y :: (txt.keepFirst (ys ++ b)).filter (fun z => z != y) := rfl
    have h2 : txt.keepFirst (y :: ys) = y :: (txt.keepFirst ys).filter (fun z => z != y) := rfl
    rw [h1, h2, ih, List.filter_append, List.filter_filter, List.cons_append]
    congr 2
    apply List.filter_congr
    intro x _
    simp only [List.contains_cons, Bool.not_or, bne, Bool.and_comm]

/-- Deduplication absorbs strings that occur already. -/
theorem txt.keepFirst_absorb (u t : List String) (hu : u.Nodup) (ht : ∀ x ∈ t, x ∈ u) :
    txt.keepFirst (u ++ t) = u := by
  rw [txt.keepFirst_append, txt.keepFirst_of_nodup u hu]
  have : (txt.keepFirst t).filter (fun x => !u.contains x) = [] := by
    apply List.filter_eq_nil_iff.mpr
    intro x hx
    have := ht x ((txt.mem_keepFirst t x).mp hx)
    simp [this]
  rw [this, List.append_nil]

theorem txt.toLower_toLower (c : Char) : c.toLower.toLower = c.toLower := by
  by_cases h : c.toNat ≥ 65 ∧ c.toNat ≤ 90
  · have hc : c.toLower = Char.ofNat (c.toNat + 32) := by simp [Char.toLower, h]
    rw [hc]
    obtain ⟨h1, h2⟩ := h
    generalize c.toNat = n at h1 h2
    interval_cases n <;> rfl
  · have hc : c.toLower = c := by simp [Char.toLower, h]
    rw [hc, hc]

theorem txt.isSeparator_toLower (c : Char) :
    txt.isSeparator c.toLower = txt.isSeparator c := by
  by_cases h : c.toNat ≥ 65 ∧ c.toNat ≤ 90
  · have hc : c.toLower = Char.ofNat (c.toNat + 32) := by simp [Char.toLower, h]
    have hs : txt.isSeparator c = false := by
      unfold txt.isSeparator
      have h1 : c ≠ ',' := by
        intro he
        rw [he] at h
        revert h
        decide
      have h2 : c ≠ ' ' := by
        intro he
        rw [he] at h
        revert h
        decide
      simp [h1, h2]
    rw [hc, hs]
    obtain ⟨h1, h2⟩ := h
    generalize c.toNat = n at h1 h2
    interval_cases n <;> rfl
  · have hc : c.toLower = c := by simp [Char.toLower, h]
    rw [hc]

theorem txt.lower_lower (x : String) : txt.lower (txt.lower x) = txt.lower x := by
  have h : (x.toList.map Char.toLower).map Char.toLower = x.toList.map Char.toLower := by
    rw [List.map_map]
    apply List.map_congr_left
    intro c _
    exact txt.toLower_toLower c
  exact congrArg String.mk h

theorem txt.isWord_lower (x : String) (h : txt.IsWord x) : txt.IsWord (txt.lower x) := by
  intro c hc
  simp only [txt.lower, String.toList, List.mem_map] at hc
  obtain ⟨d, hd, rfl⟩ := hc
  rw [txt.isSeparator_toLower]
  exact h d hd

/-- The pieces of a split contain no separator. -/
theorem txt.splitOnP_clean (s : List Char) :
    ∀ w ∈ s.splitOnP txt.isSeparator, ∀ c ∈ w, txt.isSeparator c = false := by
  induction s with
  | nil => simp [List.splitOnP_nil]
  | cons x xs ih =>
    rw [List.splitOnP_cons]
    split
    · intro w hw
      rcases List.mem_cons.mp hw with h | h
      · subst h
        simp
      · exact ih w h
    · rename_i hx
      cases hsp : xs.splitOnP txt.isSeparator with
      | nil => exact absurd hsp (List.splitOnP_ne_nil _ _)
      | cons p ps =>
        rw [hsp] at ih
        intro w hw
        simp only [List.modifyHead_cons, List.mem_cons] at hw
        rcases hw with h | h
        · subst h
          intro c hc
          rcases List.mem_cons.mp hc with h1 | h1
          · subst h1
            simpa using hx
          · exact ih p (List.mem_cons_self _ _) c h1
        · exact ih w (List.mem_cons_of_mem _ h)

/-- Every keyword read from a string is a non-empty word. -/
theorem txt.Keywords_words (s : String) : ∀ x ∈ txt.Keywords s, txt.IsWord x ∧ x ≠ "" := by
  intro x hx
  simp only [txt.Keywords, txt.wordsOf, List.mem_map, List.mem_filter] at hx
  obtain ⟨w, ⟨hw, hne⟩, rfl⟩ := hx
  refine ⟨fun c hc => txt.splitOnP_clean _ w hw c hc, ?_⟩
  intro h
  have : w = [] := congrArg String.toList h
  simp [this] at hne

/-- The words of clean non-empty words joined by `", "` are these words. -/
theorem txt.wordsOf_joinChars (ws : List (List Char))
    (h : ∀ w ∈ ws, w ≠ [] ∧ ∀ c ∈ w, txt.isSeparator c = false) :
    txt.wordsOf (txt.joinChars ws) = ws := by
  induction ws with
  | nil => simp [txt.joinChars, txt.wordsOf, List.splitOnP_nil]
  | cons w ws ih =>
    obtain ⟨hw1, hw2⟩ := h w (List.mem_cons_self _ _)
    have hclean : ∀ c ∈ w, ¬ txt.isSeparator c = true := by
      intro c hc
      rw [hw2 c hc]
      exact Bool.false_ne_true
    cases ws with
    | nil =>
      simp only [txt.joinChars, txt.wordsOf]
      rw [List.splitOnP_eq_single _ _ hclean]
      cases w with
      | nil => exact absurd rfl hw1
      | cons c cs => rfl
    | cons v vs =>
      have ih2 := ih (fun x hx => h x (List.mem_cons_of_mem _ hx))
      simp only [txt.joinChars, txt.wordsOf] at ih2 ⊢
      rw [List.splitOnP_first _ _ hclean ',' (by decide), List.splitOnP_cons]
      simp only [show txt.isSeparator ' ' = true by decide, if_true]
      cases w with
      | nil => exact absurd rfl hw1
      | cons c cs =>
        simp only [List.filter_cons, List.isEmpty_cons, Bool.not_false, if_true,
          List.isEmpty_nil, Bool.not_true, Bool.false_eq_true, if_false]
        rw [ih2]

theorem txt.joinChars_cons (w : List Char) (ws : List (List Char)) :
    txt.joinChars (w :: ws) = w ++ (ws.map (fun v => ',' :: ' ' :: v)).flatten := by
  induction ws generalizing w with
  | nil => simp [txt.joinChars]
  | cons v vs ih => simp [txt.joinChars, ih v]

theorem txt.intercalate_go_toList (acc : String) (ws : List String) :
    (String.intercalate.go acc ", " ws).toList =
      acc.toList ++ (ws.map (fun w => ',' :: ' ' :: w.toList)).flatten := by
  induction ws generalizing acc with
  | nil => simp [String.intercalate.go]
  | cons w ws ih =>
    rw [String.intercalate.go, ih]
    simp [String.toList, String.data_append]

/-- The characters of strings joined by `", "`. -/
theorem txt.intercalate_toList (ws : List String) :
    (", ".intercalate ws).toList = txt.joinChars (ws.map String.toList) := by
  cases ws with
  | nil => rfl
  | cons w ws =>
    rw [String.intercalate, txt.intercalate_go_toList, List.map_cons, txt.joinChars_cons,
      List.map_map]
    rfl

/-- Reading back the non-empty words that were joined by `", "` yields these
words. -/
theorem txt.Keywords_intercalate (ws : List String)
    (h : ∀ x ∈ ws, txt.IsWord x ∧ x ≠ "") : txt.Keywords (", ".intercalate ws) = ws := by
  unfold txt.Keywords
  rw [txt.intercalate_toList, txt.wordsOf_joinChars, List.map_map]
  · conv_rhs => rw [← List.map_id ws]
    apply List.map_congr_left
    intro x _
    rfl
  · intro w hw
    obtain ⟨x, hx, rfl⟩ := List.mem_map.mp hw
    obtain ⟨h1, h2⟩ := h x hx
    refine ⟨?_, h1⟩
    intro he
    exact h2 (String.ext he)

theorem txt.mem_normalize (stop : List String) (ws : List String) (x : String) :
    x ∈ txt.normalize stop ws ↔ (∃ y ∈ ws, txt.lower y = x) ∧ txt.isNoise stop x = false := by
  simp [txt.normalize, List.mem_filter, List.mem_map]

theorem txt.normalize_append (stop : List String) (a b : List String) :
    txt.normalize stop (a ++ b) = txt.normalize stop a ++ txt.normalize stop b := by
  simp [txt.normalize]

theorem txt.normalize_of_normal (stop : List String) (u : List String)
    (h : ∀ x ∈ u, txt.lower x = x ∧ txt.isNoise stop x = false) : txt.normalize stop u = u := by
  unfold txt.normalize
  have h1 : u.map txt.lower = u := by
    conv_rhs => rw [← List.map_id u]
    apply List.map_congr_left
    intro x hx
    exact (h x hx).1
  rw [h1]
  apply List.filter_eq_self.mpr
  intro x hx
  simp [(h x hx).2]

theorem txt.mem_UniqueWords (stop : List String) (ws : List String) (x : String) :
    x ∈ txt.UniqueWords stop ws ↔ x ∈ txt.normalize stop ws :=
  txt.mem_keepFirst _ x

/-- The unique words are lower-cased and no noise. -/
theorem txt.UniqueWords_normal (stop : List String) (ws : List String) :
    ∀ x ∈ txt.UniqueWords stop ws, txt.lower x = x ∧ txt.isNoise stop x = false := by
  intro x hx
  obtain ⟨⟨y, -, rfl⟩, h2⟩ := (txt.mem_normalize stop ws x).mp ((txt.mem_UniqueWords stop ws x).mp hx)
  exact ⟨txt.lower_lower y, h2⟩

/-- The unique words of words are non-empty words. -/
theorem txt.UniqueWords_words (stop : List String) (ws : List String)
    (h : ∀ x ∈ ws, txt.IsWord x) : ∀ x ∈ txt.UniqueWords stop ws, txt.IsWord x ∧ x ≠ "" := by
  intro x hx
  obtain ⟨⟨y, hy, rfl⟩, h2⟩ := (txt.mem_normalize stop ws x).mp ((txt.mem_UniqueWords stop ws x).mp hx)
  refine ⟨txt.isWord_lower y (h y hy), ?_⟩
  intro he
  simp [txt.isNoise, he] at h2

/-- Appending strings that were among the input already does not change the
unique words. -/
theorem txt.UniqueWords_absorb (stop : List String) (ws s : List String)
    (hs : ∀ x ∈ s, x ∈ ws) :
    txt.UniqueWords stop (txt.UniqueWords stop ws ++ s) = txt.UniqueWords stop ws := by
  have hn := txt.normalize_of_normal stop _ (txt.UniqueWords_normal stop ws)
  unfold txt.UniqueWords at hn ⊢
  rw [txt.normalize_append, hn]
  apply txt.keepFirst_absorb _ _ (txt.nodup_keepFirst _)
  intro x hx
  rw [txt.mem_keepFirst]
  obtain ⟨⟨y, hy, rfl⟩, h2⟩ := (txt.mem_normalize stop s x).mp hx
  exact (txt.mem_normalize stop ws _).mpr ⟨⟨y, hs y hy, rfl⟩, h2⟩

/-- Keyword derivation is idempotent on words: with the helpers of the spec,
a derivation that starts from the string an earlier derivation produced and
appends the same sources yields the same string, when every source is a
word. -/
theorem deriveKeywords_again (env : Env) (stop : List String) (m : MediaFile)
    (st1 st2 : IndexState) (f1 f2 : File) (l1 l2 : List Label)
    (hK : env.Keywords = txt.Keywords) (hU : env.UniqueWords = txt.UniqueWords stop)
    (hsrc : keywordSources env m st2 f2 l2 = keywordSources env m st1 f1 l1)
    (hw : ∀ x ∈ keywordSources env m st1 f1 l1, txt.IsWord x)
    (hd : st2.details.Keywords = deriveKeywords env m st1 f1 l1) :
    deriveKeywords env m st2 f2 l2 = deriveKeywords env m st1 f1 l1 := by
  have hwords : ∀ x ∈ txt.Keywords st1.details.Keywords ++ keywordSources env m st1 f1 l1,
      txt.IsWord x := by
    intro x hx
    rcases List.mem_append.mp hx with h | h
    · exact (txt.Keywords_words _ x h).1
    · exact hw x h
  rw [deriveKeywords_eq env m st2, hsrc, hd, deriveKeywords_eq env m st1, hK, hU]
  show ", ".intercalate (txt.UniqueWords stop (txt.Keywords (", ".intercalate
    (txt.UniqueWords stop (txt.Keywords st1.details.Keywords ++ keywordSources env m st1 f1 l1)))
      ++ keywordSources env m st1 f1 l1)) = _
  rw [txt.Keywords_intercalate _ (txt.UniqueWords_words stop _ hwords),
    txt.UniqueWords_absorb stop _ _ (fun x hx => List.mem_append_right _ hx)]

/-! ### The rows a run finds again -/

/-- After a save the first row with the key of the saved photo is the saved
photo. -/
theorem savePhotoRows_find (photos : List Photo) (p : Photo) :
    (savePhotoRows photos p).find? (fun q => q.ID == p.ID) = some p := by
  unfold savePhotoRows
  split
  · rename_i h
    induction photos with
    | nil => simp at h
    | cons r rs ih =>
      by_cases hr : r.ID = p.ID
      · simp [hr]
      · have hb : (r.ID == p.ID) = false := by simpa using hr
        have hrs : rs.any (fun q => q.ID == p.ID) = true := by
          simpa [List.any_cons, hb] using h
        simp only [List.map_cons, hb, Bool.false_eq_true, if_false, List.find?_cons]
        exact ih hrs
  · rename_i h
    have hnone : photos.find? (fun q => q.ID == p.ID) = none := by
      apply List.find?_eq_none.mpr
      intro q hq hid
      exact h (List.any_eq_true.mpr ⟨q, hq, hid⟩)
    simp [List.find?_append, hnone]

/-- A row written in place is found again by a property it has, when the
rows with that property were the first one of them, which has the key of the
written row, or none. -/
theorem find_after_save (files : List File) (p : File → Bool) (f g : File)
    (hf : f ∈ files) (hid : f.ID = g.ID) (hg : p g = true)
    (hfind : files.find? p = some f ∨ files.find? p = none) :
    (files.map (fun r => if r.ID == g.ID then g else r)).find? p = some g := by
  induction files with
  | nil => simp at hf
  | cons r rs ih =>
    by_cases hr : r.ID = g.ID
    · simp [hr, hg]
    · have hb : (r.ID == g.ID) = false := by simpa using hr
      have hne : f ≠ r := by
        intro h
        rw [h] at hid
        exact hr hid
      have hfr : f ∈ rs := by
        rcases List.mem_cons.mp hf with h | h
        · exact absurd h hne
        · exact h
      have hpr : p r = false := by
        cases hp : p r with
        | false => rfl
        | true =>
          simp only [List.find?_cons, hp] at hfind
          rcases hfind with h | h
          · exact absurd (Option.some.inj h).symm hne
          · exact absurd h (by simp)
      simp only [List.map_cons, hb, Bool.false_eq_true, if_false, List.find?_cons, hpr]
      apply ih hfr
      simpa only [List.find?_cons, hpr] using hfind

/-- The row the file lookup binds is the first row with the name of the
probe, when there is one. -/
theorem lookupFile_name (env : Env) (w : World) (m : MediaFile) :
    ((lookupFile env w m).1.fileExists = true →
      w.files.find? (fun f => f.FileName == m.fileName) = some (lookupFile env w m).1.file ∨
      w.files.find? (fun f => f.FileName == m.fileName) = none) ∧
    ((lookupFile env w m).1.fileExists = false →
      w.files.find? (fun f => f.FileName == m.fileName) = none) := by
  unfold lookupFile
  simp only [World.log_files]
  cases h1 : w.files.find? (fun f => f.FileName == m.fileName) with
  | some f => simp
  | none =>
    simp only [or_true, implies_true, and_true]

/-- A file row with the name of the probe is bound by its name. -/
theorem resolveFile_of_name (env : Env) (w : World) (m : MediaFile) (f : File)
    (h : w.files.find? (fun g => g.FileName == m.fileName) = some f) :
    resolveFile env w m = { file := f, fileExists := true, fileQueryOk := true } := by
  simp [resolveFile, lookupFile, h]

/-! ### The keyword string through a run -/

theorem mergeMetaDetails_keywords (md : MetaData) (d : Details)
    (h : d.Keywords ≠ "" ∨ md.Keywords = "") : (mergeMetaDetails md d).Keywords = d.Keywords := by
  unfold mergeMetaDetails
  simp only []
  generalize hd1 : (if d.NoNotes = true then { d with Notes := md.Comment } else d) = d1
  have e1 : d1.Keywords = d.Keywords := by
    rw [← hd1]
    split <;> rfl
  generalize hd2 : (if d1.NoSubject = true then { d1 with Subject := md.Subject } else d1) = d2
  have e2 : d2.Keywords = d.Keywords := by
    rw [← hd2]
    split
    · exact e1
    · exact e1
  generalize hd3 : (if d2.NoKeywords = true then { d2 with Keywords := md.Keywords } else d2) = d3
  have e3 : d3.Keywords = d.Keywords := by
    rw [← hd3]
    split
    · rename_i hk
      have hk2 : d2.Keywords = "" := by simpa [Details.NoKeywords] using hk
      rw [e2] at hk2
      rcases h with h | h
      · exact absurd hk2 h
      · show md.Keywords = d.Keywords
        rw [h, hk2]
    · exact e2
  generalize hd4 : (if (d3.NoArtist && md.Artist != "") = true then
    { d3 with Artist := md.Artist } else d3) = d4
  have e4 : d4.Keywords = d.Keywords := by
    rw [← hd4]
    split
    · exact e3
    · exact e3
  split
  · exact e4
  · exact e4

theorem mergeXmpDetails_keywords (data : XmpData) (d : Details) :
    (mergeXmpDetails data d).Keywords = d.Keywords := by
  unfold mergeXmpDetails
  simp only []
  repeat' split
  all_goals rfl

theorem mergeKind_keywords (env : Env) (m : MediaFile) (st : IndexState)
    (h : st.details.Keywords ≠ "" ∨ m.MetaData.Keywords = "") :
    (mergeKind env m st).details.Keywords = st.details.Keywords := by
  unfold mergeKind
  repeat' split
  · unfold mergeJpeg
    split <;> rfl
  · unfold mergeXmp
    split
    · rfl
    · exact mergeXmpDetails_keywords _ _
  · unfold mergeRaw
    simp only []
    split
    · show (mergeMetaDetails m.MetaData st.details).Keywords = st.details.Keywords
      exact mergeMetaDetails_keywords m.MetaData st.details h
    · rfl
  · unfold mergeVideo
    simp only []
    split
    · show (mergeMetaDetails m.MetaData st.details).Keywords = st.details.Keywords
      exact mergeMetaDetails_keywords m.MetaData st.details h
    · rfl
  · rfl

theorem classifyGate_details (env : Env) (m : MediaFile) (st : IndexState) :
    (classifyGate env m st).details = st.details := by
  unfold classifyGate
  repeat' split
  all_goals rfl

theorem mergePrimary_keywords (env : Env) (w : World) (m : MediaFile) (st : IndexState)
    (h : st.details.Keywords ≠ "" ∨ m.MetaData.Keywords = "") :
    (mergePrimary env w m st).1.details.Keywords = st.details.Keywords := by
  unfold mergePrimary
  split
  · simp only []
    split
    · show (mergeMetaDetails m.MetaData
        (classifyGate env m { st with primaryFile := st.file }).details).Keywords = _
      rw [classifyGate_details]
      exact mergeMetaDetails_keywords _ _ h
    · show (classifyGate env m { st with primaryFile := st.file }).details.Keywords = _
      rw [classifyGate_details]
  · rfl

/-- The merge keeps a keyword string that is not empty, and an empty one when
the metadata carries no keywords. -/
theorem merge_keywords (env : Env) (w : World) (m : MediaFile) (st : IndexState)
    (h : st.details.Keywords ≠ "" ∨ m.MetaData.Keywords = "") :
    (merge env w m st).1.details.Keywords = st.details.Keywords := by
  have h1 := mergeKind_keywords env m st h
  have h2 : (clearFileFlags (mergeKind env m st)).details.Keywords = st.details.Keywords := h1
  have h3 := mergePrimary_keywords env w m (clearFileFlags (mergeKind env m st)) (by rw [h2]; exact h)
  show (mergePrimary env w m (clearFileFlags (mergeKind env m st))).1.details.Keywords = _
  rw [h3, h2]

theorem unarchived_details (st : IndexState) : (unarchived st).details = st.details := by
  unfold unarchived
  split <;> rfl

/-- The keyword string at the first write of the photo, for a photo found in
the store: the stored string, unless it is empty and the metadata carries
keywords. -/
theorem merged_keywords (env : Env) (w : World) (m : MediaFile) (name : String)
    (h : (resolvePhoto env w m).photo.Details.Keywords ≠ "" ∨ m.MetaData.Keywords = "") :
    (merged env w m name).1.details.Keywords = (resolvePhoto env w m).photo.Details.Keywords := by
  have hp : (prepared env w m name).1.details = (resolvePhoto env w m).photo.Details := rfl
  have hu : (unarchived (prepared env w m name).1).details.Keywords
      = (resolvePhoto env w m).photo.Details.Keywords := by
    rw [unarchived_details, hp]
  unfold merged
  rw [merge_keywords env _ m _ (by rw [hu]; exact h), hu]

/-- The keyword string a successful run on a primary file persists is the one
derived at lines 534-546. -/
theorem persistedPhoto_keywords (env : Env) (w : World) (m : MediaFile) (name : String)
    (hp : (prepared env w m name).1.file.FilePrimary = true) :
    (persistedPhoto env w m name).Details.Keywords =
      deriveKeywords env m (merged env w m name).1 (merged env w m name).1.file
        (keywordLabels env w m name) := by
  have hp2 := (merged_primary env w m name).trans hp
  unfold persistedPhoto finalPhoto
  simp only [hp2, if_true]
  rfl

theorem writtenFile_frame (env : Env) (w : World) (st : IndexState) :
    (writtenFile env w st).FileName = st.file.FileName ∧
    (writtenFile env w st).PhotoID = (firstPhoto env w st).ID ∧
    (writtenFile env w st).FilePrimary = st.file.FilePrimary := by
  unfold writtenFile
  split <;> exact ⟨rfl, rfl, rfl⟩

theorem merged_fileName (env : Env) (w : World) (m : MediaFile) (name : String) :
    (merged env w m name).1.file.FileName = m.fileName := rfl

/-- What a second run finds after a run that returned Added or Updated: the
first file row with the name of the probe is the row the run wrote, and the
first photo row with the key of that row's photo is the photo the run saved
last. -/
theorem rows_after_success (env : Env) (w : World) (m : MediaFile) (o : IndexOptions)
    (name : String)
    (h : (Index.MediaFile env w (some m) o name).1.Status = .IndexAdded ∨
         (Index.MediaFile env w (some m) o name).1.Status = .IndexUpdated) :
    (Index.MediaFile env w (some m) o name).2.files.find? (fun f => f.FileName == m.fileName)
      = some (writtenFile env (merged env w m name).2 (merged env w m name).1) ∧
    (Index.MediaFile env w (some m) o name).2.photos.find?
        (fun q => q.ID == (writtenFile env (merged env w m name).2 (merged env w m name).1).PhotoID)
      = some (persistedPhoto env w m name) := by
  obtain ⟨he, hf⟩ := MediaFile_of_success env w m o name h
  obtain ⟨-, r2, r3, -⟩ := persist_reachedOk env (merged env w m name).2 m name
    (merged env w m name).1 hf
  obtain ⟨w1, -, -, -, -, -⟩ := quiet_after_indexing (merged_world env w m name)
  obtain ⟨f1, f2⟩ := merged_file env w m name
  have w1' : (merged env w m name).2.files = w.files := w1
  have f1' : (merged env w m name).1.fileQueryOk = (resolveFile env w m).fileExists := f1
  have f2' : (merged env w m name).1.file.ID = (resolveFile env w m).file.ID := f2
  obtain ⟨n1, n2, -⟩ := writtenFile_frame env (merged env w m name).2 (merged env w m name).1
  have hname : (fun f : File => f.FileName == m.fileName)
      (writtenFile env (merged env w m name).2 (merged env w m name).1) = true := by
    simp only [n1, merged_fileName, beq_self_eq_true]
  rw [he, r2, r3, w1', f1']
  constructor
  · cases hb : (resolveFile env w m).fileExists with
    | true =>
      have hmem := lookupFile_mem env w m hb
      have hid : (writtenFile env (merged env w m name).2 (merged env w m name).1).ID
          = (resolveFile env w m).file.ID := by
        simp only [writtenFile, f1', hb, if_true]
        exact f2'
      simp only [if_true]
      rw [saveFileRows_of_mem w.files _ _ hmem hid.symm]
      exact find_after_save w.files _ _ _ hmem hid.symm hname ((lookupFile_name env w m).1 hb)
    | false =>
      simp only [Bool.false_eq_true, if_false]
      rw [List.find?_append, (lookupFile_name env w m).2 hb]
      simp only [Option.none_or, List.find?_cons, hname]
  · rw [n2]
    have hid : (persistedPhoto env w m name).ID
        = (firstPhoto env (merged env w m name).2 (merged env w m name).1).ID :=
      (finalPhoto_frame env m _ _).1
    rw [← hid]
    exact savePhotoRows_find _ _
/-! ## The claims -/

/-! ### C1 -/

/-- C1 (as amended): for a media file that is not a sidecar and whose path
matches no file row, if the first file row with the same content hash (in
primary-key order, soft-deleted rows included) has a root+name that exists on
disk, `Index.MediaFile` returns status Duplicate ("skipped duplicate") with
nil error and zero ids, writes nothing (tables, download names and sidecars
unchanged, every added store operation is a read) and publishes the
`index.indexing` event only. -/
theorem duplicate_of_first_hash_match (env : Env) (w : World) (m : MediaFile)
    (o : IndexOptions) (name : String) (f : File)
    (hside : m.IsSidecar = false)
    (hname : w.files.find? (fun g => g.FileName == m.fileName) = none)
    (hhash : w.files.find? (fun g => g.FileHash == m.Hash) = some f)
    (hdisk : env.fileExists (env.FileName f.FileRoot f.FileName) = true) :
    (Index.MediaFile env w (some m) o name).1 = { Status := .IndexDuplicate } ∧
    (Index.MediaFile env w (some m) o name).1.Status.toString = "skipped duplicate" ∧
    (Index.MediaFile env w (some m) o name).1.Error = none ∧
    (Index.MediaFile env w (some m) o name).1.FileID = 0 ∧
    (Index.MediaFile env w (some m) o name).1.PhotoID = 0 ∧
    (Index.MediaFile env w (some m) o name).2.files = w.files ∧
    (Index.MediaFile env w (some m) o name).2.photos = w.photos ∧
    (Index.MediaFile env w (some m) o name).2.events = w.events ++ [indexingEvent m] ∧
    (Index.MediaFile env w (some m) o name).2.downloads = w.downloads ∧
    (Index.MediaFile env w (some m) o name).2.yamls = w.yamls ∧
    ∃ l, (Index.MediaFile env w (some m) o name).2.ops = w.ops ++ l ∧
      ∀ x ∈ l, x.op.isWrite = false := by
  have hd : (resolveFile env w m).duplicate = true := by
    simp [resolveFile, lookupFile, hname, hside, hhash, hdisk]
  rw [MediaFile_of_duplicate env w m o name hd]
  obtain ⟨a1, a2, a3, a4, a5, l, a6, a7⟩ :=
    quiet_after_indexing (lookupFile_quiet env (w.publish (indexingEvent m)) m)
  exact ⟨rfl, rfl, rfl, rfl, rfl, a1, a2, a3, a4, a5, l, a6, fun x hx => (a7 x hx).1⟩

/-- Witness of C1 (as amended): the copy of an indexed JPEG whose original is
still on disk. -/
theorem duplicate_of_first_hash_match_witness :
    (Index.MediaFile oneJpegEnv oneJpegWorld (some copiedJpeg) {} "").1
      = { Status := .IndexDuplicate } ∧
    (Index.MediaFile oneJpegEnv oneJpegWorld (some copiedJpeg) {} "").2.events
      = [indexingEvent copiedJpeg] :=
  ⟨(duplicate_of_first_hash_match oneJpegEnv oneJpegWorld copiedJpeg {} ""
      (oneJpegWorld.files.get ⟨0, by decide⟩) rfl rfl rfl rfl).1,
   (duplicate_of_first_hash_match oneJpegEnv oneJpegWorld copiedJpeg {} ""
      (oneJpegWorld.files.get ⟨0, by decide⟩) rfl rfl rfl rfl).2.2.2.2.2.2.2.1⟩

/-- C1 fails as stated: the second row is not deleted, has the content hash
of the probed copy and its file exists on disk, the probed path matches no
row and the probe is no sidecar; yet the hash lookup returns the soft-deleted
first row, whose file is gone, and the run rebinds and rewrites that row
(status Updated) instead of reporting a duplicate. -/
theorem duplicate_claim_counterexample :
    copiedJpeg.IsSidecar = false ∧
    shadowedWorld.files.find? (fun g => g.FileName == copiedJpeg.fileName) = none ∧
    shadowedWorld.files.map (fun g => (g.ID, g.FileHash == copiedJpeg.Hash, g.DeletedAt,
        oneJpegEnv.fileExists (oneJpegEnv.FileName g.FileRoot g.FileName)))
      = [(1, true, some 5, false), (2, true, none, true)] ∧
    (Index.MediaFile oneJpegEnv shadowedWorld (some copiedJpeg) {} "").1.Status
      = .IndexUpdated ∧
    (Index.MediaFile oneJpegEnv shadowedWorld (some copiedJpeg) {} "").2.files.map
      (fun g => (g.ID, g.FileName)) = [(1, "copy/IMG_001.jpg"), (2, "2021/IMG_001.jpg")] :=
  ⟨rfl, rfl, rfl, rfl, rfl⟩

/-! ### C2 -/

/-- C2: for a media file bound to an existing file row (no duplicate) whose
size and modification time are unchanged and whose photo exists,
`Index.MediaFile` with `skipUnchanged` returns status Skipped, writes nothing
(tables, download names and sidecars unchanged, every added store operation
is a read) and publishes the `index.indexing` event only, hence no `count.*`
and no `entities.created` event. -/
theorem skipped_of_unchanged (env : Env) (w : World) (m : MediaFile) (o : IndexOptions)
    (name : String) (p : Photo)
    (hbound : (resolveFile env w m).fileExists = true)
    (hnodup : (resolveFile env w m).duplicate = false)
    (hsize : (resolveFile env w m).file.FileSize = m.fileSize)
    (hmod : (resolveFile env w m).file.FileModified = m.fileModified)
    (hphoto : w.photos.find? (fun q => q.ID == (resolveFile env w m).file.PhotoID) = some p)
    (hskip : o.SkipUnchanged = true) :
    (Index.MediaFile env w (some m) o name).1 = { Status := .IndexSkipped } ∧
    (Index.MediaFile env w (some m) o name).2.files = w.files ∧
    (Index.MediaFile env w (some m) o name).2.photos = w.photos ∧
    (Index.MediaFile env w (some m) o name).2.events = w.events ++ [indexingEvent m] ∧
    (Index.MediaFile env w (some m) o name).2.downloads = w.downloads ∧
    (Index.MediaFile env w (some m) o name).2.yamls = w.yamls ∧
    (∃ l, (Index.MediaFile env w (some m) o name).2.ops = w.ops ++ l ∧
      ∀ x ∈ l, x.op.isWrite = false) ∧
    ∀ e ∈ (Index.MediaFile env w (some m) o name).2.events.drop w.events.length,
      e.topic = "index.indexing" := by
  have hc : (resolvePhoto env w m).fileChanged = false := by
    simp [resolvePhoto, lookupPhoto, hbound, File.Changed, hsize, hmod]
  have hp : (resolvePhoto env w m).photoExists = true := by
    simp [resolvePhoto, lookupPhoto, hbound, hphoto]
  rw [MediaFile_of_skipped env w m o name hnodup hc hp hskip]
  obtain ⟨a1, a2, a3, a4, a5, l, a6, a7⟩ :=
    quiet_after_indexing (lookups_quiet env w m (resolveFile env w m))
  refine ⟨rfl, a1, a2, a3, a4, a5, ⟨l, a6, fun x hx => (a7 x hx).1⟩, ?_⟩
  simp only [a3, List.drop_left]
  intro e he
  rw [List.mem_singleton.mp he]
  rfl

/-- Witness of C2: re-indexing the unchanged `2021/IMG_001.jpg`. -/
theorem skipped_of_unchanged_witness :
    (Index.MediaFile oneJpegEnv oneJpegWorld (some sameJpeg) { SkipUnchanged := true } "").1
      = { Status := .IndexSkipped } ∧
    (Index.MediaFile oneJpegEnv oneJpegWorld (some sameJpeg) { SkipUnchanged := true } "").2.files
      = oneJpegWorld.files :=
  ⟨(skipped_of_unchanged oneJpegEnv oneJpegWorld sameJpeg { SkipUnchanged := true } ""
      (oneJpegWorld.photos.get ⟨0, by decide⟩) rfl rfl rfl rfl rfl rfl).1,
   (skipped_of_unchanged oneJpegEnv oneJpegWorld sameJpeg { SkipUnchanged := true } ""
      (oneJpegWorld.photos.get ⟨0, by decide⟩) rfl rfl rfl rfl rfl rfl).2.1⟩

/-! ### C3 -/

/-- C3: for a run that is not short-circuited as Duplicate or Skipped, if the
bound photo has `deletedAt` set and a quality other than -1, the result is
Archived ("skipped archived") with nil error; the photos and files tables are
unchanged, no added store operation writes a photo row or a file row, and
only `index.indexing` is published. -/
theorem archived_of_deleted (env : Env) (w : World) (m : MediaFile) (o : IndexOptions)
    (name : String)
    (hnodup : (resolveFile env w m).duplicate = false)
    (hnoskip : ¬ ((resolvePhoto env w m).fileChanged = false ∧ o.SkipUnchanged = true))
    (hbound : (resolvePhoto env w m).photoExists = true)
    (hdel : (resolvePhoto env w m).photo.DeletedAt ≠ none)
    (hq : (resolvePhoto env w m).photo.PhotoQuality ≠ -1) :
    (Index.MediaFile env w (some m) o name).1 = { Status := .IndexArchived } ∧
    (Index.MediaFile env w (some m) o name).1.Status.toString = "skipped archived" ∧
    (Index.MediaFile env w (some m) o name).1.Error = none ∧
    (Index.MediaFile env w (some m) o name).2.files = w.files ∧
    (Index.MediaFile env w (some m) o name).2.photos = w.photos ∧
    (Index.MediaFile env w (some m) o name).2.events = w.events ++ [indexingEvent m] ∧
    ∃ l, (Index.MediaFile env w (some m) o name).2.ops = w.ops ++ l ∧
      ∀ x ∈ l, x.op.writesRow = false ∧ x.err = none := by
  have hs : (!(resolvePhoto env w m).fileChanged && (resolvePhoto env w m).photoExists
      && o.SkipUnchanged) = false := by
    rw [hbound]
    cases hc : (resolvePhoto env w m).fileChanged <;> cases ho : o.SkipUnchanged <;>
      simp_all
  rw [MediaFile_of_continue env w m o name hnodup hs]
  obtain ⟨-, -, -, b4, b5, -⟩ := prepare_photo_of_exists env
    (lookupPhoto (lookupFile env (w.publish (indexingEvent m)) m).2 m (resolveFile env w m)).2
    m name (resolveFile env w m) (resolvePhoto env w m) hbound
  obtain ⟨a1, a2, a3, -, -, l, a6, a7⟩ := quiet_after_indexing
    (prepared_quiet env w m name (resolveFile env w m) (resolveFile env w m)
      (resolvePhoto env w m))
  have hq2 : ((prepare env (lookupPhoto (lookupFile env (w.publish (indexingEvent m)) m).2 m
      (resolveFile env w m)).2 m name (resolveFile env w m)
      (resolvePhoto env w m)).1.photo.PhotoQuality == -1) = false := by
    rw [b5]
    exact beq_false_of_ne hq
  have hd2 : (prepare env (lookupPhoto (lookupFile env (w.publish (indexingEvent m)) m).2 m
      (resolveFile env w m)).2 m name (resolveFile env w m)
      (resolvePhoto env w m)).1.photo.DeletedAt.isSome = true := by
    rw [b4]
    exact Option.isSome_iff_ne_none.mpr hdel
  simp only [hq2, hd2, Bool.false_and]
  exact ⟨rfl, rfl, rfl, a1, a2, a3, l, a6, a7⟩

/-- Witness of C3: re-indexing the changed primary file of an archived
photo. -/
theorem archived_of_deleted_witness :
    (Index.MediaFile oneJpegEnv archivedWorld (some changedJpeg) {} "").1
      = { Status := .IndexArchived } ∧
    (Index.MediaFile oneJpegEnv archivedWorld (some changedJpeg) {} "").2.photos
      = archivedWorld.photos :=
  ⟨(archived_of_deleted oneJpegEnv archivedWorld changedJpeg {} "" rfl (by decide) rfl
      (by decide) (by decide)).1,
   (archived_of_deleted oneJpegEnv archivedWorld changedJpeg {} "" rfl (by decide) rfl
      (by decide) (by decide)).2.2.2.2.1⟩

/-! ### C4 -/

/-- C4 (as amended): for a stored photo with quality -1 (purged) and for every
index options, `Index.MediaFile` applied to the photo's primary file never
returns Archived; and unless the run is short-circuited as Skipped (file
unchanged and `skipUnchanged` set) or the save of the photo fails, the photo
is persisted with `deletedAt` cleared and keeps its unique id. -/
theorem purged_photo_restored (env : Env) (w : World) (m : MediaFile) (o : IndexOptions)
    (name : String) (f : File) (p : Photo)
    (hname : w.files.find? (fun g => g.FileName == m.fileName) = some f)
    (hprim : f.FilePrimary = true)
    (hphoto : w.photos.find? (fun q => q.ID == f.PhotoID) = some p)
    (hq : p.PhotoQuality = -1) :
    (Index.MediaFile env w (some m) o name).1.Status ≠ .IndexArchived ∧
    ((f.Changed m.fileSize m.fileModified = true ∨ o.SkipUnchanged = false) →
      env.faults.photoSave = none →
      (∃ q ∈ (Index.MediaFile env w (some m) o name).2.photos, q.ID = p.ID) ∧
      ∀ q ∈ (Index.MediaFile env w (some m) o name).2.photos, q.ID = p.ID →
        q.DeletedAt = none ∧ q.PhotoUID = p.PhotoUID) := by
  have hfl : resolveFile env w m = { file := f, fileExists := true, fileQueryOk := true } := by
    simp [resolveFile, lookupFile, hname]
  have hpl : resolvePhoto env w m =
      { photo := p, photoExists := true, fileChanged := f.Changed m.fileSize m.fileModified } := by
    simp [resolvePhoto, lookupPhoto, hfl, hphoto]
  have hd : (resolveFile env w m).duplicate = false := by rw [hfl]
  cases hs : (!(resolvePhoto env w m).fileChanged && (resolvePhoto env w m).photoExists
      && o.SkipUnchanged) with
  | true =>
    simp only [Bool.and_eq_true, Bool.not_eq_true'] at hs
    rw [MediaFile_of_skipped env w m o name hd hs.1.1 hs.1.2 hs.2]
    refine ⟨fun h => IndexStatus.noConfusion h, ?_⟩
    intro hne
    have hc : f.Changed m.fileSize m.fileModified = false := by
      have := hs.1.1
      rw [hpl] at this
      exact this
    rcases hne with h | h
    · rw [hc] at h
      exact absurd h (by decide)
    · rw [hs.2] at h
      exact absurd h (by decide)
  | false =>
    have hpe : (resolvePhoto env w m).photoExists = true := by rw [hpl]
    obtain ⟨p1, p2, p3, -, p5, -⟩ := prepared_photo env w m name hpe
    have pprim : (prepared env w m name).1.file.FilePrimary = true :=
      prepared_primary env w m name (by rw [hfl]; exact hprim)
    have pq : (prepared env w m name).1.photo.PhotoQuality = -1 := by rw [p5, hpl]; exact hq
    rw [MediaFile_of_prepared env w m o name hd hs]
    simp only [pq, pprim, beq_self_eq_true, Bool.and_self, Bool.true_eq_false, false_and,
      if_false, indexRest_eq]
    refine ⟨?_, ?_⟩
    · rcases persist_status env
        (merge env (prepared env w m name).2 m (unarchived (prepared env w m name).1)).2 m name
        (merge env (prepared env w m name).2 m (unarchived (prepared env w m name).1)).1
        with h | h | h <;> rw [h] <;> decide
    · intro _ hsave
      obtain ⟨⟨m1, m2, m3, -⟩, -, -, m7, -⟩ := merge_frame env (prepared env w m name).2 m
        (unarchived (prepared env w m name).1)
      obtain ⟨u1, u2, -, -, -, u6, -⟩ := unarchived_frame (prepared env w m name).1
      have u3 := unarchived_restored (prepared env w m name).1 pq pprim
      obtain ⟨-, w2, -, -, -, -⟩ := quiet_after_indexing (merged_world env w m name)
      have hex : (merge env (prepared env w m name).2 m
          (unarchived (prepared env w m name).1)).1.photoExists = true := by
        rw [m7, u6, p1]
      have hid : (merge env (prepared env w m name).2 m
          (unarchived (prepared env w m name).1)).1.photoRow.ID = p.ID := by
        show (merge env (prepared env w m name).2 m
          (unarchived (prepared env w m name).1)).1.photo.ID = p.ID
        rw [m1, u1, p2, hpl]
      have huid : (merge env (prepared env w m name).2 m
          (unarchived (prepared env w m name).1)).1.photoRow.PhotoUID = p.PhotoUID := by
        show (merge env (prepared env w m name).2 m
          (unarchived (prepared env w m name).1)).1.photo.PhotoUID = p.PhotoUID
        rw [m2, u2, p3, hpl]
      have hdel : (merge env (prepared env w m name).2 m
          (unarchived (prepared env w m name).1)).1.photoRow.DeletedAt = none := by
        show (merge env (prepared env w m name).2 m
          (unarchived (prepared env w m name).1)).1.photo.DeletedAt = none
        rw [m3, u3]
      obtain ⟨f1, f2, f3, -⟩ := finalPhoto_frame env m
        (merge env (prepared env w m name).2 m (unarchived (prepared env w m name).1)).1
        (merge env (prepared env w m name).2 m (unarchived (prepared env w m name).1)).1.photoRow
      rcases persist_photos_saved env _ m name _ hex hsave with h | h
      · rw [h]
        refine ⟨⟨_, savePhotoRows_mem _ _, hid⟩, ?_⟩
        intro q hq1 hq2
        rcases savePhotoRows_rows _ _ _ hq1 with h3 | h3
        · rw [h3]; exact ⟨hdel, huid⟩
        · exact absurd (hq2.trans hid.symm) h3.2
      · rw [h]
        refine ⟨⟨_, savePhotoRows_mem _ _, f1.trans hid⟩, ?_⟩
        intro q hq1 hq2
        rcases savePhotoRows_rows _ _ _ hq1 with h3 | h3
        · rw [h3]; exact ⟨f3.trans hdel, f2.trans huid⟩
        · exact absurd (hq2.trans (f1.trans hid).symm) h3.2

/-- Witness of C4 (as amended): the rewritten primary file of a purged photo
is indexed. -/
theorem purged_photo_restored_witness :
    (Index.MediaFile oneJpegEnv purgedWorld (some changedJpeg) {} "").1.Status
      ≠ .IndexArchived ∧
    ∀ q ∈ (Index.MediaFile oneJpegEnv purgedWorld (some changedJpeg) {} "").2.photos,
      q.ID = 1 → q.DeletedAt = none ∧ q.PhotoUID = "p1" :=
  ⟨(purged_photo_restored oneJpegEnv purgedWorld changedJpeg {} ""
      (purgedWorld.files.get ⟨0, by decide⟩) (purgedWorld.photos.get ⟨0, by decide⟩)
      rfl rfl rfl rfl).1,
   ((purged_photo_restored oneJpegEnv purgedWorld changedJpeg {} ""
      (purgedWorld.files.get ⟨0, by decide⟩) (purgedWorld.photos.get ⟨0, by decide⟩)
      rfl rfl rfl rfl).2 (Or.inl rfl) rfl).2⟩

/-- C4 fails as stated: with `skipUnchanged` set, re-indexing the unchanged
primary file of a purged photo is short-circuited as Skipped and the photo
stays soft-deleted. -/
theorem purged_photo_counterexample :
    (Index.MediaFile oneJpegEnv purgedWorld (some sameJpeg) { SkipUnchanged := true } "").1.Status
      = .IndexSkipped ∧
    (Index.MediaFile oneJpegEnv purgedWorld (some sameJpeg) { SkipUnchanged := true }
      "").2.photos.map (fun q => (q.ID, q.PhotoQuality, q.DeletedAt)) = [(1, -1, some 5)] :=
  ⟨rfl, rfl⟩

/-! ### C5 -/

/-- C5 fails on the code: starting from the empty store, index a JPEG with
instance id `X`, then a RAW file with the same instance id (its row is
rebound, stays primary and becomes a RAW row), then a second JPEG with the
same stem (the photo has no primary JPEG row any more, so it becomes primary
too).  The photo is not deleted, has a JPEG file row, and has two file rows
with `primary = true`. -/
theorem two_primary_files_after_three_runs :
    (Index.MediaFile {} {} (some jpegWithUUID) {} "").1.Status = .IndexAdded ∧
    (Index.MediaFile {} (Index.MediaFile {} {} (some jpegWithUUID) {} "").2
      (some rawWithUUID) {} "").1.Status = .IndexUpdated ∧
    afterThreeRuns.photos.map (fun q => (q.ID, q.DeletedAt)) = [(1, none)] ∧
    afterThreeRuns.files.map (fun g => (g.ID, g.PhotoID, g.FileName, g.FileType, g.FilePrimary))
      = [(1, 1, "2021/IMG_001.cr2", "raw", true), (2, 1, "2021/IMG_001.jpeg", "jpg", true)] ∧
    (afterThreeRuns.files.filter (fun g => g.FilePrimary && g.PhotoID == 1)).length = 2 :=
  ⟨rfl, rfl, rfl, rfl, rfl⟩

/-! ### C6 -/

/-- C6 (as amended): whenever one of the four writes of a row that
`Index.MediaFile` invokes (photo create, photo save, file create, file save)
fails, the result has status Failed and `Error` equal to that failure, and
the failed write is the last store operation of the run; and when none of
these writes fails, the run does not fail and reports no error, whatever the
keyword-to-label sync, the keyword index rebuild, the video info update and
the download-file-id mapping return. -/
theorem failed_write_stops (env : Env) (w : World) (m : MediaFile) (o : IndexOptions)
    (name : String) :
    (∀ (x : OpRecord) (e : String),
      x ∈ (Index.MediaFile env w (some m) o name).2.ops.drop w.ops.length →
      x.op.writesRow = true → x.err = some e →
      (Index.MediaFile env w (some m) o name).1.Status = .IndexFailed ∧
      (Index.MediaFile env w (some m) o name).1.Error = some e ∧
      (Index.MediaFile env w (some m) o name).2.ops.getLast? = some x) ∧
    (env.faults.rowWritesOk →
      (Index.MediaFile env w (some m) o name).1.Status ≠ .IndexFailed ∧
      (Index.MediaFile env w (some m) o name).1.Error = none) := by
  constructor
  · intro x e hx hw he
    rcases MediaFile_trace env w m o name with ⟨l, op, e2, hl, hops, hs, her⟩ | ⟨l, hl, hops⟩
    · rw [hops, List.append_assoc, List.drop_left] at hx
      rcases List.mem_append.mp hx with h | h
      · have := hl x h hw
        rw [he] at this
        exact absurd this (by simp)
      · have hxe := List.mem_singleton.mp h
        have h2 : e2 = e := by
          have h3 := he
          rw [hxe] at h3
          exact Option.some.inj h3
        rw [hops, hs, her, h2, hxe, h2]
        simp
    · rw [hops, List.drop_left] at hx
      have := hl x hx hw
      rw [he] at this
      exact absurd this (by simp)
  · intro hf
    cases hd : (resolveFile env w m).duplicate with
    | true =>
      rw [MediaFile_of_duplicate env w m o name hd]
      exact ⟨fun h => IndexStatus.noConfusion h, rfl⟩
    | false =>
      cases hs : (!(resolvePhoto env w m).fileChanged && (resolvePhoto env w m).photoExists
          && o.SkipUnchanged) with
      | true =>
        simp only [Bool.and_eq_true, Bool.not_eq_true'] at hs
        rw [MediaFile_of_skipped env w m o name hd hs.1.1 hs.1.2 hs.2]
        exact ⟨fun h => IndexStatus.noConfusion h, rfl⟩
      | false =>
        rw [MediaFile_of_prepared env w m o name hd hs]
        split
        · exact ⟨fun h => IndexStatus.noConfusion h, rfl⟩
        · rw [indexRest_eq, (persist_rowWritesOk env _ m name _ hf).1]
          refine ⟨?_, rfl⟩
          simp only []
          split <;> exact fun h => IndexStatus.noConfusion h

/-- Witness of C6 (as amended): creating the file row of a new JPEG fails and
the run reports Failed with that error; with a failing keyword-to-label sync
and no failing row write the run reports no error. -/
theorem failed_write_stops_witness :
    (Index.MediaFile fileCreateFails {} (some jpegWithUUID) {} "").1.Status = .IndexFailed ∧
    (Index.MediaFile fileCreateFails {} (some jpegWithUUID) {} "").1.Error = some "disk full" ∧
    (Index.MediaFile fileCreateFails {} (some jpegWithUUID) {} "").2.ops.getLast?
      = some { op := .fileCreate, err := some "disk full" } ∧
    (Index.MediaFile syncFails {} (some jpegWithUUID) {} "").1.Status ≠ .IndexFailed ∧
    (Index.MediaFile syncFails {} (some jpegWithUUID) {} "").1.Error = none :=
  ⟨((failed_write_stops fileCreateFails {} jpegWithUUID {} "").1
      { op := .fileCreate, err := some "disk full" } "disk full" (by decide) rfl rfl).1,
   ((failed_write_stops fileCreateFails {} jpegWithUUID {} "").1
      { op := .fileCreate, err := some "disk full" } "disk full" (by decide) rfl rfl).2.1,
   ((failed_write_stops fileCreateFails {} jpegWithUUID {} "").1
      { op := .fileCreate, err := some "disk full" } "disk full" (by decide) rfl rfl).2.2,
   (failed_write_stops syncFails {} jpegWithUUID {} "").2 ⟨rfl, rfl, rfl, rfl, rfl⟩⟩

/-- C6 fails as stated: the keyword-to-label sync of a new primary JPEG
fails, yet the run goes on (keyword index, file create, download name) and
returns Added with nil error. -/
theorem failed_sync_counterexample :
    ({ op := .syncKeywordLabels, err := some "deadlock" } : OpRecord) ∈
      (Index.MediaFile syncFails {} (some jpegWithUUID) {} "").2.ops ∧
    (Index.MediaFile syncFails {} (some jpegWithUUID) {} "").1.Status = .IndexAdded ∧
    (Index.MediaFile syncFails {} (some jpegWithUUID) {} "").1.Error = none ∧
    (Index.MediaFile syncFails {} (some jpegWithUUID) {} "").2.ops.drop 11
      = [{ op := .syncKeywordLabels, err := some "deadlock" },
         { op := .indexKeywords, err := none },
         { op := .fileCreate, err := none },
         { op := .setDownloadFileID, err := none }] := by
  refine ⟨by decide, rfl, rfl, rfl⟩

/-! ### C7 -/

/-- C7: `Index.MediaFile` called with a nil media file returns status Failed
with a non-nil error and all ids zero, so `Success()` is false, and leaves the
world as it was: it publishes no event and neither reads nor writes the
store. -/
theorem mediaFile_nil_failed (env : Env) (w : World) (o : IndexOptions) (name : String) :
    (Index.MediaFile env w none o name).1.Status = .IndexFailed ∧
    (Index.MediaFile env w none o name).1.Error ≠ none ∧
    (Index.MediaFile env w none o name).1.FileID = 0 ∧
    (Index.MediaFile env w none o name).1.PhotoID = 0 ∧
    (Index.MediaFile env w none o name).1.FileUID = "" ∧
    (Index.MediaFile env w none o name).1.PhotoUID = "" ∧
    (Index.MediaFile env w none o name).1.Success = false ∧
    (Index.MediaFile env w none o name).2 = w := by
  simp [Index.MediaFile, IndexResult.Success]

/-! ### C8 -/

/-- C8: for a run that is not short-circuited and in which no store
operation fails, the status is Added exactly when no file row was bound, and
then exactly one file row is appended and exactly one `count.files` event is
published; otherwise the status is Updated, the bound row is rewritten in
place and no `count.files` event is published.  In both cases `FileID` and
`PhotoID` are keys of rows of the tables after the run. -/
theorem added_iff_no_row_bound (env : Env) (w : World) (m : MediaFile) (o : IndexOptions)
    (name : String) (hf : env.faults = {})
    (hD : (Index.MediaFile env w (some m) o name).1.Status ≠ .IndexDuplicate)
    (hS : (Index.MediaFile env w (some m) o name).1.Status ≠ .IndexSkipped)
    (hA : (Index.MediaFile env w (some m) o name).1.Status ≠ .IndexArchived) :
    ((Index.MediaFile env w (some m) o name).1.Status = .IndexAdded ↔
      (resolveFile env w m).fileExists = false) ∧
    ((Index.MediaFile env w (some m) o name).1.Status = .IndexUpdated ↔
      (resolveFile env w m).fileExists = true) ∧
    (Index.MediaFile env w (some m) o name).1.Error = none ∧
    ((resolveFile env w m).fileExists = false →
      ∃ g, (Index.MediaFile env w (some m) o name).2.files = w.files ++ [g] ∧
        g.ID = (Index.MediaFile env w (some m) o name).1.FileID ∧
        countFilesEvents ((Index.MediaFile env w (some m) o name).2.events.drop w.events.length)
          = 1) ∧
    ((resolveFile env w m).fileExists = true →
      (resolveFile env w m).file ∈ w.files ∧
      ∃ g, g.ID = (resolveFile env w m).file.ID ∧
        (Index.MediaFile env w (some m) o name).1.FileID = g.ID ∧
        (Index.MediaFile env w (some m) o name).2.files
          = w.files.map (fun x => if x.ID == g.ID then g else x) ∧
        countFilesEvents ((Index.MediaFile env w (some m) o name).2.events.drop w.events.length)
          = 0) ∧
    (∃ q ∈ (Index.MediaFile env w (some m) o name).2.photos,
      q.ID = (Index.MediaFile env w (some m) o name).1.PhotoID) ∧
    (∃ g ∈ (Index.MediaFile env w (some m) o name).2.files,
      g.ID = (Index.MediaFile env w (some m) o name).1.FileID) := by
  rw [MediaFile_of_indexed env w m o name hD hS hA, indexRest_eq]
  obtain ⟨r1, r2, r3, r4⟩ := persist_noFaults env
    (merge env (prepared env w m name).2 m (unarchived (prepared env w m name).1)).2 m name
    (merge env (prepared env w m name).2 m (unarchived (prepared env w m name).1)).1 hf
  obtain ⟨w1, -, w3, -, -, -⟩ := quiet_after_indexing (merged_world env w m name)
  obtain ⟨f1, f2⟩ := merged_file env w m name
  rw [r1, r2, r3, r4, w1, w3, f1]
  have hev : ∀ l : List Event, countFilesEvents ((w.events ++ [indexingEvent m] ++ l).drop
      w.events.length) = countFilesEvents l := by
    intro l
    rw [List.append_assoc, List.drop_left, countFilesEvents_append]
    simp [countFilesEvents, indexingEvent, Event.topic]
  refine ⟨?_, ?_, rfl, ?_, ?_, ?_, ?_⟩
  · cases (resolveFile env w m).fileExists <;> simp
  · cases (resolveFile env w m).fileExists <;> simp
  · intro hb
    refine ⟨_, by simp only [hb, Bool.false_eq_true, if_false], rfl, ?_⟩
    rw [List.append_assoc, hev, countFilesEvents_append]
    simp only [hb, Bool.false_eq_true, if_false]
    have : countFilesEvents [Event.countFiles] = 1 := rfl
    rw [this]
    split
    · rfl
    · rw [countFilesEvents_created]
  · intro hb
    have hmem := lookupFile_mem env w m hb
    refine ⟨hmem, _, ?_, rfl, ?_, ?_⟩
    · simp only [writtenFile, f1, hb, if_true]
      exact f2
    · simp only [hb, if_true]
      refine saveFileRows_of_mem w.files _ _ hmem ?_
      simp only [writtenFile, f1, hb, if_true]
      exact f2.symm
    · rw [List.append_assoc, hev, countFilesEvents_append]
      simp only [hb, if_true]
      have : countFilesEvents ([] : List Event) = 0 := rfl
      rw [this]
      split
      · rfl
      · rw [countFilesEvents_created]
  · exact ⟨_, savePhotoRows_mem _ _, (finalPhoto_frame env m _ _).1⟩
  · cases hb : (resolveFile env w m).fileExists
    · exact ⟨_, by simp, rfl⟩
    · exact ⟨_, by simp only [if_true]; exact saveFileRows_mem _ _, rfl⟩

/-- Witness of C8: the rewritten `2021/IMG_001.jpg` is bound by its path and
its row is updated in place. -/
theorem added_iff_no_row_bound_witness :
    (Index.MediaFile oneJpegEnv oneJpegWorld (some changedJpeg) {} "").1.Status = .IndexUpdated ∧
    (Index.MediaFile oneJpegEnv oneJpegWorld (some changedJpeg) {} "").1.Error = none :=
  ⟨(added_iff_no_row_bound oneJpegEnv oneJpegWorld changedJpeg {} "" rfl (by decide)
      (by decide) (by decide)).2.1.mpr rfl,
   (added_iff_no_row_bound oneJpegEnv oneJpegWorld changedJpeg {} "" rfl (by decide)
      (by decide) (by decide)).2.2.1⟩

/-! ### C9 -/

/-- C9 (as amended): for a RAW file whose directory and stem equal those of
an indexed photo of type image that is not soft-deleted and has a primary
JPEG, and whose path, content hash and embedded instance id (if any) match no
file row, a run in which no store operation fails returns Added, creates no
photo (the number of photo rows is unchanged and the photo's row has type
raw afterwards), appends exactly one file row, which is not primary and
belongs to the photo, and leaves the primary JPEG row as it was. -/
theorem raw_joins_jpeg (env : Env) (w : World) (m : MediaFile) (o : IndexOptions)
    (name : String) (p : Photo) (j : File)
    (hf : env.faults = {})
    (hraw : m.IsRaw = true) (hjpg : m.IsJpeg = false) (hxmp : m.IsXMP = false)
    (hname : w.files.find? (fun g => g.FileName == m.fileName) = none)
    (hhash : w.files.find? (fun g => g.FileHash == m.Hash) = none)
    (hinst : m.MetaData.HasInstanceID = true →
      w.files.find? (fun g => g.UUID == m.MetaData.InstanceID) = none)
    (hphoto : w.photos.find? (fun q => q.PhotoPath == m.filePath && q.PhotoName == m.fileBase)
      = some p)
    (htype : p.PhotoType = TypeImage)
    (hlive : p.DeletedAt = none)
    (hprim : w.files.find? (fun g => g.FileType == "jpg" && g.FilePrimary && g.PhotoID == p.ID)
      = some j) :
    (Index.MediaFile env w (some m) o name).1.Status = .IndexAdded ∧
    (Index.MediaFile env w (some m) o name).2.photos.length = w.photos.length ∧
    (∃ q ∈ (Index.MediaFile env w (some m) o name).2.photos, q.ID = p.ID) ∧
    (∀ q ∈ (Index.MediaFile env w (some m) o name).2.photos, q.ID = p.ID →
      q.PhotoType = TypeRaw) ∧
    (∃ g, (Index.MediaFile env w (some m) o name).2.files = w.files ++ [g] ∧
      g.FilePrimary = false ∧ g.PhotoID = p.ID) ∧
    j ∈ (Index.MediaFile env w (some m) o name).2.files ∧
    j.FilePrimary = true ∧ j.FileType = "jpg" ∧ j.PhotoID = p.ID := by
  have hfl : resolveFile env w m = { fileHash := if m.IsSidecar then "" else m.Hash } := by
    unfold resolveFile lookupFile
    simp only [World.log_files, hname, hhash]
    cases m.IsSidecar
    · cases hi : m.MetaData.HasInstanceID
      · simp
      · simp [hinst hi]
    · simp
  have hpl : resolvePhoto env w m = { photo := p, photoExists := true, fileChanged := true } := by
    simp [resolvePhoto, lookupPhoto, hfl, hphoto]
  have hd : (resolveFile env w m).duplicate = false := by rw [hfl]
  have hs : (!(resolvePhoto env w m).fileChanged && (resolvePhoto env w m).photoExists
      && o.SkipUnchanged) = false := by
    rw [hpl]
    rfl
  have hpe : (resolvePhoto env w m).photoExists = true := by rw [hpl]
  obtain ⟨p1, p2, -, p4, -, p6⟩ := prepared_photo env w m name hpe
  have pnp : (prepared env w m name).1.file.FilePrimary = false :=
    prepared_not_primary env w m name j hpe (by rw [hfl]) (by rw [hpl]; exact hprim)
  have pdel : (prepared env w m name).1.photo.DeletedAt.isSome = false := by
    rw [p4, hpl]
    simp [hlive]
  rw [MediaFile_of_prepared env w m o name hd hs]
  simp only [pdel, Bool.false_eq_true, and_false, if_false, indexRest_eq]
  obtain ⟨r1, r2, r3, -⟩ := persist_noFaults env
    (merge env (prepared env w m name).2 m (unarchived (prepared env w m name).1)).2 m name
    (merge env (prepared env w m name).2 m (unarchived (prepared env w m name).1)).1 hf
  obtain ⟨w1, w2, -, -, -, -⟩ := quiet_after_indexing (merged_world env w m name)
  obtain ⟨f1, -⟩ := merged_file env w m name
  obtain ⟨⟨m1, -, -, -⟩, -, m6, m7, -⟩ := merge_frame env (prepared env w m name).2 m
    (unarchived (prepared env w m name).1)
  obtain ⟨u1, -, -, u4, u5, u6, -⟩ := unarchived_frame (prepared env w m name).1
  have hq : (resolveFile env w m).fileExists = false := by rw [hfl]
  have hex : (merge env (prepared env w m name).2 m
      (unarchived (prepared env w m name).1)).1.photoExists = true := by rw [m7, u6, p1]
  have hid : (merge env (prepared env w m name).2 m
      (unarchived (prepared env w m name).1)).1.photoRow.ID = p.ID := by
    show (merge env (prepared env w m name).2 m
      (unarchived (prepared env w m name).1)).1.photo.ID = p.ID
    rw [m1, u1, p2, hpl]
  have hty : (merge env (prepared env w m name).2 m
      (unarchived (prepared env w m name).1)).1.photoRow.PhotoType = TypeRaw := by
    show (merge env (prepared env w m name).2 m
      (unarchived (prepared env w m name).1)).1.photo.PhotoType = TypeRaw
    rw [merge_photoType]
    apply mergeKind_raw env m _ hjpg hxmp hraw
    rw [u4, p6, hpl]
    exact htype
  have hnp : (merge env (prepared env w m name).2 m
      (unarchived (prepared env w m name).1)).1.file.FilePrimary = false := by
    rw [m6, u5]
    exact pnp
  obtain ⟨g1, -, -, g4⟩ := finalPhoto_frame env m
    (merge env (prepared env w m name).2 m (unarchived (prepared env w m name).1)).1
    (merge env (prepared env w m name).2 m (unarchived (prepared env w m name).1)).1.photoRow
  have hpm : p ∈ w.photos := List.mem_of_find?_eq_some hphoto
  have hjm : j ∈ w.files := List.mem_of_find?_eq_some hprim
  have hjp := List.find?_some hprim
  simp only [Bool.and_eq_true, beq_iff_eq] at hjp
  rw [r1, r2, r3, f1, hq]
  simp only [firstPhotos, firstPhoto, hex, if_true, Bool.false_eq_true, if_false, w1, w2]
  refine ⟨trivial, ?_, ⟨_, savePhotoRows_mem _ _, g1.trans hid⟩, ?_, ⟨_, rfl, ?_, ?_⟩, ?_,
    hjp.1.2, hjp.1.1, hjp.2⟩
  · rw [savePhotoRows_length _ _ _ (savePhotoRows_mem w.photos _) g1.symm,
      savePhotoRows_length _ _ p hpm hid.symm]
  · intro q hq1 hq2
    rcases savePhotoRows_rows _ _ _ hq1 with h3 | h3
    · rw [h3]
      exact g4.trans hty
    · exact absurd (hq2.trans (g1.trans hid).symm) h3.2
  · simp only [writtenFile, f1, hq, Bool.false_eq_true, if_false]
    exact hnp
  · simp only [writtenFile, f1, hq, Bool.false_eq_true, if_false, firstPhoto, hex, if_true]
    exact hid
  · exact List.mem_append_left _ hjm

/-- Witness of C9 (as amended): `IMG_001.cr2` next to the indexed
`IMG_001.jpg`. -/
theorem raw_joins_jpeg_witness :
    (Index.MediaFile oneJpegEnv oneJpegWorld (some plainRaw) {} "").1.Status = .IndexAdded ∧
    (Index.MediaFile oneJpegEnv oneJpegWorld (some plainRaw) {} "").2.photos.length = 1 :=
  ⟨(raw_joins_jpeg oneJpegEnv oneJpegWorld plainRaw {} "" (oneJpegWorld.photos.get ⟨0, by decide⟩)
      (oneJpegWorld.files.get ⟨0, by decide⟩) rfl rfl rfl rfl rfl rfl (fun h => nomatch h) rfl
      rfl rfl rfl).1,
   (raw_joins_jpeg oneJpegEnv oneJpegWorld plainRaw {} "" (oneJpegWorld.photos.get ⟨0, by decide⟩)
      (oneJpegWorld.files.get ⟨0, by decide⟩) rfl rfl rfl rfl rfl rfl (fun h => nomatch h) rfl
      rfl rfl rfl).2.1⟩

/-- C9 fails as stated: the RAW file has the directory and stem of an indexed
photo of type image with a primary JPEG, and its path and hash match no file
row; but its embedded instance id is the one of the JPEG row, so that row is
bound and rewritten: the result is Updated, no file row is added and the
only file row is the RAW file, still flagged primary. -/
theorem raw_joins_jpeg_counterexample :
    rawWithUUID.IsRaw = true ∧
    uuidWorld.files.find? (fun g => g.FileName == rawWithUUID.fileName) = none ∧
    uuidWorld.files.find? (fun g => g.FileHash == rawWithUUID.Hash) = none ∧
    uuidWorld.photos.map (fun q => (q.PhotoPath, q.PhotoName, q.PhotoType))
      = [(rawWithUUID.filePath, rawWithUUID.fileBase, TypeImage)] ∧
    uuidWorld.files.map (fun g => (g.PhotoID, g.FileType, g.FilePrimary)) = [(1, "jpg", true)] ∧
    (Index.MediaFile oneJpegEnv uuidWorld (some rawWithUUID) {} "").1.Status = .IndexUpdated ∧
    (Index.MediaFile oneJpegEnv uuidWorld (some rawWithUUID) {} "").2.files.map
      (fun g => (g.ID, g.FileName, g.FileType, g.FilePrimary))
      = [(1, "2021/IMG_001.cr2", "raw", true)] :=
  ⟨rfl, rfl, rfl, rfl, rfl, rfl, rfl⟩

/-! ### C10 -/

/-- C10: for a video that reaches the video branch of the merge with readable
metadata and a duration `d` that is not negative, the photo type after the
merge is live exactly when `0 < d` and `d` is at most 3100 ms, and video
exactly when `d` is 0 or exceeds 3100 ms; a 2.5 s video yields live and a 5 s
video yields video. -/
theorem video_live_threshold (env : Env) (w : World) (m : MediaFile) (st : IndexState)
    (hj : m.IsJpeg = false) (hx : m.IsXMP = false) (hr : m.IsRaw = false)
    (hh : m.IsHEIF = false) (hi : m.IsImageOther = false) (hv : m.IsVideo = true)
    (he : m.MetaData.Error = none) (hd : 0 ≤ m.MetaData.Duration) :
    ((merge env w m st).1.photo.PhotoType = TypeLive ↔
      (0 < m.MetaData.Duration ∧ m.MetaData.Duration ≤ 3100 * Millisecond)) ∧
    ((merge env w m st).1.photo.PhotoType = TypeVideo ↔
      (m.MetaData.Duration = 0 ∨ m.MetaData.Duration > 3100 * Millisecond)) ∧
    ((merge env w m st).1.photo.PhotoType = TypeLive ∨
      (merge env w m st).1.photo.PhotoType = TypeVideo) ∧
    (m.MetaData.Duration = 2500 * Millisecond →
      (merge env w m st).1.photo.PhotoType = TypeLive) ∧
    (m.MetaData.Duration = 5000 * Millisecond →
      (merge env w m st).1.photo.PhotoType = TypeVideo) := by
  rw [merge_photoType, mergeKind_video env m st hj hx hr hh hi hv he]
  have hl := videoType_live_iff m.MetaData.Duration
  have hne : TypeLive ≠ TypeVideo := by decide
  have hl2 : videoType m.MetaData.Duration = TypeLive ↔
      (0 < m.MetaData.Duration ∧ m.MetaData.Duration ≤ 3100 * Millisecond) := by
    rw [hl]
    constructor
    · intro h
      exact ⟨lt_of_le_of_ne hd (Ne.symm h.1), h.2⟩
    · intro h
      exact ⟨ne_of_gt h.1, h.2⟩
  have hv2 : videoType m.MetaData.Duration = TypeVideo ↔
      (m.MetaData.Duration = 0 ∨ m.MetaData.Duration > 3100 * Millisecond) := by
    constructor
    · intro h
      by_contra hc
      rw [not_or, not_lt] at hc
      have := hl.mpr ⟨hc.1, hc.2⟩
      rw [h] at this
      exact hne this.symm
    · intro h
      rcases videoType_cases m.MetaData.Duration with h1 | h1
      · have h2 := hl.mp h1
        rcases h with h | h
        · exact absurd h h2.1
        · exact absurd h2.2 (not_le.mpr h)
      · exact h1
  refine ⟨hl2, hv2, videoType_cases _, ?_, ?_⟩
  · intro h
    rw [h]
    decide
  · intro h
    rw [h]
    decide

/-- Witness of C10: a 2.5 s video yields a live photo, a 5 s video a video. -/
theorem video_live_threshold_witness :
    0 ≤ shortVideo.MetaData.Duration ∧
    (merge {} {} shortVideo {}).1.photo.PhotoType = TypeLive ∧
    (merge {} {} { shortVideo with MetaData := { Duration := 5000 * Millisecond } }
      {}).1.photo.PhotoType = TypeVideo :=
  ⟨by decide,
   (video_live_threshold {} {} shortVideo {} rfl rfl rfl rfl rfl rfl rfl (by decide)).2.2.2.1 rfl,
   (video_live_threshold {} {} { shortVideo with MetaData := { Duration := 5000 * Millisecond } }
     {} rfl rfl rfl rfl rfl rfl rfl (by decide)).2.2.2.2 rfl⟩

/-! ### C11 -/

/-- C11: `Index.NSFW` returns true exactly when the `fit_720` thumbnail is
produced without error, the NSFW detector returns without error, and the
detector's scores exceed the High threshold.  When the thumbnailer or the
detector fails it returns false, so the classifier gate leaves the photo not
marked private; and whatever the two return, a run in which no write of a
photo row or file row fails does not fail. -/
theorem nsfw_true_iff (env : Env) (jpeg : MediaFile) :
    (Index.NSFW env jpeg = true ↔
      ∃ filename labels, jpeg.Thumbnail "fit_720" = .ok filename ∧
        env.nsfwDetector filename = .ok labels ∧ labels.exceedsHigh = true) ∧
    (∀ e, jpeg.Thumbnail "fit_720" = .error e → Index.NSFW env jpeg = false) ∧
    (∀ filename e, jpeg.Thumbnail "fit_720" = .ok filename →
      env.nsfwDetector filename = .error e → Index.NSFW env jpeg = false) ∧
    (∀ st : IndexState, env.conf.TensorFlowOff = false → st.photoExists = false →
      env.conf.FeaturesPrivate = true → env.conf.DetectNSFW = true →
      (classifyGate env jpeg st).photo.PhotoPrivate = Index.NSFW env jpeg) ∧
    (∀ (w : World) (o : IndexOptions) (name : String), env.faults.rowWritesOk →
      (Index.MediaFile env w (some jpeg) o name).1.Status ≠ .IndexFailed ∧
      (Index.MediaFile env w (some jpeg) o name).1.Error = none) := by
  refine ⟨?_, ?_, ?_, ?_, ?_⟩
  · unfold Index.NSFW
    cases ht : jpeg.Thumbnail "fit_720" with
    | error e => simp
    | ok filename =>
      cases hn : env.nsfwDetector filename with
      | error e => simp [hn]
      | ok labels => simp [hn]
  · intro e ht
    simp [Index.NSFW, ht]
  · intro filename e ht hn
    simp [Index.NSFW, ht, hn]
  · intro st h1 h2 h3 h4
    simp [classifyGate, h1, h2, h3, h4]
  · intro w o name hf
    exact MediaFile_rowWritesOk env w jpeg o name hf

/-- Witness of C11: the thumbnail is rendered and the detector reports
scores above the High threshold, so the file is reported as offensive; with
the default detector, which fails, it is not. -/
theorem nsfw_true_iff_witness :
    Index.NSFW nsfwEnv thumbJpeg = true ∧
    Index.NSFW { conf := nsfwEnv.conf } thumbJpeg = false ∧
    (Index.MediaFile nsfwEnv {} (some thumbJpeg) {} "").1.Error = none :=
  ⟨(nsfw_true_iff nsfwEnv thumbJpeg).1.mpr ⟨"thumb/fit_720", { exceedsHigh := true }, rfl, rfl, rfl⟩,
   (nsfw_true_iff { conf := nsfwEnv.conf } thumbJpeg).2.2.1 "thumb/fit_720" "off" rfl rfl,
   ((nsfw_true_iff nsfwEnv thumbJpeg).2.2.2.2 {} {} "" ⟨rfl, rfl, rfl, rfl, rfl⟩).2⟩

/-! ### C12 -/

/-- C12 (as amended): with the `txt` helpers of the spec, when
`Index.MediaFile` is run twice in succession on the same primary file and
both runs return Added or Updated, the keyword sources of the second run
(file name keywords, location keywords, keywords of the original name, main
color, label keywords) are those of the first run and every one of them is a
word without comma and blank, then the `details.keywords` string persisted by
the second run equals the one persisted by the first run, provided that
string is not empty or the metadata carries no keywords. -/
theorem keywords_stable_on_rerun (env : Env) (stop : List String) (w : World) (m : MediaFile)
    (o o2 : IndexOptions) (name : String)
    (hK : env.Keywords = txt.Keywords) (hU : env.UniqueWords = txt.UniqueWords stop)
    (h1 : (Index.MediaFile env w (some m) o name).1.Status = .IndexAdded ∨
          (Index.MediaFile env w (some m) o name).1.Status = .IndexUpdated)
    (hp : (prepared env w m name).1.file.FilePrimary = true)
    (h2 : (Index.MediaFile env (Index.MediaFile env w (some m) o name).2 (some m) o2
              name).1.Status = .IndexAdded ∨
          (Index.MediaFile env (Index.MediaFile env w (some m) o name).2 (some m) o2
              name).1.Status = .IndexUpdated)
    (hsame : runSources env (Index.MediaFile env w (some m) o name).2 m name
               = runSources env w m name)
    (hw : ∀ x ∈ runSources env w m name, txt.IsWord x)
    (hne : (persistedPhoto env w m name).Details.Keywords ≠ "" ∨ m.MetaData.Keywords = "") :
    (∃ q1 ∈ (Index.MediaFile env w (some m) o name).2.photos,
      q1.ID = (Index.MediaFile env w (some m) o name).1.PhotoID ∧
      ∃ q2 ∈ (Index.MediaFile env (Index.MediaFile env w (some m) o name).2 (some m) o2
          name).2.photos,
        q2.ID = (Index.MediaFile env (Index.MediaFile env w (some m) o name).2 (some m) o2
          name).1.PhotoID ∧
        q2.Details.Keywords = q1.Details.Keywords) ∧
    (∀ q1 ∈ (Index.MediaFile env w (some m) o name).2.photos,
      q1.ID = (Index.MediaFile env w (some m) o name).1.PhotoID →
      ∀ q2 ∈ (Index.MediaFile env (Index.MediaFile env w (some m) o name).2 (some m) o2
          name).2.photos,
        q2.ID = (Index.MediaFile env (Index.MediaFile env w (some m) o name).2 (some m) o2
          name).1.PhotoID →
        q2.Details.Keywords = q1.Details.Keywords) := by
  obtain ⟨hfile, hphoto⟩ := rows_after_success env w m o name h1
  obtain ⟨a1, a2, a3, -⟩ := MediaFile_persisted env w m o name h1
  obtain ⟨b1, b2, b3, -⟩ := MediaFile_persisted env _ m o2 name h2
  generalize hw1 : (Index.MediaFile env w (some m) o name).2 = w1 at *
  have hfl := resolveFile_of_name env w1 m _ hfile
  have hpl : (resolvePhoto env w1 m).photo = persistedPhoto env w m name := by
    simp [resolvePhoto, lookupPhoto, hfl, hphoto]
  have hp2 : (prepared env w1 m name).1.file.FilePrimary = true := by
    apply prepared_primary
    rw [hfl]
    show (writtenFile env (merged env w m name).2 (merged env w m name).1).FilePrimary = true
    rw [(writtenFile_frame env _ _).2.2, merged_primary, hp]
  have hk2 := merged_keywords env w1 m name (by rw [hpl]; exact hne)
  rw [hpl] at hk2
  have k1 := persistedPhoto_keywords env w m name hp
  have k2 := persistedPhoto_keywords env w1 m name hp2
  have hkey : (persistedPhoto env w1 m name).Details.Keywords
      = (persistedPhoto env w m name).Details.Keywords := by
    rw [k2, k1]
    exact deriveKeywords_again env stop m _ _ _ _ _ _ hK hU hsame hw (hk2.trans k1)
  refine ⟨⟨_, a1, a2, _, b1, b2, hkey⟩, ?_⟩
  intro q1 hq1 hid1 q2 hq2 hid2
  rw [a3 q1 hq1 hid1, b3 q2 hq2 hid2]
  exact hkey

/-- Witness of C12 (as amended): a JPEG with the metadata keywords `Beach,
the Sun` is indexed twice, starting from the empty store; both runs persist
the keyword string `beach, sun`. -/
theorem keywords_stable_on_rerun_witness :
    (Index.MediaFile txtEnv {} (some keywordJpeg) {} "").2.photos.map
      (fun q => q.Details.Keywords) = ["beach, sun"] ∧
    ∃ q2 ∈ (Index.MediaFile txtEnv (Index.MediaFile txtEnv {} (some keywordJpeg) {} "").2
        (some keywordJpeg) {} "").2.photos,
      q2.Details.Keywords = "beach, sun" := by
  have hrun : (Index.MediaFile txtEnv {} (some keywordJpeg) {} "").2.photos.map
      (fun q => q.Details.Keywords) = ["beach, sun"] := by decide
  refine ⟨hrun, ?_⟩
  have hsrc : runSources txtEnv {} keywordJpeg "" = [""] := rfl
  have hwords : ∀ x ∈ runSources txtEnv {} keywordJpeg "", txt.IsWord x := by
    intro x hx
    rw [hsrc] at hx
    rw [List.mem_singleton.mp hx]
    intro c hc
    exact absurd hc (List.not_mem_nil c)
  obtain ⟨q1, hq1, -, q2, hq2, -, hk⟩ :=
    (keywords_stable_on_rerun txtEnv ["the"] {} keywordJpeg {} {} "" rfl rfl (Or.inl rfl) rfl
      (Or.inr rfl) rfl hwords (Or.inl (by decide))).1
  refine ⟨q2, hq2, ?_⟩
  rw [hk]
  have : q1.Details.Keywords ∈ (Index.MediaFile txtEnv {} (some keywordJpeg) {} "").2.photos.map
      (fun q => q.Details.Keywords) := List.mem_map.mpr ⟨q1, hq1, rfl⟩
  rw [hrun] at this
  exact List.mem_singleton.mp this

/-- C12 fails as stated: the stored keyword string `", "` holds no word and
the metadata of the primary JPEG carries the keyword `beach`; the first run
persists the empty keyword string, the second run, with the same (empty)
labels, location keywords, main color and original name, refills the
keywords from the metadata and persists `beach`.  Also, a keyword source that
holds a comma and a blank is read back as two words: deriving again from
`sea, side` yields `sea, side, sea, side`. -/
theorem keywords_rerun_counterexample :
    (Index.MediaFile txtEnv blankKeywordsWorld (some { keywordJpeg with
        MetaData := { Keywords := "beach" } }) {} "").1.Status = .IndexUpdated ∧
    (Index.MediaFile txtEnv blankKeywordsWorld (some { keywordJpeg with
        MetaData := { Keywords := "beach" } }) {} "").2.photos.map
      (fun q => q.Details.Keywords) = [""] ∧
    (Index.MediaFile txtEnv
      (Index.MediaFile txtEnv blankKeywordsWorld (some { keywordJpeg with
        MetaData := { Keywords := "beach" } }) {} "").2
      (some { keywordJpeg with MetaData := { Keywords := "beach" } }) {} "").1.Status
        = .IndexUpdated ∧
    (Index.MediaFile txtEnv
      (Index.MediaFile txtEnv blankKeywordsWorld (some { keywordJpeg with
        MetaData := { Keywords := "beach" } }) {} "").2
      (some { keywordJpeg with MetaData := { Keywords := "beach" } }) {} "").2.photos.map
      (fun q => q.Details.Keywords) = ["beach"] ∧
    deriveKeywords txtEnv keywordJpeg commaState {} [] = "sea, side" ∧
    deriveKeywords txtEnv keywordJpeg
      { commaState with details := { Keywords := "sea, side" } } {} []
      = "sea, side, sea, side" := by
  refine ⟨rfl, by decide, rfl, by decide, by decide, by decide⟩

/-! ### C13 -/

/-- C14: for every non-empty directory `dir` given without a trailing
separator and every path `rest`, `fs.Rel (dir + "/" + rest) dir = rest`; the
same result is returned when the directory is given with the trailing
separator; when `dir` is empty or is not a leading part of `fileName`,
`fs.Rel` returns `fileName` unchanged; `fs.Rel p p = ""`; and the two cases of
`TestRel` with `/some/path/foo/bar.baz` yield `foo/bar.baz`. -/
theorem rel_strips_directory (dir rest : String) :
    (dir ≠ "" → dir.toList.getLast? ≠ some '/' → fs.Rel (dir ++ "/" ++ rest) dir = rest) ∧
    fs.Rel (dir ++ "/" ++ rest) (dir ++ "/") = rest ∧
    (∀ fileName : String, fs.Rel fileName "" = fileName) ∧
    (∀ fileName : String, dir.toList.isPrefixOf fileName.toList = false →
      fs.Rel fileName dir = fileName) ∧
    fs.Rel dir dir = "" ∧
    fs.Rel "/some/path/foo/bar.baz" "/some/path" = "foo/bar.baz" ∧
    fs.Rel "/some/path/foo/bar.baz" "/some/path/" = "foo/bar.baz" := by
  have hcat : (dir ++ "/" ++ rest).toList = dir.toList ++ '/' :: rest.toList := by
    simp [String.toList, String.data_append]
  have hsep : (dir ++ "/").toList = dir.toList ++ ['/'] := by
    simp [String.toList, String.data_append]
  refine ⟨?_, ?_, ?_, ?_, ?_, by decide, by decide⟩
  · intro hd hl
    have hd2 : dir.toList ≠ [] := by
      intro h
      apply hd
      exact String.ext h
    unfold fs.Rel
    rw [hcat, relChars_strip _ _ hd2 hl]
    rfl
  · unfold fs.Rel
    rw [hcat, hsep, relChars_strip_sep]
    rfl
  · intro fileName
    unfold fs.Rel
    rw [show ("" : String).toList = [] from rfl, relChars_nil]
    rfl
  · intro fileName h
    unfold fs.Rel
    rw [relChars_of_other_dir _ _ h]
    rfl
  · unfold fs.Rel
    rw [relChars_self]

/-- Witness of C14: the file `foo/bar.baz` below `/some/path`, and a directory
that is not a leading part of the file name. -/
theorem rel_strips_directory_witness :
    fs.Rel ("/some/path" ++ "/" ++ "foo/bar.baz") "/some/path" = "foo/bar.baz" ∧
    fs.Rel "/some/path/foo/bar.baz" "/some/path/bar" = "/some/path/foo/bar.baz" :=
  ⟨(rel_strips_directory "/some/path" "foo/bar.baz").1 (by decide) (by decide),
   (rel_strips_directory "/some/path/bar" "").2.2.2.1 "/some/path/foo/bar.baz" (by decide)⟩

/-! ### C15 -/

/-- C15 (as amended): for a media file bound to an existing file row whose
stored content hash differs from the probed one, `fileChanged` is true exactly
when the probed size or the probed modification time differs from the stored
one; when both equal the stored ones and the photo exists, `Index.MediaFile`
with `skipUnchanged` returns Skipped. -/
theorem file_changed_iff_size_or_time (env : Env) (w : World) (m : MediaFile)
    (o : IndexOptions) (name : String)
    (hb : (resolveFile env w m).fileExists = true)
    (hh : (resolveFile env w m).file.FileHash ≠ m.Hash) :
    ((resolvePhoto env w m).fileChanged = true ↔
      ((resolveFile env w m).file.FileSize ≠ m.fileSize ∨
       (resolveFile env w m).file.FileModified ≠ m.fileModified)) ∧
    ((resolveFile env w m).file.FileSize = m.fileSize →
      (resolveFile env w m).file.FileModified = m.fileModified →
      (resolvePhoto env w m).photoExists = true → o.SkipUnchanged = true →
      (Index.MediaFile env w (some m) o name).1 = { Status := .IndexSkipped }) := by
  have hc := resolvePhoto_fileChanged env w m hb
  have hiff : (resolvePhoto env w m).fileChanged = true ↔
      ((resolveFile env w m).file.FileSize ≠ m.fileSize ∨
       (resolveFile env w m).file.FileModified ≠ m.fileModified) := by
    rw [hc]
    simp [File.Changed]
  refine ⟨hiff, ?_⟩
  intro hs ht hp ho
  have hd : (resolveFile env w m).duplicate = false := by
    cases h : (resolveFile env w m).duplicate with
    | false => rfl
    | true => exact absurd (lookupFile_duplicate_hash env w m h) hh
  have hn : (resolvePhoto env w m).fileChanged = false := by
    cases h : (resolvePhoto env w m).fileChanged with
    | false => rfl
    | true =>
      rcases hiff.mp h with h1 | h1
      · exact absurd hs h1
      · exact absurd ht h1
  rw [MediaFile_of_skipped env w m o name hd hn hp ho]

/-- Witness of C15 (as amended): `2021/IMG_001.jpg` rewritten with a new
hash, the same size and the same modification time is skipped. -/
theorem file_changed_iff_size_or_time_witness :
    (Index.MediaFile oneJpegEnv oneJpegWorld (some rehashedJpeg) { SkipUnchanged := true } "").1
      = { Status := .IndexSkipped } :=
  (file_changed_iff_size_or_time oneJpegEnv oneJpegWorld rehashedJpeg { SkipUnchanged := true } ""
    rfl (by decide)).2 rfl rfl rfl rfl

/-- C15 fails as stated: the row of `2021/IMG_001.jpg` stores the hash `abc`,
the probe has the hash `zzz` with the stored size and modification time; it
is bound to the row, `fileChanged` is false and the run with `skipUnchanged`
returns Skipped. -/
theorem hash_change_counterexample :
    (resolveFile oneJpegEnv oneJpegWorld rehashedJpeg).fileExists = true ∧
    (resolveFile oneJpegEnv oneJpegWorld rehashedJpeg).file.FileHash = "abc" ∧
    rehashedJpeg.Hash = "zzz" ∧
    (resolvePhoto oneJpegEnv oneJpegWorld rehashedJpeg).fileChanged = false ∧
    (Index.MediaFile oneJpegEnv oneJpegWorld (some rehashedJpeg)
      { SkipUnchanged := true } "").1.Status = .IndexSkipped :=
  ⟨rfl, rfl, rfl, rfl, rfl⟩

/-! ### C16 -/

/-- C16 (as amended): for labels accumulated over the crops with every
uncertainty in 0..100, `Index.classifyImage` returns, in sorted (priority,
uncertainty) order, exactly those labels whose confidence `100 - uncertainty`
is strictly greater than one third of the reference confidence, which is the
confidence of the first label in sorted order whose confidence is not zero
(zero when there is none). -/
theorem classify_selects_by_reference (env : Env) (jpeg : MediaFile)
    (hr : ∀ l ∈ accumulateLabels env jpeg, 0 ≤ l.Uncertainty ∧ l.Uncertainty ≤ 100) :
    Index.classifyImage env jpeg =
      (sortLabels (accumulateLabels env jpeg)).filter (fun l =>
        decide (3 * l.confidence >
          referenceConfidence (sortLabels (accumulateLabels env jpeg)))) ∧
    (Index.classifyImage env jpeg).Pairwise (fun a b => Label.le a b = true) := by
  have hs : ∀ l ∈ sortLabels (accumulateLabels env jpeg), l.Uncertainty ≤ 100 :=
    fun l hl => (hr l ((mem_sortLabels _ l).mp hl)).2
  have he : Index.classifyImage env jpeg =
      (sortLabels (accumulateLabels env jpeg)).filter (fun l =>
        decide (3 * l.confidence >
          referenceConfidence (sortLabels (accumulateLabels env jpeg)))) := by
    unfold Index.classifyImage
    rw [foldl_selectLabel _ hs]
    simp
  refine ⟨he, ?_⟩
  rw [he]
  exact List.Pairwise.filter _ (sortLabels_sorted _)

/-- Witness of C16 (as amended): three labels, the first of which has
confidence 10, are all selected. -/
theorem classify_selects_by_reference_witness :
    Index.classifyImage threeLabelsEnv thumbJpeg = threeLabels := by
  have hacc : accumulateLabels threeLabelsEnv thumbJpeg = threeLabels := by
    simp [accumulateLabels, classifyThumbs, thumbJpeg, threeLabelsEnv]
  have hsort : sortLabels threeLabels = threeLabels :=
    List.mergeSort_of_sorted (by decide)
  have h := (classify_selects_by_reference threeLabelsEnv thumbJpeg (by
    rw [hacc]
    decide)).1
  rw [hacc, hsort] at h
  rw [h]
  decide

/-- C16 fails as stated: the accumulated labels have the confidences 10, 100
and 10; the highest confidence is 100, one third of which exceeds 10, yet the
label `outdoor` with confidence 10 is returned. -/
theorem highest_confidence_counterexample :
    accumulateLabels threeLabelsEnv thumbJpeg = threeLabels ∧
    highestConfidence threeLabels = 100 ∧
    ({ Name := "outdoor", Uncertainty := 90, Priority := 0 } : Label).confidence = 10 ∧
    ({ Name := "outdoor", Uncertainty := 90, Priority := 0 } : Label) ∈
      Index.classifyImage threeLabelsEnv thumbJpeg := by
  have hacc : accumulateLabels threeLabelsEnv thumbJpeg = threeLabels := by
    simp [accumulateLabels, classifyThumbs, thumbJpeg, threeLabelsEnv]
  have hsort : sortLabels threeLabels = threeLabels :=
    List.mergeSort_of_sorted (by decide)
  refine ⟨hacc, by decide, by decide, ?_⟩
  unfold Index.classifyImage
  rw [hacc, hsort]
  decide

/-! ### C17 -/

/-- C17 (as amended): for a probed file that is not a sidecar, that no file
row matches by path and none by content hash, and whose metadata carries an
instance id equal to the uuid of a file row, `Index.MediaFile` binds the first
such row: the run is never Added and never a Duplicate, and unless it is
short-circuited as Skipped or Archived or a write fails, the result is
Updated, `FileID` is the key of the bound row and the rows with that key are
rewritten in place. -/
theorem instance_id_binds_row (env : Env) (w : World) (m : MediaFile) (o : IndexOptions)
    (name : String) (f : File)
    (hsc : m.IsSidecar = false)
    (hname : w.files.find? (fun g => g.FileName == m.fileName) = none)
    (hhash : w.files.find? (fun g => g.FileHash == m.Hash) = none)
    (hinst : m.MetaData.HasInstanceID = true)
    (huuid : w.files.find? (fun g => g.UUID == m.MetaData.InstanceID) = some f) :
    (resolveFile env w m).file = f ∧ (resolveFile env w m).fileExists = true ∧
    (Index.MediaFile env w (some m) o name).1.Status ≠ .IndexAdded ∧
    (Index.MediaFile env w (some m) o name).1.Status ≠ .IndexDuplicate ∧
    ((Index.MediaFile env w (some m) o name).1.Status ≠ .IndexSkipped →
      (Index.MediaFile env w (some m) o name).1.Status ≠ .IndexArchived →
      (Index.MediaFile env w (some m) o name).1.Status ≠ .IndexFailed →
      (Index.MediaFile env w (some m) o name).1.Status = .IndexUpdated ∧
      (Index.MediaFile env w (some m) o name).1.FileID = f.ID ∧
      ∃ g, g.ID = f.ID ∧ (Index.MediaFile env w (some m) o name).2.files
        = w.files.map (fun x => if x.ID == f.ID then g else x)) := by
  have hfl : resolveFile env w m =
      { file := f, fileExists := true, fileQueryOk := true, fileHash := m.Hash } := by
    simp [resolveFile, lookupFile, hname, hsc, hhash, hinst, huuid]
  have hfile : (resolveFile env w m).file = f := by rw [hfl]
  have hex : (resolveFile env w m).fileExists = true := by rw [hfl]
  have hdup : (resolveFile env w m).duplicate = false := by rw [hfl]
  have hnd : (Index.MediaFile env w (some m) o name).1.Status ≠ .IndexDuplicate := by
    cases hs : (!(resolvePhoto env w m).fileChanged && (resolvePhoto env w m).photoExists
        && o.SkipUnchanged) with
    | true =>
      simp only [Bool.and_eq_true, Bool.not_eq_true'] at hs
      rw [MediaFile_of_skipped env w m o name hdup hs.1.1 hs.1.2 hs.2]
      exact fun h => IndexStatus.noConfusion h
    | false =>
      rw [MediaFile_of_prepared env w m o name hdup hs]
      split
      · exact fun h => IndexStatus.noConfusion h
      · rw [indexRest_eq]
        rcases persist_status env
          (merge env (prepared env w m name).2 m (unarchived (prepared env w m name).1)).2 m name
          (merge env (prepared env w m name).2 m (unarchived (prepared env w m name).1)).1
          with h | h | h <;> rw [h] <;> decide
  have hna : (Index.MediaFile env w (some m) o name).1.Status ≠ .IndexAdded := by
    intro h
    have := (MediaFile_files env w m o name (Or.inl h)).1
    rw [hex, h] at this
    exact IndexStatus.noConfusion this
  refine ⟨hfile, hex, hna, hnd, ?_⟩
  intro hS hA hF
  have hu : (Index.MediaFile env w (some m) o name).1.Status = .IndexUpdated := by
    have he := MediaFile_of_indexed env w m o name hnd hS hA
    rw [indexRest_eq] at he
    rcases persist_status env
      (merge env (prepared env w m name).2 m (unarchived (prepared env w m name).1)).2 m name
      (merge env (prepared env w m name).2 m (unarchived (prepared env w m name).1)).1
      with h | h | h
    · rw [he] at hF
      exact absurd h hF
    · rw [he]
      exact h
    · rw [he] at hna
      exact absurd h hna
  obtain ⟨-, h2, -⟩ := MediaFile_files env w m o name (Or.inr hu)
  obtain ⟨g, g1, g2, g3⟩ := h2 hex
  rw [hfile] at g1
  refine ⟨hu, g2.trans g1, g, g1, ?_⟩
  rw [g3, g1]

/-- Witness of C17 (as amended): the RAW file with the instance id `X` is
bound to the row with the uuid `X` and the run returns Updated. -/
theorem instance_id_binds_row_witness :
    (Index.MediaFile {} uuidWorld (some rawWithUUID) {} "").1.Status = .IndexUpdated ∧
    (Index.MediaFile {} uuidWorld (some rawWithUUID) {} "").1.FileID = 1 :=
  ⟨((instance_id_binds_row {} uuidWorld rawWithUUID {} ""
      { ID := 1, PhotoID := 1, PhotoUID := "p1", FileUID := "f1", UUID := "X",
        FileName := "2021/IMG_001.jpg", FileHash := "abc", FileSize := 10,
        FileModified := 7, FileType := "jpg", FilePrimary := true }
      rfl rfl rfl rfl rfl).2.2.2.2 (by decide) (by decide) (by decide)).1,
   ((instance_id_binds_row {} uuidWorld rawWithUUID {} ""
      { ID := 1, PhotoID := 1, PhotoUID := "p1", FileUID := "f1", UUID := "X",
        FileName := "2021/IMG_001.jpg", FileHash := "abc", FileSize := 10,
        FileModified := 7, FileType := "jpg", FilePrimary := true }
      rfl rfl rfl rfl rfl).2.2.2.2 (by decide) (by decide) (by decide)).2.1⟩

/-- C17 fails as stated: an XMP sidecar that no row matches by path or hash
carries the instance id `X` of the row of `2021/IMG_001.jpg`; the sidecar is
not bound to that row, a second file row is created and the run returns
Added. -/
theorem sidecar_instance_id_counterexample :
    xmpWithUUID.IsSidecar = true ∧
    uuidWorld.files.find? (fun g => g.FileName == xmpWithUUID.fileName) = none ∧
    uuidWorld.files.find? (fun g => g.FileHash == xmpWithUUID.Hash) = none ∧
    xmpWithUUID.MetaData.HasInstanceID = true ∧
    (uuidWorld.files.find? (fun g => g.UUID == xmpWithUUID.MetaData.InstanceID)).isSome = true ∧
    (resolveFile {} uuidWorld xmpWithUUID).fileExists = false ∧
    (Index.MediaFile {} uuidWorld (some xmpWithUUID) {} "").1.Status = .IndexAdded ∧
    (Index.MediaFile {} uuidWorld (some xmpWithUUID) {} "").2.files.length = 2 :=
  ⟨rfl, rfl, rfl, rfl, rfl, rfl, rfl, rfl⟩

/-! ### C18 -/

/-- C18 (as amended): for every run that returns Added or Updated, the photo
row the result names has a quality of at least 0 when the file is primary;
when the file is not primary its quality is -1 exactly when the photo had
quality -1 at the archive check (line 178), which is the stored quality for a
photo found in the store and the -1 assigned at line 139 for a photo that is
neither found in the store nor restored from a YAML sidecar. -/
theorem quality_sentinel_origin (env : Env) (w : World) (m : MediaFile) (o : IndexOptions)
    (name : String)
    (h : (Index.MediaFile env w (some m) o name).1.Status = .IndexAdded ∨
         (Index.MediaFile env w (some m) o name).1.Status = .IndexUpdated) :
    (∃ q ∈ (Index.MediaFile env w (some m) o name).2.photos,
      q.ID = (Index.MediaFile env w (some m) o name).1.PhotoID) ∧
    (∀ q ∈ (Index.MediaFile env w (some m) o name).2.photos,
      q.ID = (Index.MediaFile env w (some m) o name).1.PhotoID →
      ((prepared env w m name).1.file.FilePrimary = true → 0 ≤ q.PhotoQuality) ∧
      ((prepared env w m name).1.file.FilePrimary = false →
        (q.PhotoQuality = -1 ↔ (prepared env w m name).1.photo.PhotoQuality = -1))) ∧
    ((resolvePhoto env w m).photoExists = true →
      (prepared env w m name).1.photo.PhotoQuality = (resolvePhoto env w m).photo.PhotoQuality) ∧
    ((resolvePhoto env w m).photoExists = false → env.findYaml m = "" →
      (prepared env w m name).1.photo.PhotoQuality = -1) := by
  obtain ⟨p1, p2, p3, -⟩ := MediaFile_persisted env w m o name h
  refine ⟨⟨_, p1, p2⟩, ?_, ?_, ?_⟩
  · intro q hq hid
    rw [p3 q hq hid]
    obtain ⟨f1, f2⟩ := finalPhoto_quality env m (merged env w m name).1
      (firstPhoto env (merged env w m name).2 (merged env w m name).1)
    rw [merged_primary] at f1 f2
    rw [firstPhoto_quality, merged_quality] at f2
    exact ⟨f1, f2⟩
  · intro hp
    exact (prepared_photo env w m name hp).2.2.2.2.1
  · intro hp hy
    exact (prepared_quality_of_new env w m name hp hy).1

/-- Witness of C18 (as amended): the rewritten primary JPEG of a stored
photo is saved with a quality of at least 0. -/
theorem quality_sentinel_origin_witness :
    ∃ q ∈ (Index.MediaFile {} oneJpegWorld (some changedJpeg) {} "").2.photos,
      q.ID = (Index.MediaFile {} oneJpegWorld (some changedJpeg) {} "").1.PhotoID ∧
      0 ≤ q.PhotoQuality := by
  obtain ⟨q, hq, hid⟩ :=
    (quality_sentinel_origin {} oneJpegWorld changedJpeg {} "" (Or.inr rfl)).1
  exact ⟨q, hq, hid,
    ((quality_sentinel_origin {} oneJpegWorld changedJpeg {} "" (Or.inr rfl)).2.1 q hq hid).1 rfl⟩

/-- C18 fails as stated: a RAW file is indexed into the empty store; the run
returns Added and the photo it creates is persisted with quality -1. -/
theorem new_photo_quality_counterexample :
    ({} : World).photos.length = 0 ∧
    (Index.MediaFile {} {} (some plainRaw) {} "").1.Status = .IndexAdded ∧
    (Index.MediaFile {} {} (some plainRaw) {} "").1.PhotoID = 1 ∧
    (Index.MediaFile {} {} (some plainRaw) {} "").2.photos.map (fun q => (q.ID, q.PhotoQuality))
      = [(1, -1)] :=
  ⟨rfl, rfl, rfl, rfl⟩

/-! ### C19 -/

/-- C19 (as amended): `Index.MediaFile` writes the photo's YAML sidecar
exactly when the run returns Added or Updated (it reaches the end of the
pipeline with all writes of rows succeeded), the file is primary, the
sidecar-YAML flag is enabled and writing the YAML file itself does not fail,
whether or not the file changed: under these conditions exactly one sidecar,
holding the photo as it was saved, is written, and otherwise none. -/
theorem yaml_written_iff (env : Env) (w : World) (m : MediaFile) (o : IndexOptions)
    (name : String) :
    ((((Index.MediaFile env w (some m) o name).1.Status = .IndexAdded ∨
        (Index.MediaFile env w (some m) o name).1.Status = .IndexUpdated) ∧
       (prepared env w m name).1.file.FilePrimary = true ∧ env.conf.SidecarYaml = true ∧
       env.faults.saveAsYaml = none) →
      (Index.MediaFile env w (some m) o name).2.yamls =
        w.yamls ++ [(env.yamlFileName (persistedPhoto env w m name) env.conf.OriginalsPath
                       env.conf.SidecarPath, persistedPhoto env w m name)]) ∧
    (¬ (((Index.MediaFile env w (some m) o name).1.Status = .IndexAdded ∨
        (Index.MediaFile env w (some m) o name).1.Status = .IndexUpdated) ∧
       (prepared env w m name).1.file.FilePrimary = true ∧ env.conf.SidecarYaml = true ∧
       env.faults.saveAsYaml = none) →
      (Index.MediaFile env w (some m) o name).2.yamls = w.yamls) := by
  constructor
  · rintro ⟨hs, hp, hy, hf⟩
    rw [(MediaFile_persisted env w m o name hs).2.2.2]
    simp [writtenYamls, merged_primary, hp, hy, hf]
  · intro hn
    by_cases hs : (Index.MediaFile env w (some m) o name).1.Status = .IndexAdded ∨
        (Index.MediaFile env w (some m) o name).1.Status = .IndexUpdated
    · rw [(MediaFile_persisted env w m o name hs).2.2.2]
      have : ¬ ((prepared env w m name).1.file.FilePrimary = true ∧ env.conf.SidecarYaml = true ∧
          env.faults.saveAsYaml = none) := fun h => hn ⟨hs, h⟩
      cases hp : (prepared env w m name).1.file.FilePrimary <;>
        cases hy : env.conf.SidecarYaml <;> cases hf : env.faults.saveAsYaml <;>
        simp [writtenYamls, merged_primary, hp, hy, hf] at this ⊢
    · exact MediaFile_yamls_of_not_success env w m o name hs

/-- Witness of C19 (as amended): with the sidecar flag on, re-indexing the
rewritten primary JPEG writes one YAML file. -/
theorem yaml_written_iff_witness :
    (Index.MediaFile yamlEnv oneJpegWorld (some changedJpeg) {} "").2.yamls.length = 1 := by
  rw [(yaml_written_iff yamlEnv oneJpegWorld changedJpeg {} "").1 ⟨Or.inr rfl, rfl, rfl, rfl⟩]
  rfl

/-- C19 fails as stated: the primary file `2021/IMG_001.jpg` is probed with
the stored size and modification time (`fileChanged` is false); without
`skipUnchanged` the run returns Updated and writes a YAML sidecar. -/
theorem yaml_unchanged_counterexample :
    (resolvePhoto yamlEnv oneJpegWorld sameJpeg).fileChanged = false ∧
    (Index.MediaFile yamlEnv oneJpegWorld (some sameJpeg) {} "").1.Status = .IndexUpdated ∧
    oneJpegWorld.yamls.length = 0 ∧
    (Index.MediaFile yamlEnv oneJpegWorld (some sameJpeg) {} "").2.yamls.length = 1 :=
  ⟨rfl, rfl, rfl, rfl⟩

/-! ### C20 -/

/-- C20 (as amended): for every run that returns Added or Updated, the
private flag of the persisted photo is the verdict of `Index.NSFW` when the
detector is consulted (the file is primary, TensorFlow is not switched off,
the photo is not found in the store, also not after a YAML restore, and the
private feature and NSFW detection are enabled), and the flag the photo had
before the classifier gate otherwise.  In particular a private photo found in
the store stays private. -/
theorem private_flag_after_run (env : Env) (w : World) (m : MediaFile) (o : IndexOptions)
    (name : String)
    (h : (Index.MediaFile env w (some m) o name).1.Status = .IndexAdded ∨
         (Index.MediaFile env w (some m) o name).1.Status = .IndexUpdated) :
    (∃ q ∈ (Index.MediaFile env w (some m) o name).2.photos,
      q.ID = (Index.MediaFile env w (some m) o name).1.PhotoID) ∧
    (∀ q ∈ (Index.MediaFile env w (some m) o name).2.photos,
      q.ID = (Index.MediaFile env w (some m) o name).1.PhotoID →
      q.PhotoPrivate =
        (if (prepared env w m name).1.file.FilePrimary && !env.conf.TensorFlowOff
            && !(prepared env w m name).1.photoExists && env.conf.FeaturesPrivate
            && env.conf.DetectNSFW
         then Index.NSFW env m else (prepared env w m name).1.photo.PhotoPrivate) ∧
      ((prepared env w m name).1.photoExists = true →
        (prepared env w m name).1.photo.PhotoPrivate = true → q.PhotoPrivate = true) ∧
      ((resolvePhoto env w m).photoExists = true →
        (resolvePhoto env w m).photo.PhotoPrivate = true → q.PhotoPrivate = true)) := by
  obtain ⟨p1, p2, p3, -⟩ := MediaFile_persisted env w m o name h
  refine ⟨⟨_, p1, p2⟩, ?_⟩
  intro q hq hid
  rw [p3 q hq hid]
  have hp := persistedPhoto_private env w m name
  unfold nsfwConsulted at hp
  refine ⟨hp, ?_, ?_⟩
  · intro he hpriv
    rw [hp, he, hpriv]
    simp
  · intro he hpriv
    have h1 := (prepared_photo env w m name he).1
    have h2 := prepared_private env w m name he
    rw [hp, h1, h2, hpriv]
    simp

/-- Witness of C20 (as amended): a JPEG indexed into the empty store by a run
whose detector reports scores above the High threshold is persisted as
private. -/
theorem private_flag_after_run_witness :
    ∃ q ∈ (Index.MediaFile nsfwEnv {} (some thumbJpeg) {} "").2.photos,
      q.ID = (Index.MediaFile nsfwEnv {} (some thumbJpeg) {} "").1.PhotoID ∧
      q.PhotoPrivate = true := by
  obtain ⟨q, hq, hid⟩ := (private_flag_after_run nsfwEnv {} thumbJpeg {} "" (Or.inl rfl)).1
  exact ⟨q, hq, hid,
    ((private_flag_after_run nsfwEnv {} thumbJpeg {} "" (Or.inl rfl)).2 q hq hid).1.trans rfl⟩

/-- C20 fails as stated: a YAML sidecar restores a private photo that is not
in the store; the photo is private before the classifier gate, the detector
is consulted and fails, and the photo is persisted as not private. -/
theorem private_flag_counterexample :
    (prepared yamlPrivateEnv {} sameJpeg "").1.photo.PhotoPrivate = true ∧
    (prepared yamlPrivateEnv {} sameJpeg "").1.photoExists = false ∧
    (Index.MediaFile yamlPrivateEnv {} (some sameJpeg) {} "").1.Status = .IndexAdded ∧
    (Index.MediaFile yamlPrivateEnv {} (some sameJpeg) {} "").1.PhotoID = 1 ∧
    (Index.MediaFile yamlPrivateEnv {} (some sameJpeg) {} "").2.photos.map
      (fun q => (q.ID, q.PhotoUID, q.PhotoPrivate)) = [(1, "p9", false)] :=
  ⟨rfl, rfl, rfl, rfl, rfl⟩
end Photoprism
